import Mathlib

/-!
# NA-Forays-Schedule: admission control and change detection

A shallow embedding of `src/utils/rateLimiter.js` (class `RateLimiter`) and of the
hashing part of `src/services/containerBuilder.js` (`generateServerHash`,
`generateContentHash`), followed by the properties proved about them.

Modelling conventions.

* Instants are `Int` milliseconds (the values of `Date.now()`); the subtractions of the
  source are integer subtractions and may be negative.
* One call of a limiter method reads the clock once: the `Date.now()` reads made inside
  one synchronous call (`checkCommandCooldown`, then `checkRequestLimit`, then
  `incrementRequestCount`) are the same instant `now`.
* A JavaScript `Map` with string keys is a function `String → Option _`; `get` is
  application, `set` is `mapSet`, `delete` is `mapDelete`.  The limiter never depends on
  the iteration order of its maps.
* `Math.ceil(x / 1000)` on an integer `x` is `mathCeilDiv x 1000`.
-/

namespace NAForays

/-! ## `src/config/constants.js`: `RATE_LIMITER` -/

/-- `RATE_LIMITER.COMMAND_COOLDOWN`: 3 seconds between commands. -/
def COMMAND_COOLDOWN : Int := 3000

/-- `RATE_LIMITER.INTERACTION_COOLDOWN`: 1 second between interactions. -/
def INTERACTION_COOLDOWN : Int := 1000

/-- `RATE_LIMITER.REQUEST_WINDOW`: 1 minute window. -/
def REQUEST_WINDOW : Int := 60000

/-- `RATE_LIMITER.MAX_REQUESTS_PER_WINDOW`: at most 30 requests per minute. -/
def MAX_REQUESTS_PER_WINDOW : Nat := 30

/-! ## `src/utils/rateLimiter.js` -/

/-- `Map.prototype.set` on a map seen as a function. -/
def mapSet {α : Type} (m : String → Option α) (key : String) (v : α) : String → Option α :=
  fun k => if k = key then some v else m k

/-- `Map.prototype.delete` on a map seen as a function. -/
def mapDelete {α : Type} (m : String → Option α) (key : String) : String → Option α :=
  fun k => if k = key then none else m k

/-- `String.prototype.startsWith`: `pre` is an initial segment of `key`. -/
def startsWith (key pre : String) : Bool :=
  pre.data.isPrefixOf key.data

/-- `Math.ceil(x / d)` for an integer `x` and a positive integer `d`. -/
def mathCeilDiv (x d : Int) : Int :=
  -((-x) / d)

/-- `Math.min(...xs)`; `none` stands for the `Infinity` of an empty argument list. -/
def mathMin : List Int → Option Int
  | [] => none
  | x :: xs => some (xs.foldl min x)

/-- The object returned by the checks: `{ allowed }` or `{ allowed, timeLeft }`. -/
structure CheckResult where
  allowed : Bool
  timeLeft : Option Int
  deriving DecidableEq, Repr

/-- The three maps of a `RateLimiter` instance.  Keys of the two cooldown maps are the
strings `userId:action`; the request map holds `userData.requests` under `userId`. -/
structure RateLimiter where
  userCommandCooldowns : String → Option Int
  userInteractionCooldowns : String → Option Int
  userRequestCounts : String → Option (List Int)

/-- The state built by the constructor: three empty maps. -/
def RateLimiter.new : RateLimiter :=
  { userCommandCooldowns := fun _ => none
    userInteractionCooldowns := fun _ => none
    userRequestCounts := fun _ => none }

/-- The template literal that builds a cooldown key from actor and action. -/
def cooldownKey (userId action : String) : String :=
  userId ++ ":" ++ action

/-- The filter `time => now - time < this.REQUEST_WINDOW`. -/
def recent (now : Int) (requests : List Int) : List Int :=
  requests.filter (fun time => now - time < REQUEST_WINDOW)

/-- `checkRequestLimit(userId)` (lines 68-92); it does not change the state. -/
def checkRequestLimit (s : RateLimiter) (userId : String) (now : Int) : CheckResult :=
  match s.userRequestCounts userId with
  | none => { allowed := true, timeLeft := none }
  | some requests =>
    let recentRequests := recent now requests
    if recentRequests.length ≥ MAX_REQUESTS_PER_WINDOW then
      let timeLeft := (mathMin recentRequests).map
        (fun oldestRequest => mathCeilDiv (REQUEST_WINDOW - (now - oldestRequest)) 1000)
      { allowed := false, timeLeft := timeLeft }
    else
      { allowed := true, timeLeft := none }

/-- `incrementRequestCount(userId)` (lines 94-102). -/
def incrementRequestCount (s : RateLimiter) (userId : String) (now : Int) : RateLimiter :=
  let requests := (s.userRequestCounts userId).getD []
  let pushed := requests ++ [now]
  { s with userRequestCounts := mapSet s.userRequestCounts userId (recent now pushed) }

/-- `checkCommandCooldown(userId, commandName)` (lines 21-43): the result and the state
after the call.  A stored instant `0` is falsy in `if (lastUsed)`. -/
def checkCommandCooldown (s : RateLimiter) (userId commandName : String) (now : Int) :
    CheckResult × RateLimiter :=
  let key := cooldownKey userId commandName
  let requestCheck := checkRequestLimit s userId now
  if requestCheck.allowed = false then (requestCheck, s)
  else
    let proceed : CheckResult × RateLimiter :=
      ({ allowed := true, timeLeft := none },
       incrementRequestCount
         { s with userCommandCooldowns := mapSet s.userCommandCooldowns key now } userId now)
    match s.userCommandCooldowns key with
    | none => proceed
    | some lastUsed =>
      if lastUsed ≠ 0 ∧ now - lastUsed < COMMAND_COOLDOWN then
        ({ allowed := false
           timeLeft := some (mathCeilDiv (COMMAND_COOLDOWN - (now - lastUsed)) 1000) }, s)
      else proceed

/-- `checkInteractionCooldown(userId, interactionType)` (lines 45-66). -/
def checkInteractionCooldown (s : RateLimiter) (userId interactionType : String) (now : Int) :
    CheckResult × RateLimiter :=
  let key := cooldownKey userId interactionType
  let requestCheck := checkRequestLimit s userId now
  if requestCheck.allowed = false then (requestCheck, s)
  else
    let proceed : CheckResult × RateLimiter :=
      ({ allowed := true, timeLeft := none },
       incrementRequestCount
         { s with userInteractionCooldowns := mapSet s.userInteractionCooldowns key now }
         userId now)
    match s.userInteractionCooldowns key with
    | none => proceed
    | some lastUsed =>
      if lastUsed ≠ 0 ∧ now - lastUsed < INTERACTION_COOLDOWN then
        ({ allowed := false, timeLeft := some 1 }, s)
      else proceed

/-- `clearCommandCooldown(userId, commandName)` (lines 104-107). -/
def clearCommandCooldown (s : RateLimiter) (userId commandName : String) : RateLimiter :=
  { s with userCommandCooldowns :=
      mapDelete s.userCommandCooldowns (cooldownKey userId commandName) }

/-- `clearUserCooldowns(userId)` (lines 109-123): every cooldown key that starts with
`userId:` is deleted from both maps, and the request entry of `userId` is deleted. -/
def clearUserCooldowns (s : RateLimiter) (userId : String) : RateLimiter :=
  { userCommandCooldowns := fun key =>
      if startsWith key (userId ++ ":") then none else s.userCommandCooldowns key
    userInteractionCooldowns := fun key =>
      if startsWith key (userId ++ ":") then none else s.userInteractionCooldowns key
    userRequestCounts := mapDelete s.userRequestCounts userId }

/-- `cleanup()` (lines 125-152), the periodic sweep. -/
def cleanup (s : RateLimiter) (now : Int) : RateLimiter :=
  { userCommandCooldowns := fun key =>
      match s.userCommandCooldowns key with
      | none => none
      | some timestamp =>
        if now - timestamp > COMMAND_COOLDOWN * 10 then none else some timestamp
    userInteractionCooldowns := fun key =>
      match s.userInteractionCooldowns key with
      | none => none
      | some timestamp =>
        if now - timestamp > INTERACTION_COOLDOWN * 10 then none else some timestamp
    userRequestCounts := fun userId =>
      match s.userRequestCounts userId with
      | none => none
      | some requests =>
        if (recent now requests).length = 0 then none else some (recent now requests) }

/-! ### Traces of limiter calls -/

/-- One call on the limiter, with the instant at which it is made. -/
inductive Op where
  | command (userId commandName : String) (now : Int)
  | interaction (userId interactionType : String) (now : Int)
  | clear (userId : String) (now : Int)
  | sweep (now : Int)
  deriving DecidableEq, Repr

/-- The instant of a call. -/
def Op.now : Op → Int
  | .command _ _ t => t
  | .interaction _ _ t => t
  | .clear _ t => t
  | .sweep t => t

/-- Whether the call is `clearUserCooldowns`. -/
def Op.isClear : Op → Bool
  | .clear _ _ => true
  | _ => false

/-- The result of a call (`none` for the two calls that return nothing) and the state
after it. -/
def step (s : RateLimiter) : Op → Option CheckResult × RateLimiter
  | .command u c t => ((checkCommandCooldown s u c t).1, (checkCommandCooldown s u c t).2)
  | .interaction u i t =>
    ((checkInteractionCooldown s u i t).1, (checkInteractionCooldown s u i t).2)
  | .clear u _ => (none, clearUserCooldowns s u)
  | .sweep t => (none, cleanup s t)

/-- The state after a sequence of calls. -/
def run (s : RateLimiter) : List Op → RateLimiter
  | [] => s
  | op :: ops => run (step s op).2 ops

/-- Every call of a sequence paired with the result it returned. -/
def outcomes (s : RateLimiter) : List Op → List (Op × Option CheckResult)
  | [] => []
  | op :: ops => (op, (step s op).1) :: outcomes (step s op).2 ops

/-- Whether a recorded call is a check that returned `allowed: true`. -/
def wasAllowed (r : Op × Option CheckResult) : Bool :=
  match r.2 with
  | some res => res.allowed
  | none => false

/-- Whether a call is a check (of either kind) made by `userId`. -/
def Op.isCheckBy (userId : String) : Op → Bool
  | .command u _ _ => u = userId
  | .interaction u _ _ => u = userId
  | _ => false

/-- The instants of the checks of `userId` that returned `allowed: true`, in call order. -/
def allowedTimes (s : RateLimiter) (ops : List Op) (userId : String) : List Int :=
  ((outcomes s ops).filter (fun r => r.1.isCheckBy userId && wasAllowed r)).map
    (fun r => r.1.now)

/-- The request list stored for `userId` (empty when there is no entry). -/
def storedRequests (s : RateLimiter) (userId : String) : List Int :=
  (s.userRequestCounts userId).getD []

/-- A check made by a fixed actor: which of the two check methods is called
(`checkCommandCooldown` when `isCommand`, else `checkInteractionCooldown`), the action
name passed to it, and the instant of the call. -/
structure Check where
  isCommand : Bool
  action : String
  now : Int
  deriving DecidableEq, Repr

/-- The call that `userId` makes for a check. -/
def Check.toOp (userId : String) (c : Check) : Op :=
  if c.isCommand then Op.command userId c.action c.now
  else Op.interaction userId c.action c.now

/-- The cooldown entry that a check of `userId` looks up. -/
def cooldownEntry (s : RateLimiter) (userId : String) (c : Check) : Option Int :=
  if c.isCommand then s.userCommandCooldowns (cooldownKey userId c.action)
  else s.userInteractionCooldowns (cooldownKey userId c.action)

/-- The actor has no request entry and no cooldown entry of either kind. -/
def noPriorState (s : RateLimiter) (userId : String) : Prop :=
  s.userRequestCounts userId = none ∧
  ∀ action, s.userCommandCooldowns (cooldownKey userId action) = none ∧
    s.userInteractionCooldowns (cooldownKey userId action) = none

/-- The minimum interval of the check method that a check calls. -/
def Check.interval (c : Check) : Int :=
  if c.isCommand then COMMAND_COOLDOWN else INTERACTION_COOLDOWN

/-- The test `if (lastUsed) { if (now - lastUsed < interval) deny }` of the two check
methods, on the looked-up entry: `true` when the check is not denied by it. -/
def gatePasses (entry : Option Int) (now interval : Int) : Bool :=
  match entry with
  | none => true
  | some lastUsed => !(decide (lastUsed ≠ 0 ∧ now - lastUsed < interval))

/-- The cooldown map (`true`: commands, `false`: interactions) and the key that a call
looks up; `none` for the calls that are not checks. -/
def Op.slot : Op → Option (Bool × String)
  | .command u c _ => some (true, cooldownKey u c)
  | .interaction u i _ => some (false, cooldownKey u i)
  | _ => none

/-- The entry of a cooldown map under a key. -/
def entryOf (s : RateLimiter) (p : Bool × String) : Option Int :=
  if p.1 then s.userCommandCooldowns p.2 else s.userInteractionCooldowns p.2

/-- The minimum interval that belongs to a cooldown map. -/
def intervalOf (isCommand : Bool) : Int :=
  if isCommand then COMMAND_COOLDOWN else INTERACTION_COOLDOWN

/-- The instant lies in the interval `[a, a + REQUEST_WINDOW)`, whose instants are less
than `REQUEST_WINDOW` apart. -/
def inWindow (a t : Int) : Bool :=
  decide (a ≤ t ∧ t < a + REQUEST_WINDOW)

/-! ## `src/services/containerBuilder.js`: change detection

`hashCodeSchedules` comes from `src/utils/hashCode`, which is not among the sources; the
definitions below take it as a parameter.  Its value is used both as the returned hash and,
converted to a string by `+=`, as a piece of the category content string, so it is given
the type `String → String`.  One call reads the clock once (`currentTime`). -/

/-- A run record, with the fields the builder reads.  `RunType` is the field `Type`;
`ID` and `RunType` are the strings that the template literal renders; `TimeStamp` is
`none` when the field is missing (falsy), else the epoch milliseconds of its date. -/
structure Run where
  ID : String
  RunType : String
  Start : Int
  RunDC : Option String
  referenceLink : Option String
  TimeStamp : Option Int
  deriving DecidableEq, Repr

/-- `thirtyHoursMs = 30 * 60 * 60 * 1000`. -/
def thirtyHoursMs : Int := 30 * 60 * 60 * 1000

/-- The flag `isNew` computed per run in `generateServerHash` (lines 301-307). -/
def isNew (run : Run) (currentTime : Int) : Bool :=
  match run.TimeStamp with
  | some createdTime => decide (currentTime - createdTime < thirtyHoursMs)
  | none => false

/-- The piece appended per run (line 308): `ID|Type|Start|NEW|` or `ID|Type|Start||`. -/
def runContent (run : Run) (currentTime : Int) : String :=
  run.ID ++ "|" ++ run.RunType ++ "|" ++ toString run.Start ++ "|" ++
    (if isNew run currentTime then "NEW" else "") ++ "|"

/-- The `contentString` that `generateServerHash` passes to the hash function. -/
def serverContentString (serverName : String) (runs : List Run) (currentTime : Int) : String :=
  runs.foldl (fun contentString run => contentString ++ runContent run currentTime)
    (serverName ++ ":")

/-- `generateServerHash(serverName, runs)` (lines 295-311). -/
def generateServerHash (hashCodeSchedules : String → String) (serverName : String)
    (runs : List Run) (currentTime : Int) : String :=
  hashCodeSchedules (serverContentString serverName runs currentTime)

/-- The `contentString` that `generateContentHash` passes to the hash function.  The
grouped runs are the list of (source name, runs) in the order `for ... in` visits them. -/
def categoryContentString (hashCodeSchedules : String → String)
    (groupedRuns : List (String × List Run)) (raidType : String) (currentTime : Int) : String :=
  groupedRuns.foldl
    (fun contentString entry =>
      contentString ++ generateServerHash hashCodeSchedules entry.1 entry.2 currentTime)
    (raidType ++ "|")

/-- `generateContentHash(groupedRuns, raidType)` (lines 313-322). -/
def generateContentHash (hashCodeSchedules : String → String)
    (groupedRuns : List (String × List Run)) (raidType : String) (currentTime : Int) : String :=
  hashCodeSchedules (categoryContentString hashCodeSchedules groupedRuns raidType currentTime)

/-- The canonical tuple of a run: (ID, Type, Start, is-new status). -/
def canonicalTuple (currentTime : Int) (run : Run) : String × String × Int × Bool :=
  (run.ID, run.RunType, run.Start, isNew run currentTime)

/-- The canonical form of a grouped input: per source, in order, its name and the
canonical tuples of its runs, in order. -/
def canonicalForm (currentTime : Int) (groupedRuns : List (String × List Run)) :
    List (String × List (String × String × Int × Bool)) :=
  groupedRuns.map (fun entry => (entry.1, entry.2.map (canonicalTuple currentTime)))

/-! ## Concrete inputs used to instantiate the theorems -/

/-- The `i`-th check of a burst: commands and interactions in turn, each with an action
name of its own, 100 ms apart from instant 1000 on. -/
def demoCheck (i : Nat) : Check :=
  { isCommand := i % 2 == 0, action := String.mk (List.replicate i 'a'), now := 1000 + 100 * i }

/-- The checks 1 to 30 of the burst. -/
def demoRest : List Check := (List.range 30).map (fun i => demoCheck (i + 1))

/-- The burst of 31 checks, as calls of the actor `u`. -/
def demoBurst : List Op := (demoCheck 0 :: demoRest).map (Check.toOp "u")

/-- A short trace with allowed and denied checks of both kinds and a sweep. -/
def demoTrace : List Op :=
  [Op.command "u" "c" 1000, Op.interaction "u" "b" 1200, Op.interaction "u" "b" 1900,
   Op.interaction "u" "b" 2200, Op.command "u" "c" 2500, Op.sweep 3000,
   Op.command "u" "c" 4000]

/-- The state after one command and one interaction of the actor `u`. -/
def demoState : RateLimiter :=
  run RateLimiter.new [Op.command "u" "c" 1000, Op.interaction "u" "b" 1200]

/-- A run created 29 h 59 min before the instant 200000000. -/
def demoRunNew : Run :=
  { ID := "17", RunType := "Fresh", Start := 300000000, RunDC := some "Aether",
    referenceLink := none, TimeStamp := some (200000000 - 107940000) }

/-- The same run created 30 h 01 min before the instant 200000000. -/
def demoRunOld : Run :=
  { ID := "17", RunType := "Fresh", Start := 300000000, RunDC := some "Aether",
    referenceLink := none, TimeStamp := some (200000000 - 108060000) }

/-- The run `demoRunNew` with another data-center label, reference link and creation
instant (still less than 30 hours old at the instant 200000000). -/
def demoRunRelabelled : Run :=
  { ID := "17", RunType := "Fresh", Start := 300000000, RunDC := some "Primal",
    referenceLink := some "https://example.org/run/17", TimeStamp := some 199999000 }

/-! ## JavaScript values and strings -/

/-- `String.prototype.toUpperCase`, on ASCII letters (raid types and custom ids are ASCII). -/
def toUpperCase (s : String) : String :=
  String.mk (s.data.map Char.toUpper)

/-- `String.prototype.toLowerCase`, on ASCII letters. -/
def toLowerCase (s : String) : String :=
  String.mk (s.data.map Char.toLower)

/-- `customId.split('_')`. -/
def splitUnderscore (s : String) : List String :=
  (s.data.splitOn '_').map String.mk

/-- `customId.split('_').pop()`; `split` never returns an empty array. -/
def popSegment (s : String) : String :=
  (splitUnderscore s).getLast?.getD ""

/-- `String.prototype.includes`: `sub` occurs in `text`. -/
def includesText (text sub : String) : Bool :=
  decide (sub.data <:+: text.data)

/-- A thrown JavaScript error: its message and, for transport errors, its numeric code. -/
structure JsError where
  message : String
  code : Option Int
  deriving DecidableEq, Repr

/-- The `TypeError` of reading property `key` of `undefined`. -/
def typeErrorReadingUndefined (key : String) : JsError :=
  { message := "Cannot read properties of undefined (reading '" ++ key ++ "')", code := none }

/-- The values that occur in configuration records. -/
inductive JsValue where
  | undefined
  | null
  | number (n : Int)
  | string (s : String)
  | array (xs : List String)
  deriving DecidableEq, Repr

/-- The nullish coalescing operator `a ?? b`. -/
def nullish (a b : JsValue) : JsValue :=
  match a with
  | .undefined => b
  | .null => b
  | v => v

/-- A plain object with string keys, as the list of its own properties in insertion order. -/
abbrev JsObject (α : Type) := List (String × α)

/-- The property read `o[key]` (`none`: `undefined`). -/
def objGet {α : Type} (o : JsObject α) (key : String) : Option α :=
  o.lookup key

/-- The property write `o[key] = v`. -/
def objSet {α : Type} (o : JsObject α) (key : String) (v : α) : JsObject α :=
  if o.any (fun e => e.1 == key) then o.map (fun e => if e.1 = key then (key, v) else e)
  else o ++ [(key, v)]

/-- The read `o[key]` of a record of values. -/
def fieldOf (o : JsObject JsValue) (key : String) : JsValue :=
  (objGet o key).getD JsValue.undefined

/-- The read `o?.[key]` of a record that may be `null` or `undefined`. -/
def optFieldOf (o : Option (JsObject JsValue)) (key : String) : JsValue :=
  match o with
  | none => JsValue.undefined
  | some r => fieldOf r key

/-- The names of the properties that the object literal `{}` inherits from
`Object.prototype`.  The read `o[name]` of one of them on an object without an own
property of that name yields a function (for `__proto__`: the prototype object), which
is truthy and has no method `push`. -/
def inheritedPropertyNames : List String :=
  ["constructor", "__defineGetter__", "__defineSetter__", "hasOwnProperty",
   "__lookupGetter__", "__lookupSetter__", "isPrototypeOf", "propertyIsEnumerable",
   "toString", "valueOf", "__proto__", "toLocaleString"]

/-- What a template literal renders for the inherited value `o[name]` of an object
literal: the source text of the native function (`Object` for `constructor`), and
`[object Object]` for the prototype object under `__proto__`. -/
def inheritedRendering (name : String) : String :=
  if name = "__proto__" then "[object Object]"
  else "function " ++ (if name = "constructor" then "Object" else name) ++
    "() \x7b [native code] \x7d"

/-- The read `o[key]` of an object literal with string values, as a template literal
renders it: the own property when there is one, else the inherited value when `key`
names one, else `undefined` (`none`). -/
def readThroughPrototype (o : JsObject String) (key : String) : Option String :=
  match objGet o key with
  | some v => some v
  | none => if key ∈ inheritedPropertyNames then some (inheritedRendering key) else none

/-! ## `src/config/constants.js` -/

/-- The keys of `module.exports` (lines 109-125). -/
def constantsExports : List String :=
  ["RAID_TYPES", "UPDATE_INTERVAL", "SCHEDULE_DAYS_AHEAD", "GOOGLE_CALENDAR_IDS",
   "getCalendarLinks", "TIMEZONE_OPTIONS", "MAX_TEXT_LENGTH", "BANNER_IMAGES",
   "SPACER_IMAGE_URL", "CONCURRENCY_LIMIT", "RATE_LIMITER", "DEFAULT_HEALTH_PORT",
   "DEV_SERVER_GUILD_ID", "IS_DEV_BOT", "WHITELIST_ENABLED"]

/-- The binding `const { DEFAULT_SCHEDULE_CHANNEL_NAMES } = require('../config/constants')`
of `channelPermissions.js` (line 6) and `setupInteractions.js` (line 9).  `constants.js`
neither declares nor exports a constant of that name (see `constantsExports`), so the
destructured binding is `undefined`, here `none`. -/
def DEFAULT_SCHEDULE_CHANNEL_NAMES : Option (JsObject String) := none

/-- `CONCURRENCY_LIMIT = parseInt(process.env.CONCURRENCY_LIMIT) || 3` (line 87); the
argument is the result of `parseInt`, `none` for `NaN`. -/
def CONCURRENCY_LIMIT (parsed : Option Int) : Int :=
  match parsed with
  | some n => if n ≠ 0 then n else 3
  | none => 3

/-- `Object.keys(RAID_TYPES)` (lines 4-26), which is `ALL_RAID_TYPES` of `raidTypes.js`. -/
def ALL_RAID_TYPES : List String := ["BA", "FT", "DRS"]


/-! ## `src/services/containerBuilder.js`: `buildScheduleContainers` -/

/-- What a built container is made for; the renderable payload itself is not modelled. -/
inductive ContainerSummary where
  | empty (raidType : String)
  | server (serverName raidType : String) (isFirst : Bool)
  deriving DecidableEq, Repr

/-- One element of the array returned by `buildScheduleContainers`. -/
structure ScheduleEntry where
  container : ContainerSummary
  serverName : String
  hash : String
  deriving DecidableEq, Repr

/-- The entries pushed by the loop of `buildScheduleContainers` (lines 114-125);
`isFirst` is true for the first source only. -/
def buildServerEntries (hashCodeSchedules : String → String) (raidType : String)
    (currentTime : Int) : Bool → List (String × List Run) → List ScheduleEntry
  | _, [] => []
  | isFirst, (serverName, runs) :: rest =>
    { container := ContainerSummary.server serverName raidType isFirst
      serverName := serverName
      hash := generateServerHash hashCodeSchedules serverName runs currentTime } ::
      buildServerEntries hashCodeSchedules raidType currentTime false rest

/-- `buildScheduleContainers(groupedRuns, raidType, customColor)` (lines 102-134).  A
missing input (`null`, `undefined`) is `none`. -/
def buildScheduleContainers (hashCodeSchedules : String → String)
    (groupedRuns : Option (List (String × List Run))) (raidType : String)
    (currentTime : Int) : List ScheduleEntry :=
  let emptyEntry : ScheduleEntry :=
    { container := ContainerSummary.empty raidType
      serverName := "__empty__"
      hash := generateServerHash hashCodeSchedules "__empty__" [] currentTime }
  match groupedRuns with
  | none => [emptyEntry]
  | some entries =>
    if entries.length = 0 then [emptyEntry]
    else buildServerEntries hashCodeSchedules raidType currentTime true entries

/-- The sources that `for (const serverName in groupedRuns)` visits; none for a missing
input. -/
def sourcesOf (groupedRuns : Option (List (String × List Run))) : List (String × List Run) :=
  groupedRuns.getD []

/-! ## `src/config/hostServers.js` -/

/-- One value of `HOST_SERVERS`, with the fields that identify the host and its channels. -/
structure HostServer where
  guildId : String
  acronym : String
  inviteLink : String
  channels : JsObject String
  channelLinks : JsObject String
  deriving DecidableEq, Repr

/-- The registry `HOST_SERVERS` (lines 7-150), in the order of the object literal. -/
def HOST_SERVERS : JsObject HostServer :=
  [("ABBA+",
     { guildId := "544997776992501761", acronym := "ABBA+",
       inviteLink := "https://discord.gg/abbaffxiv",
       channels := [("BA", "994728673133473812"), ("FT", "1377521610495361054"),
         ("DRS", "994802544662564904")],
       channelLinks :=
         [("BA", "https://discord.com/channels/544997776992501761/994728673133473812"),
          ("FT", "https://discord.com/channels/544997776992501761/1377521610495361054"),
          ("DRS", "https://discord.com/channels/544997776992501761/994802544662564904")] }),
   ("CAFE",
     { guildId := "750103971187654736", acronym := "CAFE",
       inviteLink := "https://discord.gg/c-a-f-e",
       channels := [("BA", "956367612659511406"), ("FT", "1377808695102279862"),
         ("DRS", "1167469922830536704")],
       channelLinks :=
         [("BA", "https://discord.com/channels/750103971187654736/956367612659511406"),
          ("FT", "https://discord.com/channels/750103971187654736/1377808695102279862"),
          ("DRS", "https://discord.com/channels/750103971187654736/1167469922830536704")] }),
   ("CEM",
     { guildId := "550702475112480769", acronym := "CEM",
       inviteLink := "https://discord.gg/cem",
       channels := [("FT", "1371469177860395039"), ("DRS", "803636640941342730")],
       channelLinks :=
         [("FT", "https://discord.com/channels/550702475112480769/1371469177860395039"),
          ("DRS", "https://discord.com/channels/550702475112480769/803636640941342730")] }),
   ("Content Achievers",
     { guildId := "642628091205779466", acronym := "CA",
       inviteLink := "https://discord.gg/FJFxr2U",
       channels := [("BA", "940148143310385182"), ("DRS", "1002244518743117924")],
       channelLinks :=
         [("BA", "https://discord.com/channels/642628091205779466/940148143310385182"),
          ("DRS", "https://discord.com/channels/642628091205779466/1002244518743117924")] }),
   ("Dynamis Field Operations",
     { guildId := "1208039470486519818", acronym := "DFO",
       inviteLink := "https://discord.gg/vjwYEeubeN",
       channels := [("BA", "1351065536041324637"), ("FT", "1208220062326984755"),
         ("DRS", "1208220062326984755")],
       channelLinks :=
         [("BA", "https://discord.com/channels/1208039470486519818/1208220062326984755"),
          ("FT", "https://discord.com/channels/1208039470486519818/1208220062326984755"),
          ("DRS", "https://discord.com/channels/1208039470486519818/1208220062326984755")] }),
   ("Field Op Enjoyers",
     { guildId := "1028110201968132116", acronym := "FOE",
       inviteLink := "https://discord.gg/foexiv",
       channels := [("BA", "1029102392601497682"), ("FT", "1350184451979743362"),
         ("DRS", "1029102476156215307")],
       channelLinks :=
         [("BA", "https://discord.com/channels/1028110201968132116/1029102392601497682"),
          ("FT", "https://discord.com/channels/1028110201968132116/1350184451979743362"),
          ("DRS", "https://discord.com/channels/1028110201968132116/1029102476156215307")] }),
   ("Lego Steppers",
     { guildId := "818478021563908116", acronym := "LS",
       inviteLink := "https://discord.gg/YKP76AsMw8",
       channels := [("DRS", "819233418579017738")],
       channelLinks :=
         [("DRS", "https://discord.com/channels/818478021563908116/819233418579017738")] }),
   ("Lost Freelancers' Guild",
     { guildId := "1344508249642111047", acronym := "LFG",
       inviteLink := "https://discord.gg/WjBhPSpKKq",
       channels := [("FT", "1344512530411946064")],
       channelLinks :=
         [("FT", "https://discord.com/channels/1344508249642111047/1344512530411946064")] }),
   ("The Help Lines",
     { guildId := "578708223092326430", acronym := "THL",
       inviteLink := "https://discord.gg/thehelplines",
       channels := [("BA", "958829775445721168"), ("FT", "1378164424254292030"),
         ("DRS", "1029196207278538842")],
       channelLinks :=
         [("BA", "https://discord.com/channels/578708223092326430/958829775445721168"),
          ("FT", "https://discord.com/channels/578708223092326430/1378164424254292030"),
          ("DRS", "https://discord.com/channels/578708223092326430/1029196207278538842")] })]

/-- Truthiness of a string property that may be absent: present and not empty. -/
def truthyString (v : Option String) : Bool :=
  match v with
  | some s => s ≠ ""
  | none => false

/-- `getAllHostServers()` (lines 197-199): `Object.keys(HOST_SERVERS)`. -/
def getAllHostServers : List String :=
  HOST_SERVERS.map (fun e => e.1)

/-- `getHostServersForRaidType(raidType)` (lines 201-206).  The read
`server.channels[raidType]` goes through the prototype chain of the `channels` literal:
for a name that the literal inherits it yields a function, which is truthy. -/
def getHostServersForRaidType (raidType : String) : List String :=
  getAllHostServers.filter (fun serverName =>
    match objGet HOST_SERVERS serverName with
    | some server => truthyString (readThroughPrototype server.channels raidType)
    | none => false)

/-- `isWhitelistedHost(serverName)` (lines 293-295): `HOST_SERVERS.hasOwnProperty`. -/
def isWhitelistedHost (serverName : String) : Bool :=
  (objGet HOST_SERVERS serverName).isSome

/-! ## `src/events/interactionCreate.js`: replies to a denied interaction -/

/-- The rendering of `rateLimitCheck.timeLeft` inside a template literal. -/
def renderTimeLeft (timeLeft : Option Int) : String :=
  match timeLeft with
  | some k => toString k
  | none => "undefined"

/-- The reply of `handleSlashCommand` (lines 43-50) when the limiter denies the command;
`none` when the command is allowed and goes on. -/
def slashCommandDenial (s : RateLimiter) (userId commandName : String) (now : Int) :
    Option String :=
  let rateLimitCheck := (checkCommandCooldown s userId commandName now).1
  if rateLimitCheck.allowed = false then
    some ("⏱️ Please wait " ++ renderTimeLeft rateLimitCheck.timeLeft ++
      " second(s) before using this command again.")
  else none

/-- The reply of `handleButtonInteraction` (lines 110-117) when the limiter denies. -/
def buttonDenial (s : RateLimiter) (userId : String) (now : Int) : Option String :=
  let rateLimitCheck := (checkInteractionCooldown s userId "button" now).1
  if rateLimitCheck.allowed = false then
    some "⏱️ You're clicking too fast! Please slow down."
  else none

/-- The reply of `handleSelectMenuInteraction` (lines 172-179) when the limiter denies. -/
def selectMenuDenial (s : RateLimiter) (userId : String) (now : Int) : Option String :=
  let rateLimitCheck := (checkInteractionCooldown s userId "selectmenu" now).1
  if rateLimitCheck.allowed = false then
    some "⏱️ Please wait a moment before making another selection."
  else none

/-! ## `src/utils/channelPermissions.js` -/

/-- The members of `PermissionFlagsBits` that the module names. -/
inductive PermissionFlag where
  | ViewChannel
  | ManageChannels
  | ManageRoles
  | Administrator
  | SendMessages
  | EmbedLinks
  | AttachFiles
  | ReadMessageHistory
  | SendMessagesInThreads
  | CreatePublicThreads
  | CreatePrivateThreads
  deriving DecidableEq, Repr

/-- A permissions object, as the list of the flags for which `permissions.has(flag)`
answers `true`; `none` when there is no permissions object. -/
abbrev Permissions := Option (List PermissionFlag)

/-- The call `permissions.has(flag)`; it throws when `permissions` is missing. -/
def permissionsHas (permissions : Permissions) (flag : PermissionFlag) : Except JsError Bool :=
  match permissions with
  | some flags => Except.ok (decide (flag ∈ flags))
  | none => Except.error (typeErrorReadingUndefined "has")

/-- The bot's member object, as `guild.members.fetchMe()` returns it: `botRoleId` is the id
of `roles.botRole || roles.highest`, `none` when there is no such role. -/
structure BotMember where
  id : String
  permissions : Permissions
  highestRolePosition : Int
  highestRoleName : String
  botRoleId : Option String
  deriving DecidableEq, Repr

/-- A created text channel. -/
structure Channel where
  id : String
  name : String
  deriving DecidableEq, Repr

/-- One element of `permissionOverwrites`. -/
structure Overwrite where
  id : String
  isMember : Bool
  allow : List PermissionFlag
  deny : List PermissionFlag
  deriving DecidableEq, Repr

/-- The argument of `guild.channels.create` (the `type` is always `GuildText`). -/
structure ChannelRequest where
  name : String
  topic : String
  parent : Option String
  permissionOverwrites : Option (List Overwrite)
  deriving DecidableEq, Repr

/-- A channel of the guild cache, with what the handlers ask of it: the permissions of
the bot in it (`channel.permissionsFor(botMember)`) and the answer of
`channel.permissionOverwrites.edit`. -/
structure GuildChannel where
  id : String
  botPermissions : Permissions
  overwriteEdit : Except JsError Unit

/-- The guild of an interaction, with the answers of the transport: `fetchMe` is the
outcome of `guild.members.fetchMe()`, `channelsCreate` of `guild.channels.create`,
`channelsCache` is `guild.channels.cache.get`. -/
structure Guild where
  id : String
  name : String
  everyoneRoleId : String
  fetchMe : Except JsError BotMember
  channelsCreate : ChannelRequest → Except JsError Channel
  channelsCache : String → Option GuildChannel

/-- The `options` argument of `createScheduleChannel`. -/
structure CreateOptions where
  name : Option String
  topic : Option String
  readOnly : Option Bool
  categoryId : Option String
  deriving DecidableEq, Repr

/-- The object returned by `createScheduleChannel`. -/
structure CreateResult where
  success : Bool
  channel : Option Channel
  permissionsSet : Option Bool
  error : Option String
  deriving DecidableEq, Repr

/-- A failure result `{ success: false, error }`. -/
def CreateResult.failure (error : String) : CreateResult :=
  { success := false, channel := none, permissionsSet := none, error := some error }

/-- `filterPermissionBits(permissionBits, permissions)` (lines 24-27). -/
def filterPermissionBits (permissionBits : List PermissionFlag) (permissions : Permissions) :
    List PermissionFlag :=
  match permissions with
  | none => []
  | some flags => permissionBits.filter (fun bit => decide (bit ∈ flags))

/-- The default topic of a schedule channel (line 183). -/
def defaultTopic (raidType : String) : String :=
  "Automated " ++ raidType ++ " schedule updates from NA datacenter host servers"

/-- The expression `options.name || DEFAULT_SCHEDULE_CHANNEL_NAMES[raidTypeKey] ||
na-forays-<raidType in lower case>` (line 182) for a given value of the imported table.
The read of a property of an `undefined` table throws. -/
def channelNameFor (names : Option (JsObject String)) (optionName : Option String)
    (raidType : String) : Except JsError String :=
  if truthyString optionName then Except.ok (optionName.getD "")
  else
    match names with
    | none => Except.error (typeErrorReadingUndefined (toUpperCase raidType))
    | some table =>
      if truthyString (objGet table (toUpperCase raidType)) then
        Except.ok ((objGet table (toUpperCase raidType)).getD "")
      else Except.ok ("na-forays-" ++ toLowerCase raidType)

/-- The inner `try`/`catch` of `createScheduleChannel` (lines 199-286): the requests sent
to `guild.channels.create`, in order, and either the created channel with the flag
`permissionsSetDuringCreation` or the error thrown by the second request. -/
def requestChannel (guild : Guild) (fresh : BotMember) (channelName topic : String)
    (readOnly : Bool) (categoryId : Option String) :
    List ChannelRequest × Except JsError (Channel × Bool) :=
  let baseBotAllow := [PermissionFlag.ViewChannel, PermissionFlag.ManageChannels,
    PermissionFlag.SendMessages, PermissionFlag.EmbedLinks, PermissionFlag.AttachFiles,
    PermissionFlag.ReadMessageHistory]
  let botAllow := filterPermissionBits baseBotAllow fresh.permissions
  let plain : ChannelRequest :=
    { name := channelName, topic := topic, parent := categoryId, permissionOverwrites := none }
  let fallback (sent : List ChannelRequest) : List ChannelRequest × Except JsError (Channel × Bool) :=
    match guild.channelsCreate plain with
    | Except.ok channel => (sent ++ [plain], Except.ok (channel, false))
    | Except.error e => (sent ++ [plain], Except.error e)
  if PermissionFlag.ManageChannels ∉ botAllow then fallback []
  else
    let baseEveryoneDeny := [PermissionFlag.SendMessages, PermissionFlag.SendMessagesInThreads,
      PermissionFlag.CreatePublicThreads, PermissionFlag.CreatePrivateThreads]
    let everyoneDeny := filterPermissionBits baseEveryoneDeny fresh.permissions
    let botOverwrite : Overwrite :=
      { id := fresh.id, isMember := true, allow := botAllow, deny := [] }
    let permissionOverwrites :=
      if readOnly ∧ everyoneDeny.length > 0 then
        [botOverwrite,
          { id := guild.everyoneRoleId, isMember := false, allow := [], deny := everyoneDeny }]
      else [botOverwrite]
    let full : ChannelRequest :=
      { name := channelName, topic := topic, parent := categoryId,
        permissionOverwrites := some permissionOverwrites }
    match guild.channelsCreate full with
    | Except.ok channel => ([full], Except.ok (channel, true))
    | Except.error _ => fallback [full]

/-- The outer `catch` of `createScheduleChannel` (lines 303-331): the result built from the
caught error; it throws when the second `fetchMe` throws. -/
def createFailure (guild : Guild) (error : JsError) : Except JsError CreateResult :=
  if error.code = some 50013 then
    match guild.fetchMe with
    | Except.error e => Except.error e
    | Except.ok fresh =>
      Except.ok (CreateResult.failure
        ("Missing Permissions: The bot's role is too low in the hierarchy or lacks Administrator permission. " ++
         "Go to Server Settings → Roles and drag \"" ++
         (if fresh.highestRoleName ≠ "" then fresh.highestRoleName else "the bot's role") ++
         "\" higher in the list (ideally near the top), then try again."))
  else if error.code = some 50035 then
    Except.ok (CreateResult.failure
      "Invalid channel configuration. Please try again or use an existing channel.")
  else if error.code = some 30013 then
    Except.ok (CreateResult.failure
      "Server has reached maximum channel limit. Please use an existing channel.")
  else Except.ok (CreateResult.failure ("Failed to create channel: " ++ error.message))

/-- The body of the outer `try` of `createScheduleChannel` (lines 136-301), for a guild and
a bot member that are present: the requests sent and the result returned or the error
thrown. -/
def createScheduleChannelBody (guild : Guild) (raidType : String) (options : CreateOptions) :
    List ChannelRequest × Except JsError CreateResult :=
  match guild.fetchMe with
  | Except.error e => ([], Except.error e)
  | Except.ok fresh =>
    match permissionsHas fresh.permissions PermissionFlag.ManageChannels,
        permissionsHas fresh.permissions PermissionFlag.Administrator with
    | Except.ok hasManageChannels, Except.ok hasAdministrator =>
      if !hasManageChannels && !hasAdministrator then
        ([], Except.ok (CreateResult.failure
          "Bot lacks \"Manage Channels\" permission. Please check Server Settings → Roles → NA Forays Schedule, or re-invite the bot with updated permissions."))
      else if fresh.highestRolePosition ≤ 1 then
        ([], Except.ok (CreateResult.failure
          "Bot role is too low in the role hierarchy (position ≤1). Please go to Server Settings → Roles and drag the bot's role higher in the list, then try again."))
      else
        match channelNameFor DEFAULT_SCHEDULE_CHANNEL_NAMES options.name raidType with
        | Except.error e => ([], Except.error e)
        | Except.ok channelName =>
          let topic := if truthyString options.topic then options.topic.getD ""
            else defaultTopic raidType
          let readOnly := options.readOnly ≠ some false
          match requestChannel guild fresh channelName topic readOnly options.categoryId with
          | (sent, Except.ok (channel, permissionsSet)) =>
            (sent, Except.ok
              { success := true, channel := some channel,
                permissionsSet := some permissionsSet, error := none })
          | (sent, Except.error e) => (sent, Except.error e)
    | Except.error e, _ => ([], Except.error e)
    | _, Except.error e => ([], Except.error e)

/-- `createScheduleChannel(guild, raidType, botMember, options)` (lines 134-332): the
requests sent to `guild.channels.create` and the returned result, or the error with which
the call rejects.  A missing `guild` or `botMember` is `none`. -/
def createScheduleChannel (guild : Option Guild) (raidType : String)
    (botMember : Option BotMember) (options : CreateOptions) :
    List ChannelRequest × Except JsError CreateResult :=
  match guild, botMember with
  | some g, some _ =>
    if raidType = "" then ([], Except.ok (CreateResult.failure "Missing required parameters"))
    else
      match createScheduleChannelBody g raidType options with
      | (sent, Except.ok result) => (sent, Except.ok result)
      | (sent, Except.error e) => (sent, createFailure g e)
  | _, _ => ([], Except.ok (CreateResult.failure "Missing required parameters"))

/-- The object returned by `canCreateChannels`. -/
structure CreateCheck where
  canCreate : Bool
  reason : Option String
  deriving DecidableEq, Repr

/-- `canCreateChannels(guild, botMember)` (lines 334-366). -/
def canCreateChannels (guild : Option Guild) (botMember : Option BotMember) : CreateCheck :=
  match guild, botMember with
  | some g, some _ =>
    match g.fetchMe with
    | Except.error e =>
      { canCreate := false, reason := some ("Error checking permissions: " ++ e.message) }
    | Except.ok freshMember =>
      match freshMember.permissions with
      | none => { canCreate := false, reason := some "Bot lacks \"Manage Channels\" permission" }
      | some flags =>
        if PermissionFlag.ManageChannels ∉ flags then
          { canCreate := false, reason := some "Bot lacks \"Manage Channels\" permission" }
        else if freshMember.highestRolePosition ≤ 1 then
          { canCreate := false
            reason := some ("Bot role \"" ++ freshMember.highestRoleName ++
              "\" is too low in the role hierarchy (position " ++
              toString freshMember.highestRolePosition ++ ").") }
        else { canCreate := true, reason := none }
  | _, _ => { canCreate := false, reason := some "Missing guild or bot member" }

/-- `canManageChannelPermissions(channel, botMember)` (lines 97-100). -/
def canManageChannelPermissions (channel : GuildChannel) : Bool :=
  match channel.botPermissions with
  | some flags => decide (PermissionFlag.ManageChannels ∈ flags)
  | none => false

/-- The object returned by `setChannelPermissions`. -/
structure PermissionResult where
  success : Bool
  error : Option String
  deriving DecidableEq, Repr

/-- `setChannelPermissions(channel, botMember)` (lines 39-95), for a channel of the guild. -/
def setChannelPermissions (channel : GuildChannel) (botMember : BotMember) : PermissionResult :=
  if channel.id = "" then { success := false, error := some "Invalid channel" }
  else
    match botMember.botRoleId with
    | none => { success := false, error := some "Bot has no roles" }
    | some _ =>
      match permissionsHas channel.botPermissions PermissionFlag.ManageChannels with
      | Except.error e =>
        { success := false, error := some ("Failed to set permissions: " ++ e.message) }
      | Except.ok false =>
        { success := false
          error := some "Bot lacks ManageChannels permission. This feature requires the bot to have \"Manage Channels\" permission." }
      | Except.ok true =>
        match channel.overwriteEdit with
        | Except.ok _ => { success := true, error := none }
        | Except.error e =>
          { success := false, error := some ("Failed to set permissions: " ++ e.message) }

/-! ## `src/utils/raidTypes.js`: configuration keys -/

/-- `getConfigKey(prefix, raidType)` (lines 51-53). -/
def getConfigKey (pre raidType : String) : String :=
  pre ++ "_" ++ toLowerCase raidType

/-- `getAllConfigKeys(prefix)` (lines 55-61): the object from raid type to key. -/
def getAllConfigKeys (pre : String) : JsObject String :=
  ALL_RAID_TYPES.map (fun raidType => (raidType, getConfigKey pre raidType))

/-- `getScheduleChannelKey(raidType)` (lines 71-73); `none` is `undefined`. -/
def getScheduleChannelKey (raidType : String) : Option String :=
  objGet (getAllConfigKeys "schedule_channel") raidType

/-- `getScheduleOverviewKey(raidType)` (lines 75-77). -/
def getScheduleOverviewKey (raidType : String) : Option String :=
  objGet (getAllConfigKeys "schedule_overview") raidType

/-- `getEnabledHostsKey(raidType)` (lines 79-81). -/
def getEnabledHostsKey (raidType : String) : Option String :=
  objGet (getAllConfigKeys "enabled_hosts") raidType

/-- `getScheduleMessageKey(raidType)` (lines 83-85). -/
def getScheduleMessageKey (raidType : String) : Option String :=
  objGet (getAllConfigKeys "schedule_message") raidType

/-- `getScheduleColorKey(raidType)` (lines 87-89). -/
def getScheduleColorKey (raidType : String) : Option String :=
  objGet (getAllConfigKeys "schedule_color") raidType

/-- The property name used by `configData[key] = ...`: an `undefined` key names the
property `undefined`. -/
def propertyName (key : Option String) : String :=
  key.getD "undefined"

/-! ## `src/events/setupInteractions.js` -/

/-- The session object kept per actor in `setupState`; a field that is `none` is
`undefined`, and `returnToConfig` is the truthiness of the field of that name. -/
structure SetupSession where
  selectedRaidTypes : Option (List String)
  channels : Option (JsObject String)
  hosts : Option (JsObject (List String))
  returnToConfig : Bool
  deriving DecidableEq, Repr

/-- The object `{}`. -/
def SetupSession.empty : SetupSession :=
  { selectedRaidTypes := none, channels := none, hosts := none, returnToConfig := false }

/-- The map `setupState`, from actor to session. -/
abbrev SetupState := String → Option SetupSession

/-- The expression `setupState.get(userId) || {}`. -/
def sessionOrEmpty (setupState : SetupState) (userId : String) : SetupSession :=
  (setupState userId).getD SetupSession.empty

/-- What the actor is shown by one call of `interaction.update` or `editReply`. -/
inductive Screen where
  | channelSelection (currentRaidType : String) (createButton : Option String)
      (retryButton : Bool)
  | hostSelection (raidType : String) (hostServers : List String)
  | confirmation (summary : List (String × Option String × List String))
  | noChannelSelected
  | channelNotFound
  | permissionsSet (raidType : String)
  | permissionsNotSet (raidType : String) (missing : List String)
  | missingPermissions (raidType : String) (missing : List String)
  | channelCreated (raidType channelId : String) (permissionsSet : Bool)
  | creationFailed (raidType : String) (error : Option String)
  | permissionSetupFailed (raidType : String) (error : Option String)
  | manualInstructions (raidType : String)
  | sessionExpired
  | sessionExpiredAtConfirmation
  | cancelled
  | setupComplete
  | configMenu
  | saveError
  deriving DecidableEq, Repr

/-- The answers of the collaborators of `handleSetupConfirmation`, in the order in which
they are awaited: `interaction.deferUpdate`, `serviceLocator.get('updateManager')`,
`encryptedDb.getServerConfig` (`none` inside: no stored record),
`encryptedDb.upsertServerConfig`, `updateManager.forceUpdate`, and the replies made
after the session is deleted. -/
structure CommitFacts where
  deferUpdate : Except JsError Unit
  updateManager : Except JsError Unit
  getServerConfig : Except JsError (Option (JsObject JsValue))
  upsertServerConfig : Except JsError Unit
  forceUpdate : Except JsError Unit
  finalReply : Except JsError Unit

/-- An interaction with what the handlers read from it.  The calls `interaction.update`
and `interaction.editReply` that show a screen are taken to succeed, except those listed
in `CommitFacts`. -/
structure Interaction where
  userId : String
  customId : String
  values : List String
  guild : Guild
  commit : CommitFacts

/-- What one handler call did: the session map after it, the screens shown in order
(those shown by a timer included), the records passed to `upsertServerConfig` with the
guild id, the guilds passed to `forceUpdate`, the requests sent to
`guild.channels.create`, and the error with which the handler rejected, if any. -/
structure Handled where
  setupState : SetupState
  shown : List Screen
  writes : List (String × JsObject JsValue)
  forced : List String
  requests : List ChannelRequest
  thrown : Option JsError

/-- A handler call that only shows screens. -/
def Handled.showing (setupState : SetupState) (shown : List Screen) : Handled :=
  { setupState := setupState, shown := shown, writes := [], forced := [], requests := [],
    thrown := none }

/-- A handler call that rejects with an error after showing nothing. -/
def Handled.throwing (setupState : SetupState) (e : JsError) : Handled :=
  { setupState := setupState, shown := [], writes := [], forced := [], requests := [],
    thrown := some e }

/-- `showChannelSelection(interaction, currentRaidType, allRaidTypes)` (lines 86-219): the
screen shown, or the error thrown.  `currentRaidType` is `none` when the argument is
`undefined`. -/
def showChannelSelection (interaction : Interaction) (currentRaidType : Option String) :
    Except JsError Screen :=
  match interaction.guild.fetchMe with
  | Except.error e => Except.error e
  | Except.ok botMember =>
    let createCheck := canCreateChannels (some interaction.guild) (some botMember)
    if createCheck.canCreate then
      match currentRaidType with
      | none => Except.error (typeErrorReadingUndefined "toUpperCase")
      | some raidType =>
        match DEFAULT_SCHEDULE_CHANNEL_NAMES with
        | none => Except.error (typeErrorReadingUndefined (toUpperCase raidType))
        | some names =>
          let defaultChannelName :=
            if truthyString (objGet names (toUpperCase raidType)) then
              (objGet names (toUpperCase raidType)).getD ""
            else "na-forays-" ++ toLowerCase raidType
          Except.ok (Screen.channelSelection raidType (some defaultChannelName) false)
    else
      match currentRaidType with
      | none => Except.error (typeErrorReadingUndefined "toLowerCase")
      | some raidType =>
        let reason := createCheck.reason.getD ""
        Except.ok (Screen.channelSelection raidType none
          (includesText reason "role hierarchy" || includesText reason "position"))

/-- `showHostSelection(interaction, raidType)` (lines 549-591) and
`showHostSelectionDelayed` (lines 593-634): the same screen. -/
def showHostSelection (raidType : String) : Screen :=
  Screen.hostSelection raidType (getHostServersForRaidType raidType)

/-- A handler call that ends with `showChannelSelection`. -/
def thenChannelSelection (setupState : SetupState) (interaction : Interaction)
    (currentRaidType : Option String) : Handled :=
  match showChannelSelection interaction currentRaidType with
  | Except.ok screen => Handled.showing setupState [screen]
  | Except.error e => Handled.throwing setupState e

/-- `handleRaidTypeSelection(interaction)` (lines 74-84). -/
def handleRaidTypeSelection (setupState : SetupState) (interaction : Interaction) : Handled :=
  let selectedTypes := interaction.values
  let state := sessionOrEmpty setupState interaction.userId
  let state := { state with
    selectedRaidTypes := some selectedTypes, channels := some [], hosts := some [] }
  thenChannelSelection (mapSet setupState interaction.userId state) interaction
    selectedTypes.head?

/-- The five entries of `requiredPermissions` (lines 237-243): name and flag. -/
def requiredPermissions : List (String × PermissionFlag) :=
  [("View Channel", PermissionFlag.ViewChannel), ("Send Messages", PermissionFlag.SendMessages),
   ("Embed Links", PermissionFlag.EmbedLinks), ("Attach Files", PermissionFlag.AttachFiles),
   ("Read Message History", PermissionFlag.ReadMessageHistory)]

/-- The session after `state.channels[raidType] = channelId` (lines 257-260, 363-367,
381-384). -/
def storeChannel (setupState : SetupState) (userId raidType channelId : String) : SetupState :=
  let state := sessionOrEmpty setupState userId
  mapSet setupState userId
    { state with channels := some (objSet (state.channels.getD []) raidType channelId) }

/-- `handleChannelSelection(interaction, raidType)` (lines 221-370); `values` is
`interaction.values`, which the retry path overwrites. -/
def handleChannelSelection (setupState : SetupState) (interaction : Interaction)
    (raidType : String) (values : List String) : Handled :=
  match values.head? with
  | none => Handled.showing setupState [Screen.channelNotFound]
  | some channelId =>
    match interaction.guild.channelsCache channelId with
    | none => Handled.showing setupState [Screen.channelNotFound]
    | some channel =>
      match interaction.guild.fetchMe with
      | Except.error e => Handled.throwing setupState e
      | Except.ok botMember =>
        match channel.botPermissions with
        | none => Handled.throwing setupState (typeErrorReadingUndefined "has")
        | some flags =>
          let missingPermissions :=
            (requiredPermissions.filter (fun perm => decide (perm.2 ∉ flags))).map
              (fun perm => perm.1)
          let stored := storeChannel setupState interaction.userId raidType channelId
          if missingPermissions.length > 0 then
            let canAutoSet := canManageChannelPermissions channel
            let roleHighEnough := decide (botMember.highestRolePosition > 1)
            if canAutoSet && roleHighEnough then
              if (setChannelPermissions channel botMember).success then
                Handled.showing stored [Screen.permissionsSet raidType, showHostSelection raidType]
              else
                Handled.showing stored [Screen.permissionsNotSet raidType missingPermissions]
            else
              Handled.showing stored [Screen.missingPermissions raidType missingPermissions]
          else
            Handled.showing stored [showHostSelection raidType]

/-- `handleChannelCreation(interaction, raidType)` (lines 372-440). -/
def handleChannelCreation (setupState : SetupState) (interaction : Interaction)
    (raidType : String) : Handled :=
  match interaction.guild.fetchMe with
  | Except.error e => Handled.throwing setupState e
  | Except.ok botMember =>
    match createScheduleChannel (some interaction.guild) raidType (some botMember)
        { name := none, topic := none, readOnly := some true, categoryId := none } with
    | (sent, Except.error e) =>
      { Handled.throwing setupState e with requests := sent }
    | (sent, Except.ok result) =>
      if result.success then
        match result.channel with
        | none =>
          { Handled.throwing setupState (typeErrorReadingUndefined "id") with requests := sent }
        | some channel =>
          { Handled.showing (storeChannel setupState interaction.userId raidType channel.id)
              [Screen.channelCreated raidType channel.id (result.permissionsSet = some true),
               showHostSelection raidType] with requests := sent }
      else
        { Handled.showing setupState [Screen.creationFailed raidType result.error] with
          requests := sent }

/-- The channel `state?.channels?.[raidType]` looked up in the guild cache (lines 443-445,
497-499). -/
def sessionChannel (setupState : SetupState) (interaction : Interaction) (raidType : String) :
    Option GuildChannel :=
  match setupState interaction.userId with
  | none => none
  | some state =>
    match state.channels with
    | none => none
    | some channels =>
      match objGet channels raidType with
      | none => none
      | some channelId => interaction.guild.channelsCache channelId

/-- `handleAutoPermissionSetup(interaction, raidType)` (lines 442-494). -/
def handleAutoPermissionSetup (setupState : SetupState) (interaction : Interaction)
    (raidType : String) : Handled :=
  match sessionChannel setupState interaction raidType with
  | none => Handled.showing setupState [Screen.channelNotFound]
  | some channel =>
    match interaction.guild.fetchMe with
    | Except.error e => Handled.throwing setupState e
    | Except.ok botMember =>
      if (setChannelPermissions channel botMember).success then
        Handled.showing setupState [Screen.permissionsSet raidType, showHostSelection raidType]
      else
        Handled.showing setupState
          [Screen.permissionSetupFailed raidType (setChannelPermissions channel botMember).error]

/-- `showManualPermissionInstructions(interaction, raidType)` (lines 496-547). -/
def showManualPermissionInstructions (setupState : SetupState) (interaction : Interaction)
    (raidType : String) : Handled :=
  match sessionChannel setupState interaction raidType with
  | none => Handled.showing setupState [Screen.channelNotFound]
  | some _ => Handled.showing setupState [Screen.manualInstructions raidType]

/-- `Array.prototype.indexOf`. -/
def jsIndexOf (xs : List String) (x : String) : Int :=
  if x ∈ xs then (xs.indexOf x : Nat) else -1

/-- The element read `xs[i]` for an integer `i` (`none`: `undefined`). -/
def elementAt (xs : List String) (i : Int) : Option String :=
  if i < 0 then none else xs[i.toNat]?

/-- `showSetupConfirmation(interaction)` (lines 667-708): the screen shown, or the error
thrown by a read of a field of an `undefined` object. -/
def showSetupConfirmation (setupState : SetupState) (interaction : Interaction) :
    Except JsError Screen :=
  let state := sessionOrEmpty setupState interaction.userId
  match state.selectedRaidTypes with
  | none => Except.error { message := "state.selectedRaidTypes is not iterable", code := none }
  | some [] => Except.ok (Screen.confirmation [])
  | some (first :: rest) =>
    match state.channels, state.hosts with
    | some channels, some hosts =>
      Except.ok (Screen.confirmation ((first :: rest).map (fun raidType =>
        (raidType,
         (match objGet channels raidType with
          | some channelId => (interaction.guild.channelsCache channelId).map (fun c => c.id)
          | none => none),
         (objGet hosts raidType).getD []))))
    | none, _ => Except.error (typeErrorReadingUndefined first)
    | some _, none => Except.error (typeErrorReadingUndefined first)

/-- `handleHostSelection(interaction, raidType)` (lines 636-665). -/
def handleHostSelection (setupState : SetupState) (interaction : Interaction)
    (raidType : String) : Handled :=
  let selectedHosts := interaction.values
  let state := sessionOrEmpty setupState interaction.userId
  match state.selectedRaidTypes with
  | none => Handled.showing (mapDelete setupState interaction.userId) [Screen.sessionExpired]
  | some selectedRaidTypes =>
    let stored := mapSet setupState interaction.userId
      { state with hosts := some (objSet (state.hosts.getD []) raidType selectedHosts) }
    let currentIndex := jsIndexOf selectedRaidTypes raidType
    let nextRaidType := elementAt selectedRaidTypes (currentIndex + 1)
    if truthyString nextRaidType then thenChannelSelection stored interaction nextRaidType
    else
      match showSetupConfirmation stored interaction with
      | Except.ok screen => Handled.showing stored [screen]
      | Except.error e => Handled.throwing stored e

/-- The value `state.channels[raidType]` written into a record. -/
def channelValue (channels : JsObject String) (raidType : String) : JsValue :=
  match objGet channels raidType with
  | some channelId => JsValue.string channelId
  | none => JsValue.undefined

/-- The value `state.hosts[raidType]` written into a record. -/
def hostsValue (hosts : JsObject (List String)) (raidType : String) : JsValue :=
  match objGet hosts raidType with
  | some selectedHosts => JsValue.array selectedHosts
  | none => JsValue.undefined

/-- The loop `for (const raidType of state.selectedRaidTypes)` of `handleSetupConfirmation`
(lines 758-764 and 775-781) over the raid types still to visit: the record after it, or
the error thrown by a read of a field of an `undefined` object. -/
def writeSelections (channels : Option (JsObject String))
    (hosts : Option (JsObject (List String))) :
    List String → JsObject JsValue → Except JsError (JsObject JsValue)
  | [], configData => Except.ok configData
  | raidType :: rest, configData =>
    match channels, hosts with
    | some ch, some hs =>
      writeSelections channels hosts rest
        (objSet
          (objSet configData (propertyName (getScheduleChannelKey raidType))
            (channelValue ch raidType))
          (propertyName (getEnabledHostsKey raidType)) (hostsValue hs raidType))
    | none, _ => Except.error (typeErrorReadingUndefined raidType)
    | some _, none => Except.error (typeErrorReadingUndefined raidType)

/-- The object literal of the amend branch (lines 737-756). -/
def amendBase (guildName : String) (existingConfig : Option (JsObject JsValue)) :
    JsObject JsValue :=
  [("guild_name", JsValue.string guildName),
   ("setup_complete", JsValue.number 1),
   ("auto_update", nullish (optFieldOf existingConfig "auto_update") (JsValue.number 1)),
   ("schedule_color_ba",
     nullish (optFieldOf existingConfig "schedule_color_ba") (JsValue.number (-1))),
   ("schedule_color_ft",
     nullish (optFieldOf existingConfig "schedule_color_ft") (JsValue.number (-1))),
   ("schedule_color_drs",
     nullish (optFieldOf existingConfig "schedule_color_drs") (JsValue.number (-1))),
   ("schedule_channel_ba", optFieldOf existingConfig "schedule_channel_ba"),
   ("schedule_channel_ft", optFieldOf existingConfig "schedule_channel_ft"),
   ("schedule_channel_drs", optFieldOf existingConfig "schedule_channel_drs"),
   ("enabled_hosts_ba", optFieldOf existingConfig "enabled_hosts_ba"),
   ("enabled_hosts_ft", optFieldOf existingConfig "enabled_hosts_ft"),
   ("enabled_hosts_drs", optFieldOf existingConfig "enabled_hosts_drs"),
   ("schedule_overview_ba", optFieldOf existingConfig "schedule_overview_ba"),
   ("schedule_overview_ft", optFieldOf existingConfig "schedule_overview_ft"),
   ("schedule_overview_drs", optFieldOf existingConfig "schedule_overview_drs"),
   ("schedule_message_ba", optFieldOf existingConfig "schedule_message_ba"),
   ("schedule_message_ft", optFieldOf existingConfig "schedule_message_ft"),
   ("schedule_message_drs", optFieldOf existingConfig "schedule_message_drs")]

/-- The object literal of the branch for a new tenant (lines 766-773). -/
def newTenantBase (guildName : String) : JsObject JsValue :=
  [("guild_name", JsValue.string guildName),
   ("setup_complete", JsValue.number 1),
   ("auto_update", JsValue.number 1),
   ("schedule_color_ba", JsValue.number (-1)),
   ("schedule_color_ft", JsValue.number (-1)),
   ("schedule_color_drs", JsValue.number (-1))]

/-- The record `configData` that `handleSetupConfirmation` builds (lines 732-782) from the
session and, in the amend branch, from the stored record `existingConfig`; or the error
thrown while building it. -/
def buildConfigData (state : SetupSession) (guildName : String)
    (existingConfig : Option (JsObject JsValue)) : Except JsError (JsObject JsValue) :=
  match state.selectedRaidTypes with
  | none => Except.error { message := "state.selectedRaidTypes is not iterable", code := none }
  | some selectedRaidTypes =>
    writeSelections state.channels state.hosts selectedRaidTypes
      (if state.returnToConfig then amendBase guildName existingConfig
       else newTenantBase guildName)

/-- The `catch` block of `handleSetupConfirmation` (lines 822-842): the error is reported
to the actor and not rethrown. -/
def commitFailed (setupState : SetupState) (writes : List (String × JsObject JsValue))
    (forced : List String) : Handled :=
  { setupState := setupState, shown := [Screen.saveError], writes := writes, forced := forced,
    requests := [], thrown := none }

/-- `handleSetupConfirmation(interaction)` (lines 710-843). -/
def handleSetupConfirmation (setupState : SetupState) (interaction : Interaction) : Handled :=
  match setupState interaction.userId with
  | none => Handled.showing setupState [Screen.sessionExpiredAtConfirmation]
  | some state =>
    match interaction.commit.deferUpdate, interaction.commit.updateManager with
    | Except.ok _, Except.ok _ =>
      let existing : Except JsError (Option (JsObject JsValue)) :=
        if state.returnToConfig then interaction.commit.getServerConfig else Except.ok none
      match existing with
      | Except.error _ => commitFailed setupState [] []
      | Except.ok existingConfig =>
        match buildConfigData state interaction.guild.name existingConfig with
        | Except.error _ => commitFailed setupState [] []
        | Except.ok configData =>
          let writes := [(interaction.guild.id, configData)]
          match interaction.commit.upsertServerConfig with
          | Except.error _ => commitFailed setupState writes []
          | Except.ok _ =>
            let forced := [interaction.guild.id]
            match interaction.commit.forceUpdate with
            | Except.error _ => commitFailed setupState writes forced
            | Except.ok _ =>
              let deleted := mapDelete setupState interaction.userId
              match interaction.commit.finalReply with
              | Except.error _ => commitFailed deleted writes forced
              | Except.ok _ =>
                { setupState := deleted
                  shown := [if state.returnToConfig then Screen.configMenu
                    else Screen.setupComplete]
                  writes := writes, forced := forced, requests := [], thrown := none }
    | _, _ => commitFailed setupState [] []

/-- The raid type `customId.split('_').pop().toUpperCase()` of a custom id. -/
def raidTypeOf (customId : String) : String :=
  toUpperCase (popSegment customId)

/-- `handleSetupInteraction(interaction)` (lines 14-72).  The third argument of
`showChannelSelection` is not read by it and is left out. -/
def handleSetupInteraction (setupState : SetupState) (interaction : Interaction) : Handled :=
  let customId := interaction.customId
  if customId = "setup_select_raids" then handleRaidTypeSelection setupState interaction
  else if startsWith customId "setup_retry_channel_" then
    thenChannelSelection setupState interaction (some (raidTypeOf customId))
  else if startsWith customId "setup_retry_perms_" then
    let channelId :=
      match setupState interaction.userId with
      | none => none
      | some state =>
        match state.channels with
        | none => none
        | some channels => objGet channels (raidTypeOf customId)
    if truthyString channelId then
      handleChannelSelection setupState interaction (raidTypeOf customId) [channelId.getD ""]
    else Handled.showing setupState [Screen.noChannelSelected]
  else if startsWith customId "setup_create_channel_" then
    handleChannelCreation setupState interaction (raidTypeOf customId)
  else if startsWith customId "setup_select_channel_" then
    handleChannelSelection setupState interaction (raidTypeOf customId) interaction.values
  else if startsWith customId "setup_auto_perms_" then
    handleAutoPermissionSetup setupState interaction (raidTypeOf customId)
  else if startsWith customId "setup_manual_perms_" then
    showManualPermissionInstructions setupState interaction (raidTypeOf customId)
  else if startsWith customId "setup_select_hosts_" then
    handleHostSelection setupState interaction (raidTypeOf customId)
  else if customId = "setup_confirm" then handleSetupConfirmation setupState interaction
  else if customId = "setup_cancel" then
    Handled.showing (mapDelete setupState interaction.userId) [Screen.cancelled]
  else Handled.showing setupState []

/-- The session map after a sequence of setup interactions, handled one after the other. -/
def runSetup (setupState : SetupState) : List Interaction → SetupState
  | [] => setupState
  | interaction :: rest => runSetup (handleSetupInteraction setupState interaction).setupState rest

/-- The screens shown by a sequence of setup interactions, per interaction. -/
def screensOf (setupState : SetupState) : List Interaction → List (List Screen)
  | [] => []
  | interaction :: rest =>
    (handleSetupInteraction setupState interaction).shown ::
      screensOf (handleSetupInteraction setupState interaction).setupState rest

/-- The property names that the commit loop writes for `raidType`. -/
def writtenKeys (raidType : String) : List String :=
  [propertyName (getScheduleChannelKey raidType), propertyName (getEnabledHostsKey raidType)]

/-- The five per-category fields of a configuration record: channel, enabled hosts,
overview identifier, message identifier, colour. -/
def categoryKeys (raidType : String) : List String :=
  [getConfigKey "schedule_channel" raidType, getConfigKey "enabled_hosts" raidType,
   getConfigKey "schedule_overview" raidType, getConfigKey "schedule_message" raidType,
   getConfigKey "schedule_color" raidType]

/-! ## Concrete guilds and interactions used to instantiate the theorems -/

/-- A channel of the guild cache in which the bot has the five required permissions. -/
def demoChannel (id : String) : GuildChannel :=
  { id := id
    botPermissions := some [PermissionFlag.ViewChannel, PermissionFlag.SendMessages,
      PermissionFlag.EmbedLinks, PermissionFlag.AttachFiles, PermissionFlag.ReadMessageHistory]
    overwriteEdit := Except.ok () }

/-- The bot member of the demo guilds, with the given guild permissions; its highest role
has position 5. -/
def demoBot (permissions : List PermissionFlag) : BotMember :=
  { id := "bot", permissions := some permissions, highestRolePosition := 5,
    highestRoleName := "NA Forays Schedule", botRoleId := some "role" }

/-- A guild with the text channels `123` and `456`, in which the bot has the given guild
permissions and every channel request succeeds. -/
def demoGuildWith (permissions : List PermissionFlag) : Guild :=
  { id := "guild", name := "Demo Guild", everyoneRoleId := "guild"
    fetchMe := Except.ok (demoBot permissions)
    channelsCreate := fun request => Except.ok { id := "900", name := request.name }
    channelsCache := fun id => if id = "123" ∨ id = "456" then some (demoChannel id) else none }

/-- A guild in which the bot was not granted Manage Channels. -/
def demoGuild : Guild :=
  demoGuildWith [PermissionFlag.ViewChannel, PermissionFlag.SendMessages]

/-- A guild in which the bot has Manage Channels (and a role of position 5), so that
`canCreateChannels` answers `canCreate: true`. -/
def demoGuildCanCreate : Guild :=
  demoGuildWith [PermissionFlag.ViewChannel, PermissionFlag.ManageChannels,
    PermissionFlag.SendMessages]

/-- Collaborators that all answer without error; the store holds `stored`. -/
def demoCommit (stored : Option (JsObject JsValue)) : CommitFacts :=
  { deferUpdate := Except.ok (), updateManager := Except.ok ()
    getServerConfig := Except.ok stored, upsertServerConfig := Except.ok ()
    forceUpdate := Except.ok (), finalReply := Except.ok () }

/-- An interaction of the actor `u` in a guild whose store is empty. -/
def demoInteraction (guild : Guild) (customId : String) (values : List String) : Interaction :=
  { userId := "u", customId := customId, values := values, guild := guild,
    commit := demoCommit none }

/-- The empty session map. -/
def noSessions : SetupState := fun _ => none

/-- The wizard followed in order for the selection `[BA, FT]`, up to the confirmation
screen. -/
def demoFlow (guild : Guild) : List Interaction :=
  [demoInteraction guild "setup_select_raids" ["BA", "FT"],
   demoInteraction guild "setup_select_channel_ba" ["123"],
   demoInteraction guild "setup_select_hosts_ba" ["CAFE"],
   demoInteraction guild "setup_select_channel_ft" ["456"],
   demoInteraction guild "setup_select_hosts_ft" ["CEM", "CAFE"]]

/-- A commit that arrives after the channel of BA was chosen and before its hosts were. -/
def demoEarlyCommit : List Interaction :=
  [demoInteraction demoGuild "setup_select_raids" ["BA"],
   demoInteraction demoGuild "setup_select_channel_ba" ["123"]]

/-- A stored record whose BA colour is `null`. -/
def demoStored : JsObject JsValue :=
  [("schedule_channel_ba", JsValue.string "123"),
   ("enabled_hosts_ba", JsValue.array ["CAFE"]),
   ("schedule_color_ba", JsValue.null)]

/-- An amend session that selected FT only. -/
def demoAmendSession : SetupSession :=
  { selectedRaidTypes := some ["FT"], channels := some [("FT", "456")],
    hosts := some [("FT", ["CEM"])], returnToConfig := true }

/-- The confirmation of the amend session, in a guild whose store holds `demoStored`. -/
def demoAmendConfirm : Interaction :=
  { userId := "u", customId := "setup_confirm", values := [], guild := demoGuild,
    commit := demoCommit (some demoStored) }

/-- A confirmation whose store write fails. -/
def demoFailingConfirm : Interaction :=
  { userId := "u", customId := "setup_confirm", values := [], guild := demoGuild,
    commit := { demoCommit none with
      upsertServerConfig := Except.error { message := "database is locked", code := none } } }

/-! ## Decimal renderings -/

/-- The number that a list of decimal digits denotes; it is used to show that the
rendering of an integer in a template literal determines the integer. -/
def decimalValue (digits : List Char) : Nat :=
  digits.foldl (fun acc c => 10 * acc + (c.toNat - 48)) 0

/-! ## `src/utils/rateLimiter.js`: the state of one actor -/

/-- The actor whose check a call is; `none` for a clear and for the sweep. -/
def Op.checker : Op → Option String
  | .command u _ _ => some u
  | .interaction u _ _ => some u
  | _ => none

/-- Two limiter states hold the same for the actor `w`: the same request list and, for
every action, the same command-cooldown and interaction-cooldown entry. -/
def sameStateOf (w : String) (s1 s2 : RateLimiter) : Prop :=
  s1.userRequestCounts w = s2.userRequestCounts w ∧
  ∀ action, s1.userCommandCooldowns (cooldownKey w action) =
      s2.userCommandCooldowns (cooldownKey w action) ∧
    s1.userInteractionCooldowns (cooldownKey w action) =
      s2.userInteractionCooldowns (cooldownKey w action)

/-! ## A hash function that the spec accepts -/

/-- The conversion `x | 0` of an integer to a signed 32-bit integer. -/
def toInt32 (x : Int) : Int :=
  (x + 2147483648) % 4294967296 - 2147483648

/-- Modelled from the spec: `hashCodeSchedules` of `src/utils/hashCode`, which is not among
the sources.  The spec accepts "any stable 32/64-bit hash"; this one is the 32-bit
polynomial string hash (`hash = ((hash << 5) - hash) + code; hash |= 0` per character),
whose numeric value `+=` renders in decimal.  The theorems take the hash function as a
parameter; this one instantiates them and shows where a statement fails for a hash function
that the spec accepts. -/
def hashCode32 (s : String) : String :=
  toString (s.data.foldl (fun hash c => toInt32 (hash * 31 + (c.toNat : Int))) 0)

/-! ## `src/config/constants.js`: run types -/

/-- The `runTypes` arrays of the entries of `RAID_TYPES` (lines 4-26). -/
def RAID_TYPES_runTypes : JsObject (List String) :=
  [("BA", ["Fresh", "Learning", "Standard", "Normal", "Reclear", "Non-Standard", "Frag",
      "Meme"]),
   ("FT", ["Fresh/AnyProg", "Dead Stars", "Bridges", "Marble Dragon", "Magitaur", "Clear",
      "Reclear"]),
   ("DRS", ["Fresh/AnyProg", "Queen's Guard", "Trinity Avowed", "The Queen", "Reclear"])]

/-- `getRunTypePriority(raidType)` of `raidTypes.js` (lines 39-41):
`RAID_TYPES[raidType]?.runTypes || []`. -/
def getRunTypePriority (raidType : String) : List String :=
  (objGet RAID_TYPES_runTypes raidType).getD []

/-! ## `src/config/hostServers.js`: links -/

/-- `getInviteLink(serverName)` (lines 188-190). -/
def getInviteLink (serverName : String) : String :=
  match objGet HOST_SERVERS serverName with
  | some server => if server.inviteLink ≠ "" then server.inviteLink else "#"
  | none => "#"

/-- `getChannelLink(serverName, raidType)` (lines 192-195).  A value that
`HOST_SERVERS[serverName]` inherits has no `channelLinks`, so only the own entries of the
registry give a link; the read `channelLinks[raidType]` goes through the prototype chain
of the literal. -/
def getChannelLink (serverName raidType : String) : String :=
  let link :=
    match objGet HOST_SERVERS serverName with
    | some server => readThroughPrototype server.channelLinks raidType
    | none => none
  if truthyString link then "[" ++ serverName ++ "](" ++ link.getD "" ++ ")"
  else "**" ++ serverName ++ "**"

/-! ## `src/services/containerBuilder.js`: the sections of a server container -/

/-- `Math.round(x / 1000)` for an integer `x`: the nearest integer, a half rounded up.
For the magnitudes of epoch milliseconds the division is exact enough for this to be the
floor of `(x + 500) / 1000`. -/
def mathRoundDiv1000 (x : Int) : Int :=
  (x + 500) / 1000

/-- The text that `formatRunGroup` appends per run (lines 241-264). -/
def formatRunText (run : Run) (currentTime : Int) : String :=
  let timestamp := mathRoundDiv1000 run.Start
  let timeStr := "<t:" ++ toString timestamp ++ ":F>\n"
  let newBadge := if isNew run currentTime then "🆕 " else ""
  "● " ++ newBadge ++ timeStr ++
    (if truthyString run.RunDC then " Data Center: " ++ run.RunDC.getD "" ++ "\n" else "") ++
    (if truthyString run.referenceLink then "[Run Info](" ++ run.referenceLink.getD "" ++ ")"
     else "") ++ "\n"

/-- `formatRunGroup(runType, runs)` (lines 236-268); one call reads the clock once. -/
def formatRunGroup (runType : String) (runs : List Run) (currentTime : Int) : String :=
  runs.foldl (fun text run => text ++ formatRunText run currentTime)
    ("### " ++ runType ++ "\n")

/-- The expression `run.Type || 'Unknown'` (line 180).  `buildServerContainer` reads the
field `Type` only here, and every falsy `Type` gives `Unknown`: a run without a `Type` is
the run whose `RunType` is empty. -/
def runTypeKey (run : Run) : String :=
  if run.RunType ≠ "" then run.RunType else "Unknown"

/-- The loop that fills `runsByType` (lines 178-185), from the object built so far.  The
test `!runsByType[runType]` sees an own property (an array, truthy) or an inherited one
(truthy as well, and then `push` is not a function). -/
def groupRunsByType : List Run → JsObject (List Run) → Except JsError (JsObject (List Run))
  | [], runsByType => Except.ok runsByType
  | run :: rest, runsByType =>
    let runType := runTypeKey run
    match objGet runsByType runType with
    | some typeRuns => groupRunsByType rest (objSet runsByType runType (typeRuns ++ [run]))
    | none =>
      if runType ∈ inheritedPropertyNames then
        Except.error { message := "runsByType[runType].push is not a function", code := none }
      else groupRunsByType rest (objSet runsByType runType [run])

/-- Whether a property key is an array index: the canonical decimal rendering (digits
only, no leading zero) of an integer from 0 to 2^32 - 2. -/
def isArrayIndex (key : String) : Bool :=
  !key.data.isEmpty && key.data.all Char.isDigit &&
    (key.data.head? != some '0' || key.data.length == 1) &&
    decide (decimalValue key.data < 4294967295)

/-- `Object.keys(o)` for an object whose own properties were created in the order of the
list: the keys that are array indices in ascending numeric order, then the other keys in
creation order. -/
def objectKeys {α : Type} (o : JsObject α) : List String :=
  let keys := o.map (fun e => e.1)
  (keys.filter isArrayIndex).insertionSort
      (fun a b => decimalValue a.data ≤ decimalValue b.data) ++
    keys.filter (fun key => !isArrayIndex key)

/-- `Array.prototype.sort(compareFn)`: a stable sort that puts `a` before `b` when
`compareFn(a, b)` is negative.  For a consistent comparison function every stable sort
returns the same array; it is computed here by insertion. -/
def arraySort (compareFn : String → String → Int) (xs : List String) : List String :=
  xs.insertionSort (fun a b => compareFn a b ≤ 0)

/-- The comparison function of lines 188-200.  `localeCompare` is
`String.prototype.localeCompare` with the default locale of the runtime, a parameter. -/
def compareRunTypes (localeCompare : String → String → Int) (priorityOrder : List String)
    (a b : String) : Int :=
  let indexA := jsIndexOf priorityOrder a
  let indexB := jsIndexOf priorityOrder b
  if indexA ≠ -1 ∧ indexB ≠ -1 then indexA - indexB
  else if indexA ≠ -1 then -1
  else if indexB ≠ -1 then 1
  else localeCompare a b

/-- `sortedRunTypes` (lines 187-200). -/
def sortedRunTypes (localeCompare : String → String → Int) (raidType : String)
    (runsByType : JsObject (List Run)) : List String :=
  arraySort (compareRunTypes localeCompare (getRunTypePriority raidType))
    (objectKeys runsByType)

/-- What `buildServerContainer` puts into the container from its arguments: the first
line of the header, the texts of the run-type sections in order, and the link of the
invite button if there is one.  The other lines of the header and the thumbnail come from
Discord and are left out. -/
structure ServerContainer where
  heading : String
  sections : List String
  inviteLink : Option String
  deriving DecidableEq, Repr

/-- `buildServerContainer(serverName, runs, raidType, isFirst, customColor)` (lines
136-234): the container built, or the error thrown by the grouping loop. -/
def buildServerContainer (localeCompare : String → String → Int) (serverName : String)
    (runs : List Run) (raidType : String) (currentTime : Int) :
    Except JsError ServerContainer :=
  match groupRunsByType runs [] with
  | Except.error e => Except.error e
  | Except.ok runsByType =>
    Except.ok
      { heading := "## " ++ getChannelLink serverName raidType ++ "\n"
        sections := (sortedRunTypes localeCompare raidType runsByType).map
          (fun runType =>
            formatRunGroup runType ((objGet runsByType runType).getD []) currentTime)
        inviteLink :=
          if getInviteLink serverName ≠ "#" then some (getInviteLink serverName) else none }

/-! ## `src/utils/raidTypes.js`: the table of configuration keys -/

/-- The five tables of `ConfigKeys` (lines 63-69), in the order of the object literal. -/
def ConfigKeys : List (JsObject String) :=
  [getAllConfigKeys "schedule_channel", getAllConfigKeys "schedule_overview",
   getAllConfigKeys "enabled_hosts", getAllConfigKeys "schedule_message",
   getAllConfigKeys "schedule_color"]

/-- Every key of `ConfigKeys`, table by table. -/
def allConfigKeys : List String :=
  (ConfigKeys.map (fun table => table.map (fun e => e.2))).flatten

/-- The setup families whose custom ids end in a raid type and that lead to a channel or
host step (`setup_auto_perms_` and `setup_manual_perms_` are the two others). -/
def setupFamilies : List String :=
  ["setup_create_channel_", "setup_select_channel_", "setup_retry_channel_",
   "setup_retry_perms_", "setup_select_hosts_"]

/-! ## Custom ids -/

/-- The custom id that the UI builds for a family and a raid type: the family followed by
the raid type in lower case (`containerBuilder.js` lines 76, 85, 90 and the `setCustomId`
calls of `setupInteractions.js`). -/
def customIdOf (family raidType : String) : String :=
  family ++ toLowerCase raidType

/-- `interaction.customId.split('_')[2].toUpperCase()` (`interactionCreate.js` lines 268
and 384); it throws when there is no third segment. -/
def thirdSegmentUpperCase (customId : String) : Except JsError String :=
  match (splitUnderscore customId)[2]? with
  | some segment => Except.ok (toUpperCase segment)
  | none => Except.error (typeErrorReadingUndefined "toUpperCase")

/-- The handlers that `handleButtonInteraction` and `handleSelectMenuInteraction` pass an
allowed interaction to. -/
inductive Route where
  | setup
  | config
  | scheduleInfo
  | scheduleServers
  | timezoneSelect
  | unknown
  deriving DecidableEq, Repr

/-- The dispatch of `handleButtonInteraction` (lines 119-147). -/
def buttonRoute (customId : String) : Route :=
  if startsWith customId "setup_" then Route.setup
  else if startsWith customId "config_" then Route.config
  else if startsWith customId "schedule_info_" then Route.scheduleInfo
  else if startsWith customId "schedule_servers_" then Route.scheduleServers
  else if startsWith customId "timezone_select_" then Route.timezoneSelect
  else Route.unknown

/-- The dispatch of `handleSelectMenuInteraction` (lines 181-201). -/
def selectMenuRoute (customId : String) : Route :=
  if startsWith customId "setup_" then Route.setup
  else if startsWith customId "config_" then Route.config
  else if startsWith customId "timezone_select_" then Route.timezoneSelect
  else Route.unknown

/-! ## More concrete inputs -/

/-- The hash function that renders the parity of the length of its argument; all its
values have length 1. -/
def demoParityHash (s : String) : String :=
  if s.length % 2 = 0 then "0" else "1"

/-- A run of type `Reclear`. -/
def demoRunReclear : Run :=
  { ID := "21", RunType := "Reclear", Start := 300000000, RunDC := some "Aether",
    referenceLink := none, TimeStamp := none }

/-- A run of a type that is not in any priority list. -/
def demoRunZeta : Run :=
  { ID := "22", RunType := "Zeta", Start := 300600000, RunDC := none,
    referenceLink := some "https://example.org/run/22", TimeStamp := none }

/-- A run without a type. -/
def demoRunUntyped : Run :=
  { ID := "23", RunType := "", Start := 301200000, RunDC := none, referenceLink := none,
    TimeStamp := none }

/-- A second run of type `Fresh`, later than `demoRunNew`. -/
def demoRunFresh2 : Run :=
  { ID := "24", RunType := "Fresh", Start := 301800000, RunDC := none, referenceLink := none,
    TimeStamp := none }

/-- A run whose type is the name of a property of `Object.prototype`. -/
def demoRunConstructor : Run :=
  { ID := "25", RunType := "constructor", Start := 302400000, RunDC := none,
    referenceLink := none, TimeStamp := none }

/-- Runs of four types in fetch order. -/
def demoRuns : List Run :=
  [demoRunZeta, demoRunReclear, demoRunNew, demoRunUntyped, demoRunFresh2]

/-- A comparison of strings by their lists of characters, in the place of
`localeCompare`. -/
def demoLocaleCompare (a b : String) : Int :=
  if a.data < b.data then -1 else if a = b then 0 else 1

/-- The ordered sequence of per-source hash values that `generateContentHash` appends to
the category label (lines 316-319). -/
def sourceHashes (hashCodeSchedules : String → String)
    (groupedRuns : List (String × List Run)) (currentTime : Int) : List String :=
  groupedRuns.map (fun entry => generateServerHash hashCodeSchedules entry.1 entry.2 currentTime)

/-! ## A channel without the required permissions, and the texts of the expiry screens -/

/-- A channel of the guild cache in which the bot can only view the channel. -/
def demoChannelBare (id : String) : GuildChannel :=
  { id := id, botPermissions := some [PermissionFlag.ViewChannel],
    overwriteEdit := Except.ok () }

/-- A guild with the text channel `789`, in which the bot lacks four of the five required
permissions and was not granted Manage Channels. -/
def demoGuildBare : Guild :=
  { id := "guild", name := "Demo Guild", everyoneRoleId := "guild"
    fetchMe := Except.ok (demoBot [PermissionFlag.ViewChannel, PermissionFlag.SendMessages])
    channelsCreate := fun request => Except.ok { id := "900", name := request.name }
    channelsCache := fun id => if id = "789" then some (demoChannelBare id) else none }

/-- The name of the one slash command (`src/commands/slash/schedule.js`, line 14). -/
def registeredCommandName : String := "na-schedule"

/-- The text of the screen `Screen.sessionExpired` (`setupInteractions.js`, line 643). -/
def sessionExpiredText : String :=
  "❌ Setup session expired or invalid. Please run `/na-schedule` again to restart setup."

/-- The text of the screen `Screen.sessionExpiredAtConfirmation` (`setupInteractions.js`,
line 716). -/
def sessionExpiredAtConfirmationText : String :=
  "❌ Setup session expired. Please run `/setup` again."

/-- The text of the two expiry screens. -/
def expiryText : Screen → Option String
  | Screen.sessionExpired => some sessionExpiredText
  | Screen.sessionExpiredAtConfirmation => some sessionExpiredAtConfirmationText
  | _ => none

/-- The command that a text names: the letters, digits and hyphens after its first `/`. -/
def namedCommand (text : String) : String :=
  String.mk (((text.data.dropWhile (fun c => c ≠ '/')).drop 1).takeWhile
    (fun c => c.isAlphanum || c = '-'))

/-! ## Properties of the rate limiter -/


theorem mathCeilDiv_eq_ceil (x : Int) : mathCeilDiv x 1000 = ⌈(x : ℚ) / 1000⌉ := by
  unfold mathCeilDiv
  have h : ⌊((-x : ℤ) : ℚ) / ((1000 : ℕ) : ℚ)⌋ = (-x) / ((1000 : ℕ) : ℤ) :=
    Rat.floor_intCast_div_natCast (-x) 1000
  have h2 : ⌈(x : ℚ) / 1000⌉ = -⌊-((x : ℚ) / 1000)⌋ := by
    rw [Int.floor_neg, neg_neg]
  rw [h2, ← neg_div]
  push_cast at h
  rw [h]

theorem cooldownKey_inj (u a b : String) : cooldownKey u a = cooldownKey u b ↔ a = b := by
  constructor
  · intro h
    unfold cooldownKey at h
    have h1 := congrArg String.data h
    simp only [String.data_append, List.append_assoc] at h1
    have h2 := List.append_cancel_left h1
    have h3 := List.append_cancel_left h2
    exact String.ext h3
  · rintro rfl; rfl

theorem startsWith_cooldownKey (u a : String) : startsWith (cooldownKey u a) (u ++ ":") = true := by
  unfold startsWith cooldownKey
  simp [String.data_append, List.append_assoc]

theorem recent_recent (t t' : Int) (h : t ≤ t') (rs : List Int) :
    recent t' (recent t rs) = recent t' rs := by
  unfold recent
  rw [List.filter_filter]
  apply List.filter_congr
  intro x _
  by_cases hx : t' - x < REQUEST_WINDOW
  · have : t - x < REQUEST_WINDOW := by omega
    simp [hx, this]
  · simp [hx]

theorem checkRequestLimit_eq (s : RateLimiter) (u : String) (now : Int) :
    checkRequestLimit s u now =
      if (recent now (storedRequests s u)).length ≥ MAX_REQUESTS_PER_WINDOW then
        { allowed := false
          timeLeft := (mathMin (recent now (storedRequests s u))).map
            (fun oldestRequest => mathCeilDiv (REQUEST_WINDOW - (now - oldestRequest)) 1000) }
      else { allowed := true, timeLeft := none } := by
  unfold checkRequestLimit storedRequests
  cases h : s.userRequestCounts u with
  | none => simp [recent, MAX_REQUESTS_PER_WINDOW]
  | some rs => simp

theorem checkRequestLimit_allowed_iff (s : RateLimiter) (u : String) (now : Int) :
    (checkRequestLimit s u now).allowed = true ↔
      (recent now (storedRequests s u)).length < MAX_REQUESTS_PER_WINDOW := by
  rw [checkRequestLimit_eq]
  split <;> simp_all
  
theorem storedRequests_cleanup (s : RateLimiter) (u : String) (t : Int) :
    storedRequests (cleanup s t) u = recent t (storedRequests s u) := by
  unfold storedRequests cleanup
  cases h : s.userRequestCounts u with
  | none => simp [h, recent]
  | some rs =>
    simp only [h, Option.getD_some]
    split
    · rename_i h0
      simp only [Option.getD_none]
      exact (List.length_eq_zero.mp h0).symm
    · simp


theorem checkCommandCooldown_cleanup_result (s : RateLimiter) (t t' : Int) (h : t ≤ t')
    (u a : String) :
    (checkCommandCooldown (cleanup s t) u a t').1 = (checkCommandCooldown s u a t').1 := by
  have hreq : checkRequestLimit (cleanup s t) u t' = checkRequestLimit s u t' := by
    rw [checkRequestLimit_eq, checkRequestLimit_eq, storedRequests_cleanup, recent_recent t t' h]
  unfold checkCommandCooldown
  simp only [hreq]
  split
  · rfl
  · have hc : (cleanup s t).userCommandCooldowns (cooldownKey u a) =
        match s.userCommandCooldowns (cooldownKey u a) with
        | none => none
        | some timestamp =>
          if t - timestamp > COMMAND_COOLDOWN * 10 then none else some timestamp := rfl
    rw [hc]
    cases hk : s.userCommandCooldowns (cooldownKey u a) with
    | none => rfl
    | some ts =>
      simp only
      by_cases hdel : t - ts > COMMAND_COOLDOWN * 10
      · have hno : ¬ (ts ≠ 0 ∧ t' - ts < COMMAND_COOLDOWN) := by
          unfold COMMAND_COOLDOWN at *
          omega
        simp [hdel, hno]
      · simp only [hdel, if_false]
        split <;> rfl

theorem checkCommandCooldown_allowed_iff (s : RateLimiter) (u a : String) (now : Int) :
    (checkCommandCooldown s u a now).1.allowed = true ↔
      (checkRequestLimit s u now).allowed = true ∧
      gatePasses (s.userCommandCooldowns (cooldownKey u a)) now COMMAND_COOLDOWN := by
  unfold checkCommandCooldown gatePasses
  simp only
  cases hreq : (checkRequestLimit s u now).allowed
  · simp [hreq]
  · cases hk : s.userCommandCooldowns (cooldownKey u a) with
    | none => simp
    | some l =>
      simp only
      by_cases hb : l ≠ 0 ∧ now - l < COMMAND_COOLDOWN
      · simp only [if_pos hb]
        simp [hb]
      · simp only [if_neg hb]
        simp [hb]

theorem checkInteractionCooldown_allowed_iff (s : RateLimiter) (u a : String) (now : Int) :
    (checkInteractionCooldown s u a now).1.allowed = true ↔
      (checkRequestLimit s u now).allowed = true ∧
      gatePasses (s.userInteractionCooldowns (cooldownKey u a)) now INTERACTION_COOLDOWN := by
  unfold checkInteractionCooldown gatePasses
  simp only
  cases hreq : (checkRequestLimit s u now).allowed
  · simp [hreq]
  · cases hk : s.userInteractionCooldowns (cooldownKey u a) with
    | none => simp
    | some l =>
      simp only
      by_cases hb : l ≠ 0 ∧ now - l < INTERACTION_COOLDOWN
      · simp only [if_pos hb]
        simp [hb]
      · simp only [if_neg hb]
        simp [hb]

theorem checkCommandCooldown_allowed_state (s : RateLimiter) (u a : String) (now : Int)
    (h : (checkCommandCooldown s u a now).1.allowed = true) :
    (checkCommandCooldown s u a now).2 =
      incrementRequestCount
        { s with userCommandCooldowns :=
            mapSet s.userCommandCooldowns (cooldownKey u a) now } u now := by
  revert h
  unfold checkCommandCooldown
  simp only
  split
  · rename_i hd; intro h; rw [hd] at h; cases h
  · split
    · intro _; rfl
    · split
      · intro h; cases h
      · intro _; rfl

theorem checkInteractionCooldown_allowed_state (s : RateLimiter) (u a : String) (now : Int)
    (h : (checkInteractionCooldown s u a now).1.allowed = true) :
    (checkInteractionCooldown s u a now).2 =
      incrementRequestCount
        { s with userInteractionCooldowns :=
            mapSet s.userInteractionCooldowns (cooldownKey u a) now } u now := by
  revert h
  unfold checkInteractionCooldown
  simp only
  split
  · rename_i hd; intro h; rw [hd] at h; cases h
  · split
    · intro _; rfl
    · split
      · intro h; cases h
      · intro _; rfl

theorem storedRequests_incrementRequestCount (s : RateLimiter) (u v : String) (now : Int) :
    storedRequests (incrementRequestCount s u now) v =
      if v = u then recent now (storedRequests s u ++ [now]) else storedRequests s v := by
  unfold storedRequests incrementRequestCount mapSet
  by_cases h : v = u
  · subst h; simp
  · simp [h]


theorem checkCommandCooldown_denied_state (s : RateLimiter) (u a : String) (now : Int)
    (h : (checkCommandCooldown s u a now).1.allowed = false) :
    (checkCommandCooldown s u a now).2 = s := by
  revert h
  unfold checkCommandCooldown
  simp only
  split
  · intro _; rfl
  · split
    · intro h; cases h
    · split
      · intro _; rfl
      · intro h; cases h

theorem checkInteractionCooldown_denied_state (s : RateLimiter) (u a : String) (now : Int)
    (h : (checkInteractionCooldown s u a now).1.allowed = false) :
    (checkInteractionCooldown s u a now).2 = s := by
  revert h
  unfold checkInteractionCooldown
  simp only
  split
  · intro _; rfl
  · split
    · intro h; cases h
    · split
      · intro _; rfl
      · intro h; cases h

theorem check_allowed_iff (s : RateLimiter) (u : String) (c : Check) :
    wasAllowed (c.toOp u, (step s (c.toOp u)).1) = true ↔
      (recent c.now (storedRequests s u)).length < MAX_REQUESTS_PER_WINDOW ∧
      gatePasses (cooldownEntry s u c) c.now c.interval = true := by
  unfold Check.toOp cooldownEntry Check.interval wasAllowed
  cases hc : c.isCommand
  · simp only [step, Bool.false_eq_true, if_false]
    rw [checkInteractionCooldown_allowed_iff, checkRequestLimit_allowed_iff]
  · simp only [step, if_true]
    rw [checkCommandCooldown_allowed_iff, checkRequestLimit_allowed_iff]

theorem check_denied_state (s : RateLimiter) (u : String) (c : Check)
    (h : wasAllowed (c.toOp u, (step s (c.toOp u)).1) = false) :
    (step s (c.toOp u)).2 = s := by
  revert h
  unfold Check.toOp wasAllowed
  cases hc : c.isCommand
  · simp only [step, Bool.false_eq_true, if_false]
    exact checkInteractionCooldown_denied_state s u c.action c.now
  · simp only [step, if_true]
    exact checkCommandCooldown_denied_state s u c.action c.now

theorem check_allowed_stored (s : RateLimiter) (u : String) (c : Check)
    (h : wasAllowed (c.toOp u, (step s (c.toOp u)).1) = true) (v : String) :
    storedRequests (step s (c.toOp u)).2 v =
      if v = u then recent c.now (storedRequests s u ++ [c.now]) else storedRequests s v := by
  revert h
  unfold Check.toOp wasAllowed
  cases hc : c.isCommand
  · simp only [step, Bool.false_eq_true, if_false]
    intro h
    rw [checkInteractionCooldown_allowed_state s u c.action c.now h,
      storedRequests_incrementRequestCount]
    rfl
  · simp only [step, if_true]
    intro h
    rw [checkCommandCooldown_allowed_state s u c.action c.now h,
      storedRequests_incrementRequestCount]
    rfl

theorem check_allowed_entry (s : RateLimiter) (u : String) (c d : Check)
    (h : wasAllowed (c.toOp u, (step s (c.toOp u)).1) = true)
    (hne : (d.isCommand, d.action) ≠ (c.isCommand, c.action)) :
    cooldownEntry (step s (c.toOp u)).2 u d = cooldownEntry s u d := by
  revert h
  unfold Check.toOp wasAllowed cooldownEntry
  cases hc : c.isCommand
  · simp only [step, Bool.false_eq_true, if_false]
    intro h
    rw [checkInteractionCooldown_allowed_state s u c.action c.now h]
    cases hd : d.isCommand
    · have hda : d.action ≠ c.action := by
        intro e; apply hne; rw [hc, hd, e]
      have hk : cooldownKey u d.action ≠ cooldownKey u c.action := by
        rw [Ne, cooldownKey_inj]; exact hda
      simp [incrementRequestCount, mapSet, hk]
    · simp [incrementRequestCount]
  · simp only [step, if_true]
    intro h
    rw [checkCommandCooldown_allowed_state s u c.action c.now h]
    cases hd : d.isCommand
    · simp [incrementRequestCount]
    · have hda : d.action ≠ c.action := by
        intro e; apply hne; rw [hc, hd, e]
      have hk : cooldownKey u d.action ≠ cooldownKey u c.action := by
        rw [Ne, cooldownKey_inj]; exact hda
      simp [incrementRequestCount, mapSet, hk]

theorem recent_eq_self (now : Int) (rs : List Int) (h : ∀ x ∈ rs, now - x < REQUEST_WINDOW) :
    recent now rs = rs := by
  unfold recent
  rw [List.filter_eq_self]
  intro x hx
  simpa using h x hx

theorem window_fill (u : String) (base : Int) (cs : List Check) : ∀ (s : RateLimiter),
    (∀ x ∈ storedRequests s u, base ≤ x) →
    (∀ c ∈ cs, base ≤ c.now ∧ c.now - base < REQUEST_WINDOW) →
    (cs.map (fun c => (c.isCommand, c.action))).Nodup →
    (∀ c ∈ cs, cooldownEntry s u c = none) →
    (outcomes s (cs.map (Check.toOp u))).map wasAllowed =
      (List.range cs.length).map
        (fun i => decide ((storedRequests s u).length + i < MAX_REQUESTS_PER_WINDOW)) := by
  induction cs with
  | nil => intro s _ _ _ _; rfl
  | cons c cs ih =>
    intro s hbase hwin hnd hentry
    have hc := hwin c (List.mem_cons_self _ _)
    have hrec : recent c.now (storedRequests s u) = storedRequests s u :=
      recent_eq_self _ _ (fun x hx => by have := hbase x hx; omega)
    have hgate : gatePasses (cooldownEntry s u c) c.now c.interval = true := by
      rw [hentry c (List.mem_cons_self _ _)]; rfl
    have hhead := check_allowed_iff s u c
    rw [hrec] at hhead
    simp only [List.map_cons, outcomes, List.length_cons, List.range_succ_eq_map, Nat.add_zero]
    rw [List.map_map]
    have hnd2 : (c.isCommand, c.action) ∉ cs.map (fun c => (c.isCommand, c.action)) ∧
        (cs.map (fun c => (c.isCommand, c.action))).Nodup := List.nodup_cons.mp hnd
    by_cases hk : (storedRequests s u).length < MAX_REQUESTS_PER_WINDOW
    · have hal : wasAllowed (c.toOp u, (step s (c.toOp u)).1) = true := hhead.mpr ⟨hk, hgate⟩
      have hst := check_allowed_stored s u c hal u
      simp only [if_true] at hst
      rw [recent_eq_self _ _ (by
        intro x hx
        rcases List.mem_append.mp hx with hx | hx
        · have := hbase x hx; omega
        · rw [List.mem_singleton.mp hx]; simp [REQUEST_WINDOW])] at hst
      have ih2 := ih (step s (c.toOp u)).2
        (by
          rw [hst]; intro x hx
          rcases List.mem_append.mp hx with hx | hx
          · exact hbase x hx
          · rw [List.mem_singleton.mp hx]; exact hc.1)
        (fun d hd => hwin d (List.mem_cons_of_mem _ hd))
        hnd2.2
        (by
          intro d hd
          rw [check_allowed_entry s u c d hal]
          · exact hentry d (List.mem_cons_of_mem _ hd)
          · intro e
            apply hnd2.1
            rw [← e]
            exact List.mem_map.mpr ⟨d, hd, rfl⟩)
      rw [hal, ih2, hst]
      simp only [hk, decide_True, List.length_append, List.length_singleton]
      congr 1
      apply List.map_congr_left
      intro i _
      simp only [Function.comp, Nat.succ_eq_add_one]
      rw [show (storedRequests s u).length + 1 + i = (storedRequests s u).length + (i + 1) by
        omega]
    · have hal : wasAllowed (c.toOp u, (step s (c.toOp u)).1) = false := by
        rw [Bool.eq_false_iff]; intro h; exact hk (hhead.mp h).1
      have hst := check_denied_state s u c hal
      rw [hal, hst, ih s hbase (fun d hd => hwin d (List.mem_cons_of_mem _ hd)) hnd2.2
        (fun d hd => hentry d (List.mem_cons_of_mem _ hd))]
      simp only [hk, decide_False]
      congr 1
      apply List.map_congr_left
      intro i _
      simp only [Function.comp, Nat.succ_eq_add_one]
      have h1 : ¬ (storedRequests s u).length + i < MAX_REQUESTS_PER_WINDOW := by omega
      have h2 : ¬ (storedRequests s u).length + (i + 1) < MAX_REQUESTS_PER_WINDOW := by omega
      simp [h1, h2]


theorem recent_append (t : Int) (xs ys : List Int) :
    recent t (xs ++ ys) = recent t xs ++ recent t ys := by
  unfold recent; exact List.filter_append xs ys

theorem recent_singleton_self (t : Int) : recent t [t] = [t] := by
  simp [recent, REQUEST_WINDOW]

theorem storedRequests_clearUserCooldowns (s : RateLimiter) (u v : String) :
    storedRequests (clearUserCooldowns s u) v = if v = u then [] else storedRequests s v := by
  unfold storedRequests clearUserCooldowns mapDelete
  by_cases h : v = u
  · simp [h]
  · simp [h]

/-- How one call changes the request list stored for `u`. -/
theorem step_stored_cases (s : RateLimiter) (op : Op) (u : String) :
    (op.isCheckBy u = true ∧ wasAllowed (op, (step s op).1) = true ∧
      (recent op.now (storedRequests s u)).length < MAX_REQUESTS_PER_WINDOW ∧
      storedRequests (step s op).2 u = recent op.now (storedRequests s u) ++ [op.now]) ∨
    ((op.isCheckBy u && wasAllowed (op, (step s op).1)) = false ∧
      (storedRequests (step s op).2 u = storedRequests s u ∨
       storedRequests (step s op).2 u = recent op.now (storedRequests s u) ∨
       (op.isClear = true ∧ storedRequests (step s op).2 u = []))) := by
  cases op with
  | command v c t =>
    cases hal : (checkCommandCooldown s v c t).1.allowed
    · right
      refine ⟨by simp [wasAllowed, step, hal], Or.inl ?_⟩
      simp only [step]
      rw [checkCommandCooldown_denied_state s v c t hal]
    · by_cases hv : v = u
      · left
        subst hv
        refine ⟨by simp [Op.isCheckBy], by simp [wasAllowed, step, hal], ?_, ?_⟩
        · exact (checkRequestLimit_allowed_iff s v t).mp
            ((checkCommandCooldown_allowed_iff s v c t).mp hal).1
        · simp only [step, Op.now]
          rw [checkCommandCooldown_allowed_state s v c t hal,
            storedRequests_incrementRequestCount, if_pos rfl, recent_append,
            recent_singleton_self]
          rfl
      · right
        refine ⟨by simp [Op.isCheckBy, hv], Or.inl ?_⟩
        simp only [step]
        rw [checkCommandCooldown_allowed_state s v c t hal,
          storedRequests_incrementRequestCount, if_neg (Ne.symm hv)]
        rfl
  | interaction v c t =>
    cases hal : (checkInteractionCooldown s v c t).1.allowed
    · right
      refine ⟨by simp [wasAllowed, step, hal], Or.inl ?_⟩
      simp only [step]
      rw [checkInteractionCooldown_denied_state s v c t hal]
    · by_cases hv : v = u
      · left
        subst hv
        refine ⟨by simp [Op.isCheckBy], by simp [wasAllowed, step, hal], ?_, ?_⟩
        · exact (checkRequestLimit_allowed_iff s v t).mp
            ((checkInteractionCooldown_allowed_iff s v c t).mp hal).1
        · simp only [step, Op.now]
          rw [checkInteractionCooldown_allowed_state s v c t hal,
            storedRequests_incrementRequestCount, if_pos rfl, recent_append,
            recent_singleton_self]
          rfl
      · right
        refine ⟨by simp [Op.isCheckBy, hv], Or.inl ?_⟩
        simp only [step]
        rw [checkInteractionCooldown_allowed_state s v c t hal,
          storedRequests_incrementRequestCount, if_neg (Ne.symm hv)]
        rfl
  | clear v t =>
    right
    refine ⟨by simp [Op.isCheckBy], ?_⟩
    simp only [step, storedRequests_clearUserCooldowns]
    by_cases hv : u = v
    · right; right; exact ⟨rfl, by simp [hv]⟩
    · left; simp [hv]
  | sweep t =>
    right
    refine ⟨by simp [Op.isCheckBy], Or.inr (Or.inl ?_)⟩
    simp only [step, Op.now, storedRequests_cleanup]

theorem recent_length_le (t : Int) (rs : List Int) : (recent t rs).length ≤ rs.length :=
  List.length_filter_le _ _

/-- The request list of an actor never grows beyond the cap, whatever calls are made. -/
theorem storedRequests_run_length (u : String) (ops : List Op) : ∀ (s : RateLimiter),
    (storedRequests s u).length ≤ MAX_REQUESTS_PER_WINDOW →
    (storedRequests (run s ops) u).length ≤ MAX_REQUESTS_PER_WINDOW := by
  induction ops with
  | nil => intro s h; exact h
  | cons op ops ih =>
    intro s h
    apply ih
    rcases step_stored_cases s op u with ⟨_, _, hlt, hst⟩ | ⟨_, hst | hst | ⟨_, hst⟩⟩
    · rw [hst, List.length_append, List.length_singleton]; omega
    · rw [hst]; exact h
    · rw [hst]; exact le_trans (recent_length_le _ _) h
    · rw [hst]; exact Nat.zero_le _

theorem storedRequests_new (u : String) : storedRequests RateLimiter.new u = [] := rfl

theorem allowedTimes_cons (s : RateLimiter) (op : Op) (ops : List Op) (u : String) :
    allowedTimes s (op :: ops) u =
      (if (op.isCheckBy u && wasAllowed (op, (step s op).1)) = true then [op.now] else []) ++
        allowedTimes (step s op).2 ops u := by
  unfold allowedTimes
  simp only [outcomes, List.filter_cons]
  split <;> simp

theorem inWindow_recent (a t x : Int) (ht : inWindow a t = true) (hx : inWindow a x = true) :
    t - x < REQUEST_WINDOW := by
  unfold inWindow at ht hx
  simp only [decide_eq_true_eq] at ht hx
  omega

/-- The window cap, for a run that starts in a state whose request list agrees, on every
later window, with the instants already allowed. -/
theorem cap_aux (u : String) (ops : List Op) : ∀ (s : RateLimiter) (A : List Int) (T : Int),
    (∀ t, T ≤ t → recent t (storedRequests s u) = recent t A) →
    (∀ a, (A.filter (inWindow a)).length ≤ MAX_REQUESTS_PER_WINDOW) →
    (∀ op ∈ ops, op.isClear = false) →
    (∀ op ∈ ops, T ≤ op.now) →
    (ops.map Op.now).Pairwise (· ≤ ·) →
    ∀ a, ((A ++ allowedTimes s ops u).filter (inWindow a)).length ≤
      MAX_REQUESTS_PER_WINDOW := by
  induction ops with
  | nil =>
    intro s A T _ hP _ _ _ a
    simpa [allowedTimes, outcomes] using hP a
  | cons op ops ih =>
    intro s A T hlink hP hnc hT hmono a
    have hmono2 := List.pairwise_cons.mp hmono
    have hop := hT op (List.mem_cons_self _ _)
    have hnext : ∀ o ∈ ops, op.now ≤ o.now :=
      fun o ho => hmono2.1 o.now (List.mem_map.mpr ⟨o, ho, rfl⟩)
    rw [allowedTimes_cons, ← List.append_assoc]
    rcases step_stored_cases s op u with ⟨hck, hal, hlt, hst⟩ | ⟨hna, hst⟩
    · rw [if_pos (by rw [hck, hal]; rfl)]
      refine ih (step s op).2 (A ++ [op.now]) op.now ?_ ?_
        (fun o ho => hnc o (List.mem_cons_of_mem _ ho)) hnext hmono2.2 a
      · intro t ht
        rw [hst, recent_append, recent_append, recent_recent _ _ ht, hlink t (le_trans hop ht)]
      · intro b
        rw [List.filter_append, List.length_append]
        by_cases hb : inWindow b op.now = true
        · have hsub : (A.filter (inWindow b)).length ≤ (recent op.now A).length := by
            apply List.Sublist.length_le
            unfold recent
            apply List.monotone_filter_right
            intro x hx
            simpa using inWindow_recent b op.now x hb hx
          rw [← hlink op.now hop] at hsub
          have h1 : ([op.now].filter (inWindow b)).length ≤ 1 :=
            le_trans (List.length_filter_le _ _) (le_of_eq rfl)
          omega
        · have h0 : [op.now].filter (inWindow b) = [] := by
            simp [List.filter_cons, hb]
          rw [h0]
          simpa using hP b
    · rw [if_neg (by rw [hna]; simp), List.append_nil]
      refine ih (step s op).2 A op.now ?_ hP
        (fun o ho => hnc o (List.mem_cons_of_mem _ ho)) hnext hmono2.2 a
      intro t ht
      rcases hst with hst | hst | ⟨hcl, _⟩
      · rw [hst]; exact hlink t (le_trans hop ht)
      · rw [hst, recent_recent _ _ ht]; exact hlink t (le_trans hop ht)
      · rw [hnc op (List.mem_cons_self _ _)] at hcl; cases hcl

theorem intervalOf_pos (b : Bool) : 0 < intervalOf b := by
  cases b <;> simp [intervalOf, COMMAND_COOLDOWN, INTERACTION_COOLDOWN]

theorem entryOf_cleanup (s : RateLimiter) (t : Int) (p : Bool × String) :
    entryOf (cleanup s t) p =
      match entryOf s p with
      | none => none
      | some timestamp => if t - timestamp > intervalOf p.1 * 10 then none else some timestamp := by
  obtain ⟨b, k⟩ := p
  cases b <;> rfl

/-- How one call other than a clear changes the cooldown entry under `p`. -/
theorem step_entry_cases (s : RateLimiter) (op : Op) (p : Bool × String)
    (hnc : op.isClear = false) :
    (op.slot = some p ∧ wasAllowed (op, (step s op).1) = true ∧
      gatePasses (entryOf s p) op.now (intervalOf p.1) = true ∧
      entryOf (step s op).2 p = some op.now) ∨
    (¬ (op.slot = some p ∧ wasAllowed (op, (step s op).1) = true) ∧
      (entryOf (step s op).2 p = entryOf s p ∨
        (entryOf (step s op).2 p = none ∧
          ∃ ts, entryOf s p = some ts ∧ op.now - ts > intervalOf p.1 * 10))) := by
  obtain ⟨b, k⟩ := p
  cases op with
  | command v c t =>
    cases hal : (checkCommandCooldown s v c t).1.allowed
    · right
      refine ⟨by simp [wasAllowed, step, hal], Or.inl ?_⟩
      simp only [step]
      rw [checkCommandCooldown_denied_state s v c t hal]
    · by_cases hp : (true, cooldownKey v c) = (b, k)
      · left
        cases hp
        refine ⟨rfl, by simp [wasAllowed, step, hal],
          ((checkCommandCooldown_allowed_iff s v c t).mp hal).2, ?_⟩
        simp only [step, Op.now]
        rw [checkCommandCooldown_allowed_state s v c t hal]
        simp [entryOf, incrementRequestCount, mapSet]
      · right
        refine ⟨by simp only [Op.slot, Option.some.injEq]; tauto, Or.inl ?_⟩
        simp only [step]
        rw [checkCommandCooldown_allowed_state s v c t hal]
        cases b
        · simp [entryOf, incrementRequestCount]
        · have hk : k ≠ cooldownKey v c := by
            intro e; apply hp; rw [e]
          simp [entryOf, incrementRequestCount, mapSet, hk]
  | interaction v c t =>
    cases hal : (checkInteractionCooldown s v c t).1.allowed
    · right
      refine ⟨by simp [wasAllowed, step, hal], Or.inl ?_⟩
      simp only [step]
      rw [checkInteractionCooldown_denied_state s v c t hal]
    · by_cases hp : (false, cooldownKey v c) = (b, k)
      · left
        cases hp
        refine ⟨rfl, by simp [wasAllowed, step, hal],
          ((checkInteractionCooldown_allowed_iff s v c t).mp hal).2, ?_⟩
        simp only [step, Op.now]
        rw [checkInteractionCooldown_allowed_state s v c t hal]
        simp [entryOf, incrementRequestCount, mapSet]
      · right
        refine ⟨by simp only [Op.slot, Option.some.injEq]; tauto, Or.inl ?_⟩
        simp only [step]
        rw [checkInteractionCooldown_allowed_state s v c t hal]
        cases b
        · have hk : k ≠ cooldownKey v c := by
            intro e; apply hp; rw [e]
          simp [entryOf, incrementRequestCount, mapSet, hk]
        · simp [entryOf, incrementRequestCount]
  | clear v t => cases hnc
  | sweep t =>
    right
    refine ⟨by simp [Op.slot], ?_⟩
    simp only [step, Op.now]
    rw [entryOf_cleanup]
    cases he : entryOf s (b, k) with
    | none => left; rfl
    | some ts =>
      simp only
      by_cases hdel : t - ts > intervalOf b * 10
      · right; rw [if_pos hdel]; exact ⟨rfl, ts, rfl, hdel⟩
      · left; rw [if_neg hdel]

theorem entryOf_clearUserCooldowns (s : RateLimiter) (u : String) (p : Bool × String) :
    entryOf (clearUserCooldowns s u) p =
      if startsWith p.2 (u ++ ":") then none else entryOf s p := by
  obtain ⟨b, k⟩ := p
  cases b <;> simp only [entryOf, clearUserCooldowns] <;> split <;> simp

/-- One call at an instant not before `T` keeps every cooldown entry at or before the
instant of the call, when the entries were at or before `T`. -/
theorem entryOf_step_le (s : RateLimiter) (op : Op) (T : Int)
    (h : ∀ p ts, entryOf s p = some ts → ts ≤ T) (hT : T ≤ op.now) :
    ∀ p ts, entryOf (step s op).2 p = some ts → ts ≤ op.now := by
  intro p ts hts
  cases hc : op.isClear
  · rcases step_entry_cases s op p hc with ⟨_, _, _, he⟩ | ⟨_, he | ⟨he, _⟩⟩
    · rw [he] at hts; cases hts; exact le_refl _
    · rw [he] at hts; exact le_trans (h p ts hts) hT
    · rw [he] at hts; cases hts
  · cases op with
    | clear u t =>
      simp only [step, entryOf_clearUserCooldowns] at hts
      split at hts
      · cases hts
      · exact le_trans (h p ts hts) hT
    | command _ _ _ => cases hc
    | interaction _ _ _ => cases hc
    | sweep _ => cases hc

/-- With a clock that never runs backwards, every cooldown entry of a reachable state is
at or before every instant `t` not earlier than the calls made: the elapsed time
`t - lastUsed` of a check is never negative. -/
theorem entryOf_run_le (ops : List Op) : ∀ (s : RateLimiter) (T : Int),
    (∀ p ts, entryOf s p = some ts → ts ≤ T) →
    (∀ op ∈ ops, T ≤ op.now) →
    (ops.map Op.now).Pairwise (· ≤ ·) →
    ∀ t, T ≤ t → (∀ op ∈ ops, op.now ≤ t) →
    ∀ p ts, entryOf (run s ops) p = some ts → ts ≤ t := by
  induction ops with
  | nil =>
    intro s T h _ _ t ht _ p ts hts
    exact le_trans (h p ts hts) ht
  | cons op ops ih =>
    intro s T h hT hmono t _ hle p ts hts
    have hmono2 := List.pairwise_cons.mp hmono
    exact ih (step s op).2 op.now
      (entryOf_step_le s op T h (hT op (List.mem_cons_self _ _)))
      (fun o ho => hmono2.1 o.now (List.mem_map.mpr ⟨o, ho, rfl⟩)) hmono2.2 t
      (hle op (List.mem_cons_self _ _)) (fun o ho => hle o (List.mem_cons_of_mem _ ho))
      p ts hts

theorem gatePasses_some (ts now interval : Int) (hts : ts ≠ 0) :
    gatePasses (some ts) now interval = true ↔ interval ≤ now - ts := by
  simp [gatePasses, hts]

/-- Two allowed checks under the same cooldown key are a minimum interval apart, for a run
that starts in a state which already enforces this against the instants in `past`. -/
theorem interval_aux (ops : List Op) :
    ∀ (s : RateLimiter) (past : List ((Bool × String) × Int)) (T : Int),
    (∀ q ∈ past, ∀ t, T ≤ t → gatePasses (entryOf s q.1) t (intervalOf q.1.1) = true →
      intervalOf q.1.1 ≤ t - q.2) →
    (∀ q ∈ past, q.2 ≤ T) →
    (∀ op ∈ ops, op.isClear = false) →
    (∀ op ∈ ops, 0 < op.now) →
    (∀ op ∈ ops, T ≤ op.now) →
    (ops.map Op.now).Pairwise (· ≤ ·) →
    (outcomes s ops).Pairwise (fun r1 r2 =>
      wasAllowed r1 = true → wasAllowed r2 = true →
      ∀ p, r1.1.slot = some p → r2.1.slot = some p → intervalOf p.1 ≤ r2.1.now - r1.1.now) ∧
    ∀ r ∈ outcomes s ops, wasAllowed r = true → ∀ q ∈ past, r.1.slot = some q.1 →
      intervalOf q.1.1 ≤ r.1.now - q.2 := by
  induction ops with
  | nil =>
    intro s past T _ _ _ _ _ _
    exact ⟨List.Pairwise.nil, fun r hr => by cases hr⟩
  | cons op ops ih =>
    intro s past T hinv hpast hnc hpos hT hmono
    have hmono2 := List.pairwise_cons.mp hmono
    have hop := hT op (List.mem_cons_self _ _)
    have hop0 := hpos op (List.mem_cons_self _ _)
    have hopnc := hnc op (List.mem_cons_self _ _)
    have hnext : ∀ o ∈ ops, op.now ≤ o.now :=
      fun o ho => hmono2.1 o.now (List.mem_map.mpr ⟨o, ho, rfl⟩)
    -- the instants that the state after `op` must respect
    let past2 : List ((Bool × String) × Int) :=
      match op.slot with
      | some p => if wasAllowed (op, (step s op).1) = true then (p, op.now) :: past else past
      | none => past
    have hsub : ∀ q ∈ past, q ∈ past2 := by
      intro q hq
      simp only [past2]
      split
      · split
        · exact List.mem_cons_of_mem _ hq
        · exact hq
      · exact hq
    have hmem2 : ∀ q ∈ past2, q ∈ past ∨
        (op.slot = some q.1 ∧ wasAllowed (op, (step s op).1) = true ∧ q.2 = op.now) := by
      intro q hq
      simp only [past2] at hq
      split at hq
      · rename_i p hp
        split at hq
        · rename_i hal
          rcases List.mem_cons.mp hq with hq | hq
          · right; subst hq; exact ⟨hp, hal, rfl⟩
          · left; exact hq
        · left; exact hq
      · left; exact hq
    have hinv2 : ∀ q ∈ past2, ∀ t, op.now ≤ t →
        gatePasses (entryOf (step s op).2 q.1) t (intervalOf q.1.1) = true →
        intervalOf q.1.1 ≤ t - q.2 := by
      intro q hq t ht hg
      have hq2 : q.2 ≤ op.now := by
        rcases hmem2 q hq with hq | ⟨_, _, hq⟩
        · exact le_trans (hpast q hq) hop
        · exact le_of_eq hq
      rcases step_entry_cases s op q.1 hopnc with ⟨_, _, _, he⟩ | ⟨hno, he | ⟨_, ts, he, hdel⟩⟩
      · rw [he, gatePasses_some _ _ _ (ne_of_gt hop0)] at hg
        omega
      · rcases hmem2 q hq with hq | ⟨h1, h2, _⟩
        · rw [he] at hg
          exact hinv q hq t (le_trans hop ht) hg
        · exact absurd ⟨h1, h2⟩ hno
      · rcases hmem2 q hq with hq | ⟨h1, h2, _⟩
        · refine hinv q hq t (le_trans hop ht) ?_
          rw [he]
          have hi := intervalOf_pos q.1.1
          simp only [gatePasses, Bool.not_eq_true', decide_eq_false_iff_not, not_and, not_lt]
          intro _
          omega
        · exact absurd ⟨h1, h2⟩ hno
    have hpast2 : ∀ q ∈ past2, q.2 ≤ op.now := by
      intro q hq
      rcases hmem2 q hq with hq | ⟨_, _, hq⟩
      · exact le_trans (hpast q hq) hop
      · exact le_of_eq hq
    have ih2 := ih (step s op).2 past2 op.now hinv2 hpast2
      (fun o ho => hnc o (List.mem_cons_of_mem _ ho))
      (fun o ho => hpos o (List.mem_cons_of_mem _ ho)) hnext hmono2.2
    simp only [outcomes]
    refine ⟨List.pairwise_cons.mpr ⟨?_, ih2.1⟩, ?_⟩
    · intro r2 hr2 hal1 hal2 p hp1 hp2
      have hin : (p, op.now) ∈ past2 := by
        simp only [past2]
        simp only [] at hp1 hal1
        rw [hp1]
        simp only [if_pos hal1]
        exact List.mem_cons_self _ _
      exact ih2.2 r2 hr2 hal2 (p, op.now) hin hp2
    · intro r hr hal q hq hslot
      rcases List.mem_cons.mp hr with hr | hr
      · subst hr
        simp only [] at hslot hal ⊢
        rcases step_entry_cases s op q.1 hopnc with ⟨_, _, hg, _⟩ | ⟨hno, _⟩
        · exact hinv q hq op.now hop hg
        · exact absurd ⟨hslot, hal⟩ hno
      · exact ih2.2 r hr hal q (hsub q hq) hslot


theorem checkRequestLimit_cleanup (s : RateLimiter) (t t' : Int) (h : t ≤ t') (u : String) :
    checkRequestLimit (cleanup s t) u t' = checkRequestLimit s u t' := by
  rw [checkRequestLimit_eq, checkRequestLimit_eq, storedRequests_cleanup, recent_recent t t' h]

theorem checkInteractionCooldown_cleanup_result (s : RateLimiter) (t t' : Int) (h : t ≤ t')
    (u a : String) :
    (checkInteractionCooldown (cleanup s t) u a t').1 =
      (checkInteractionCooldown s u a t').1 := by
  unfold checkInteractionCooldown
  simp only [checkRequestLimit_cleanup s t t' h]
  split
  · rfl
  · have hc : (cleanup s t).userInteractionCooldowns (cooldownKey u a) =
        match s.userInteractionCooldowns (cooldownKey u a) with
        | none => none
        | some timestamp =>
          if t - timestamp > INTERACTION_COOLDOWN * 10 then none else some timestamp := rfl
    rw [hc]
    cases hk : s.userInteractionCooldowns (cooldownKey u a) with
    | none => rfl
    | some ts =>
      simp only
      by_cases hdel : t - ts > INTERACTION_COOLDOWN * 10
      · have hno : ¬ (ts ≠ 0 ∧ t' - ts < INTERACTION_COOLDOWN) := by
          unfold INTERACTION_COOLDOWN at *
          omega
        simp [hdel, hno]
      · simp only [hdel, if_false]
        split <;> rfl

/-! ## Properties of the content hash -/


theorem serverContentString_congr (name : String) (now : Int) (runs1 runs2 : List Run)
    (h : runs1.map (canonicalTuple now) = runs2.map (canonicalTuple now)) :
    serverContentString name runs1 now = serverContentString name runs2 now := by
  have key : ∀ runs : List Run, serverContentString name runs now =
      (runs.map (canonicalTuple now)).foldl
        (fun acc tup => acc ++ (tup.1 ++ "|" ++ tup.2.1 ++ "|" ++ toString tup.2.2.1 ++ "|" ++
          (if tup.2.2.2 then "NEW" else "") ++ "|")) (name ++ ":") := by
    intro runs
    unfold serverContentString
    rw [List.foldl_map]
    rfl
  rw [key, key, h]

theorem categoryContentString_congr (hash : String → String) (now : Int) :
    ∀ (g1 g2 : List (String × List Run)), canonicalForm now g1 = canonicalForm now g2 →
    ∀ init : String,
      g1.foldl (fun contentString entry =>
          contentString ++ generateServerHash hash entry.1 entry.2 now) init =
      g2.foldl (fun contentString entry =>
          contentString ++ generateServerHash hash entry.1 entry.2 now) init := by
  intro g1
  induction g1 with
  | nil =>
    intro g2 h init
    cases g2 with
    | nil => rfl
    | cons e g2 => simp [canonicalForm] at h
  | cons e1 g1 ih =>
    intro g2 h init
    cases g2 with
    | nil => simp [canonicalForm] at h
    | cons e2 g2 =>
      simp only [canonicalForm, List.map_cons, List.cons.injEq, Prod.mk.injEq] at h
      obtain ⟨⟨hname, hruns⟩, hrest⟩ := h
      simp only [List.foldl_cons]
      have hsrv : generateServerHash hash e1.1 e1.2 now = generateServerHash hash e2.1 e2.2 now := by
        unfold generateServerHash
        rw [hname, serverContentString_congr e2.1 now e1.2 e2.2 hruns]
      rw [hsrv]
      exact ih g2 hrest _

theorem foldl_append_data {α : Type} (f : α → String) (l : List α) : ∀ init : String,
    (l.foldl (fun acc x => acc ++ f x) init).data =
      init.data ++ (l.map (fun x => (f x).data)).flatten := by
  induction l with
  | nil => intro init; simp
  | cons x l ih =>
    intro init
    simp only [List.foldl_cons, List.map_cons, List.flatten_cons]
    rw [ih, String.data_append, List.append_assoc]

theorem isNew_iff (run : Run) (now : Int) :
    isNew run now = true ↔ ∃ c, run.TimeStamp = some c ∧ now - c < thirtyHoursMs := by
  unfold isNew
  cases h : run.TimeStamp with
  | none => simp
  | some c => simp

theorem serverContentString_ne_of_marker (name : String) (pre post : List Run) (r1 r2 : Run)
    (now : Int) (hID : r1.ID = r2.ID) (hType : r1.RunType = r2.RunType)
    (hStart : r1.Start = r2.Start) (h1 : isNew r1 now = true) (h2 : isNew r2 now = false) :
    serverContentString name (pre ++ r1 :: post) now ≠
      serverContentString name (pre ++ r2 :: post) now := by
  intro h
  have hd := congrArg String.data h
  unfold serverContentString at hd
  rw [foldl_append_data, foldl_append_data] at hd
  have hd2 := List.append_cancel_left hd
  simp only [List.map_append, List.map_cons, List.flatten_append, List.flatten_cons] at hd2
  have hd3 := List.append_cancel_left hd2
  unfold runContent at hd3
  rw [h1, h2, hID, hType, hStart] at hd3
  simp only [String.data_append, List.append_assoc, if_true] at hd3
  have hd4 := List.append_cancel_left hd3
  have hd5 := List.append_cancel_left hd4
  have hd6 := List.append_cancel_left hd5
  have hd7 := List.append_cancel_left hd6
  have hd8 := List.append_cancel_left hd7
  have hd9 := List.append_cancel_left hd8
  simp at hd9

/-! ## The claims -/

set_option maxRecDepth 100000

/-- C1 (window gate, deny exactly the (N+1)th).  An actor without prior state makes
`MAX_REQUESTS_PER_WINDOW + 1 = 31` checks, commands or interactions, no two of them the
same kind of check with the same action name, at non-decreasing instants that all lie
within `REQUEST_WINDOW` of the first: the first 30 return `allowed = true` and the 31st
returns `allowed = false`. -/
theorem window_gate_denies_exactly_the_last (s : RateLimiter) (userId : String)
    (first : Check) (rest : List Check)
    (hfresh : noPriorState s userId)
    (hlen : rest.length = MAX_REQUESTS_PER_WINDOW)
    (hdistinct : ((first :: rest).map (fun c => (c.isCommand, c.action))).Nodup)
    (hmono : ((first :: rest).map Check.now).Pairwise (· ≤ ·))
    (hwin : ∀ c ∈ rest, c.now - first.now < REQUEST_WINDOW) :
    (outcomes s ((first :: rest).map (Check.toOp userId))).map wasAllowed =
      List.replicate MAX_REQUESTS_PER_WINDOW true ++ [false] := by
  have hstored : storedRequests s userId = [] := by
    unfold storedRequests; rw [hfresh.1]; rfl
  have hmono2 := (List.pairwise_cons.mp hmono).1
  have h := window_fill userId first.now (first :: rest) s
    (by rw [hstored]; intro x hx; cases hx)
    (by
      intro c hc
      rcases List.mem_cons.mp hc with hc | hc
      · subst hc; simp [REQUEST_WINDOW]
      · exact ⟨hmono2 c.now (List.mem_map.mpr ⟨c, hc, rfl⟩), hwin c hc⟩)
    hdistinct
    (by
      intro c _
      unfold cooldownEntry
      split
      · exact (hfresh.2 c.action).1
      · exact (hfresh.2 c.action).2)
  rw [h, hstored, List.length_cons, hlen]
  decide

/-- C1 at the burst `demoBurst` on the freshly constructed limiter. -/
theorem window_gate_denies_exactly_the_last_witness :
    (outcomes RateLimiter.new demoBurst).map wasAllowed =
      List.replicate MAX_REQUESTS_PER_WINDOW true ++ [false] :=
  window_gate_denies_exactly_the_last RateLimiter.new "u" (demoCheck 0) demoRest
    ⟨rfl, fun _ => ⟨rfl, rfl⟩⟩ (by decide) (by decide) (by decide) (by decide)

/-- C2 (rolling-window cap, independent of action class).  For every sequence of calls
without a clear, made at non-decreasing instants on the freshly constructed limiter, and
every actor: in every interval `[a, a + REQUEST_WINDOW)` at most
`MAX_REQUESTS_PER_WINDOW = 30` of the actor's checks (commands and interactions, any
names) returned `allowed = true`, and the request list stored for the actor holds at most
30 instants. -/
theorem rolling_window_cap (ops : List Op) (userId : String)
    (hnoclear : ∀ op ∈ ops, op.isClear = false)
    (hmono : (ops.map Op.now).Pairwise (· ≤ ·)) :
    (∀ a : Int, ((allowedTimes RateLimiter.new ops userId).filter (inWindow a)).length ≤
      MAX_REQUESTS_PER_WINDOW) ∧
    (storedRequests (run RateLimiter.new ops) userId).length ≤ MAX_REQUESTS_PER_WINDOW := by
  constructor
  · intro a
    cases ops with
    | nil => simp [allowedTimes, outcomes]
    | cons op ops =>
      have hmono2 := List.pairwise_cons.mp hmono
      have h := cap_aux userId (op :: ops) RateLimiter.new [] op.now
        (fun t _ => by rw [storedRequests_new])
        (fun b => by simp)
        hnoclear
        (by
          intro o ho
          rcases List.mem_cons.mp ho with ho | ho
          · rw [ho]
          · exact hmono2.1 o.now (List.mem_map.mpr ⟨o, ho, rfl⟩))
        hmono a
      simpa using h
  · exact storedRequests_run_length userId ops RateLimiter.new
      (by rw [storedRequests_new]; exact Nat.zero_le _)

/-- C2 at the burst `demoBurst`. -/
theorem rolling_window_cap_witness :
    (∀ a : Int, ((allowedTimes RateLimiter.new demoBurst "u").filter (inWindow a)).length ≤
      MAX_REQUESTS_PER_WINDOW) ∧
    (storedRequests (run RateLimiter.new demoBurst) "u").length ≤ MAX_REQUESTS_PER_WINDOW :=
  rolling_window_cap demoBurst "u" (by decide) (by decide)

/-- C3 (window re-opens).  In every state reached from the freshly constructed limiter,
if `x` is an instant held in the actor's request list (in particular the first recorded
one) and `t - x ≥ REQUEST_WINDOW`, then `checkRequestLimit` at `t` returns
`allowed = true`: `x` is pruned before counting, and the list never holds more than
`MAX_REQUESTS_PER_WINDOW` instants. -/
theorem window_reopens (ops : List Op) (userId : String) (x t : Int)
    (hx : x ∈ storedRequests (run RateLimiter.new ops) userId)
    (ht : t - x ≥ REQUEST_WINDOW) :
    (checkRequestLimit (run RateLimiter.new ops) userId t).allowed = true := by
  rw [checkRequestLimit_allowed_iff]
  have hlen := storedRequests_run_length userId ops RateLimiter.new
    (by rw [storedRequests_new]; exact Nat.zero_le _)
  have hlt : (recent t (storedRequests (run RateLimiter.new ops) userId)).length <
      (storedRequests (run RateLimiter.new ops) userId).length := by
    unfold recent
    rw [List.length_filter_lt_length_iff_exists]
    exact ⟨x, hx, by simpa using ht⟩
  omega

/-- C3 after the burst `demoBurst`, whose last check was denied by the window gate at
instant 4000: the gate is still closed at 60999 and open at 61000, one window after the
first recorded call at 1000. -/
theorem window_reopens_witness :
    (checkRequestLimit (run RateLimiter.new demoBurst) "u" 4000).allowed = false ∧
    (checkRequestLimit (run RateLimiter.new demoBurst) "u" 60999).allowed = false ∧
    (checkRequestLimit (run RateLimiter.new demoBurst) "u" 61000).allowed = true :=
  ⟨by decide, by decide,
    window_reopens demoBurst "u" 1000 61000 (by decide) (by decide)⟩

/-- C4 (minimum interval per action).  For every sequence of calls without a clear, made
at non-decreasing positive instants on the freshly constructed limiter: any two calls of
`checkCommandCooldown` with the same `userId` and `commandName` that both returned
`allowed = true` are at least `COMMAND_COOLDOWN` apart, and any two such calls of
`checkInteractionCooldown` with the same `userId` and `interactionType` are at least
`INTERACTION_COOLDOWN` apart. -/
theorem minimum_interval_per_action (ops : List Op)
    (hnoclear : ∀ op ∈ ops, op.isClear = false)
    (hpos : ∀ op ∈ ops, 0 < op.now)
    (hmono : (ops.map Op.now).Pairwise (· ≤ ·)) :
    (outcomes RateLimiter.new ops).Pairwise (fun r1 r2 =>
      wasAllowed r1 = true → wasAllowed r2 = true →
      (∀ userId commandName t1 t2, r1.1 = Op.command userId commandName t1 →
        r2.1 = Op.command userId commandName t2 → COMMAND_COOLDOWN ≤ t2 - t1) ∧
      (∀ userId interactionType t1 t2, r1.1 = Op.interaction userId interactionType t1 →
        r2.1 = Op.interaction userId interactionType t2 →
        INTERACTION_COOLDOWN ≤ t2 - t1)) := by
  cases ops with
  | nil => exact List.Pairwise.nil
  | cons op ops =>
    have hmono2 := List.pairwise_cons.mp hmono
    have h := (interval_aux (op :: ops) RateLimiter.new [] op.now
      (fun q hq => by cases hq) (fun q hq => by cases hq) hnoclear hpos
      (by
        intro o ho
        rcases List.mem_cons.mp ho with ho | ho
        · rw [ho]
        · exact hmono2.1 o.now (List.mem_map.mpr ⟨o, ho, rfl⟩))
      hmono).1
    refine List.Pairwise.imp ?_ h
    intro r1 r2 hR hal1 hal2
    constructor
    · intro u c t1 t2 h1 h2
      have := hR hal1 hal2 (true, cooldownKey u c) (by rw [h1]; rfl) (by rw [h2]; rfl)
      rw [h1, h2] at this
      exact this
    · intro u c t1 t2 h1 h2
      have := hR hal1 hal2 (false, cooldownKey u c) (by rw [h1]; rfl) (by rw [h2]; rfl)
      rw [h1, h2] at this
      exact this

/-- C4 at the trace `demoTrace`, in which the command `c` is allowed at 1000 and 4000 and
denied at 2500, and the interaction `b` is allowed at 1200 and 2200 and denied at 1900. -/
theorem minimum_interval_per_action_witness :
    (outcomes RateLimiter.new demoTrace).map wasAllowed =
      [true, true, false, true, false, false, true] ∧
    (outcomes RateLimiter.new demoTrace).Pairwise (fun r1 r2 =>
      wasAllowed r1 = true → wasAllowed r2 = true →
      (∀ userId commandName t1 t2, r1.1 = Op.command userId commandName t1 →
        r2.1 = Op.command userId commandName t2 → COMMAND_COOLDOWN ≤ t2 - t1) ∧
      (∀ userId interactionType t1 t2, r1.1 = Op.interaction userId interactionType t1 →
        r2.1 = Op.interaction userId interactionType t2 →
        INTERACTION_COOLDOWN ≤ t2 - t1)) :=
  ⟨by decide, minimum_interval_per_action demoTrace (by decide) (by decide) (by decide)⟩

/-- C5 (a cooldown denial reports the ceiling of the remaining seconds).  When the window
gate lets the check through and the check is denied on the stored instant `lastUsed`,
the elapsed time `now - lastUsed` is below the minimum interval and: `checkCommandCooldown`
returns `timeLeft = ceil((COMMAND_COOLDOWN - elapsed) / 1000)`; `checkInteractionCooldown`
returns the constant 1, which is `ceil((INTERACTION_COOLDOWN - elapsed) / 1000)` for every
elapsed time with `0 ≤ elapsed` (hence `0 ≤ elapsed < 1000`). -/
theorem cooldown_denial_reports_ceiling (s : RateLimiter) (userId action : String)
    (now lastUsed : Int)
    (hreq : (checkRequestLimit s userId now).allowed = true) :
    (s.userCommandCooldowns (cooldownKey userId action) = some lastUsed →
      (checkCommandCooldown s userId action now).1.allowed = false →
      now - lastUsed < COMMAND_COOLDOWN ∧
      (checkCommandCooldown s userId action now).1.timeLeft =
        some ⌈((COMMAND_COOLDOWN - (now - lastUsed) : Int) : ℚ) / 1000⌉) ∧
    (s.userInteractionCooldowns (cooldownKey userId action) = some lastUsed →
      (checkInteractionCooldown s userId action now).1.allowed = false →
      now - lastUsed < INTERACTION_COOLDOWN ∧
      (checkInteractionCooldown s userId action now).1.timeLeft = some 1 ∧
      (0 ≤ now - lastUsed →
        (checkInteractionCooldown s userId action now).1.timeLeft =
          some ⌈((INTERACTION_COOLDOWN - (now - lastUsed) : Int) : ℚ) / 1000⌉)) := by
  constructor
  · intro hk
    unfold checkCommandCooldown
    simp only [hreq, Bool.true_eq_false, if_false, hk]
    by_cases hb : lastUsed ≠ 0 ∧ now - lastUsed < COMMAND_COOLDOWN
    · rw [if_pos hb]
      intro _
      exact ⟨hb.2, by rw [mathCeilDiv_eq_ceil]⟩
    · rw [if_neg hb]; intro h; cases h
  · intro hk
    unfold checkInteractionCooldown
    simp only [hreq, Bool.true_eq_false, if_false, hk]
    by_cases hb : lastUsed ≠ 0 ∧ now - lastUsed < INTERACTION_COOLDOWN
    · rw [if_pos hb]
      intro _
      refine ⟨hb.2, rfl, ?_⟩
      intro h0
      rw [← mathCeilDiv_eq_ceil]
      unfold mathCeilDiv
      unfold INTERACTION_COOLDOWN at hb ⊢
      simp only [Option.some.injEq]
      omega
    · rw [if_neg hb]; intro h; cases h

/-- C5 in the state `demoState`: the command `c`, last used at 1000, is denied at 1500 with
`ceil(2500 / 1000)` seconds left, and the interaction `b`, last used at 1200, is denied at
1500 with `ceil(700 / 1000)` seconds left. -/
theorem cooldown_denial_reports_ceiling_witness :
    (1500 - 1000 < COMMAND_COOLDOWN ∧
      (checkCommandCooldown demoState "u" "c" 1500).1.timeLeft =
        some ⌈((COMMAND_COOLDOWN - (1500 - 1000) : Int) : ℚ) / 1000⌉) ∧
    (checkInteractionCooldown demoState "u" "b" 1500).1.timeLeft =
      some ⌈((INTERACTION_COOLDOWN - (1500 - 1200) : Int) : ℚ) / 1000⌉ :=
  ⟨(cooldown_denial_reports_ceiling demoState "u" "c" 1500 1000 (by decide)).1
      (by decide) (by decide),
   ((cooldown_denial_reports_ceiling demoState "u" "b" 1500 1200 (by decide)).2
      (by decide) (by decide)).2.2 (by decide)⟩

/-- C6 (a denied check charges nothing).  For every limiter state, actor, action and
instant: if `checkCommandCooldown` returns `allowed = false`, the state after the call
(both cooldown maps and all request lists) is the state before it, and likewise for
`checkInteractionCooldown`; this covers denial by the window gate and denial by the
action cooldown. -/
theorem denied_check_charges_nothing (s : RateLimiter) (userId action : String) (now : Int) :
    ((checkCommandCooldown s userId action now).1.allowed = false →
        (checkCommandCooldown s userId action now).2 = s) ∧
    ((checkInteractionCooldown s userId action now).1.allowed = false →
        (checkInteractionCooldown s userId action now).2 = s) :=
  ⟨checkCommandCooldown_denied_state s userId action now,
   checkInteractionCooldown_denied_state s userId action now⟩

/-- C6 for a command denied by its cooldown in `demoState`, and for an interaction with a
new name denied by the window gate after the burst `demoBurst`. -/
theorem denied_check_charges_nothing_witness :
    (checkCommandCooldown demoState "u" "c" 1500).2 = demoState ∧
    (checkInteractionCooldown (run RateLimiter.new demoBurst) "u" "other" 5000).2 =
      run RateLimiter.new demoBurst :=
  ⟨(denied_check_charges_nothing demoState "u" "c" 1500).1 (by decide),
   (denied_check_charges_nothing (run RateLimiter.new demoBurst) "u" "other" 5000).2
      (by decide)⟩

/-- C7 (clear drops all state of the actor).  After `clearUserCooldowns(userId)` the actor
has no command-cooldown entry, no interaction-cooldown entry and no request entry, and a
check of either kind for the actor, with any action name at any instant, returns
`{ allowed: true }`, as it does on the freshly constructed limiter. -/
theorem clear_drops_all_state (s : RateLimiter) (userId : String) :
    (∀ action, (clearUserCooldowns s userId).userCommandCooldowns
        (cooldownKey userId action) = none) ∧
    (∀ action, (clearUserCooldowns s userId).userInteractionCooldowns
        (cooldownKey userId action) = none) ∧
    (clearUserCooldowns s userId).userRequestCounts userId = none ∧
    (∀ action now,
      (checkCommandCooldown (clearUserCooldowns s userId) userId action now).1 =
        { allowed := true, timeLeft := none } ∧
      (checkCommandCooldown (clearUserCooldowns s userId) userId action now).1 =
        (checkCommandCooldown RateLimiter.new userId action now).1) ∧
    (∀ action now,
      (checkInteractionCooldown (clearUserCooldowns s userId) userId action now).1 =
        { allowed := true, timeLeft := none } ∧
      (checkInteractionCooldown (clearUserCooldowns s userId) userId action now).1 =
        (checkInteractionCooldown RateLimiter.new userId action now).1) := by
  have hc : ∀ action, (clearUserCooldowns s userId).userCommandCooldowns
      (cooldownKey userId action) = none := by
    intro action
    simp [clearUserCooldowns, startsWith_cooldownKey]
  have hi : ∀ action, (clearUserCooldowns s userId).userInteractionCooldowns
      (cooldownKey userId action) = none := by
    intro action
    simp [clearUserCooldowns, startsWith_cooldownKey]
  have hr : (clearUserCooldowns s userId).userRequestCounts userId = none := by
    simp [clearUserCooldowns, mapDelete]
  have hreq : ∀ now, checkRequestLimit (clearUserCooldowns s userId) userId now =
      { allowed := true, timeLeft := none } := by
    intro now; unfold checkRequestLimit; rw [hr]
  refine ⟨hc, hi, hr, ?_, ?_⟩
  · intro action now
    have h1 : (checkCommandCooldown (clearUserCooldowns s userId) userId action now).1 =
        { allowed := true, timeLeft := none } := by
      unfold checkCommandCooldown
      simp only [hreq, hc, Bool.true_eq_false, if_false]
    exact ⟨h1, by rw [h1]; rfl⟩
  · intro action now
    have h1 : (checkInteractionCooldown (clearUserCooldowns s userId) userId action now).1 =
        { allowed := true, timeLeft := none } := by
      unfold checkInteractionCooldown
      simp only [hreq, hi, Bool.true_eq_false, if_false]
    exact ⟨h1, by rw [h1]; rfl⟩

/-- C8 (the sweep is outcome-neutral).  For every limiter state, every sweep instant `t`
and every check instant `t' ≥ t`: `checkCommandCooldown`, `checkInteractionCooldown` and
`checkRequestLimit` at `t'` return the same result (allowed flag and `timeLeft`) after
`cleanup()` at `t` as without it. -/
theorem sweep_is_outcome_neutral (s : RateLimiter) (t t' : Int) (h : t ≤ t')
    (userId action : String) :
    (checkCommandCooldown (cleanup s t) userId action t').1 =
      (checkCommandCooldown s userId action t').1 ∧
    (checkInteractionCooldown (cleanup s t) userId action t').1 =
      (checkInteractionCooldown s userId action t').1 ∧
    checkRequestLimit (cleanup s t) userId t' = checkRequestLimit s userId t' :=
  ⟨checkCommandCooldown_cleanup_result s t t' h userId action,
   checkInteractionCooldown_cleanup_result s t t' h userId action,
   checkRequestLimit_cleanup s t t' h userId⟩

/-- C8 after the burst `demoBurst`, swept at 40000 (which deletes the command entries of
the burst) and checked at 50000, where the window gate still denies. -/
theorem sweep_is_outcome_neutral_witness :
    (checkCommandCooldown (cleanup (run RateLimiter.new demoBurst) 40000) "u" "" 50000).1 =
      (checkCommandCooldown (run RateLimiter.new demoBurst) "u" "" 50000).1 ∧
    (checkInteractionCooldown (cleanup (run RateLimiter.new demoBurst) 40000) "u" "" 50000).1 =
      (checkInteractionCooldown (run RateLimiter.new demoBurst) "u" "" 50000).1 ∧
    checkRequestLimit (cleanup (run RateLimiter.new demoBurst) 40000) "u" 50000 =
      checkRequestLimit (run RateLimiter.new demoBurst) "u" 50000 :=
  sweep_is_outcome_neutral (run RateLimiter.new demoBurst) 40000 50000 (by decide) "u" ""

/-- C9 (the content hash depends only on the canonical tuples).  Two grouped-run inputs
with the same canonical form at the same instant (the same source names in the same
order and, per source, the same list of (ID, Type, Start, is-new status) in the same
order) and the same category label have the same `generateContentHash`, whatever their
data-center labels, reference links and creation instants, and whatever the hash
function `hashCodeSchedules` is. -/
theorem content_hash_depends_only_on_canonical_tuples (hashCodeSchedules : String → String)
    (groupedRuns1 groupedRuns2 : List (String × List Run)) (raidType : String)
    (currentTime : Int)
    (h : canonicalForm currentTime groupedRuns1 = canonicalForm currentTime groupedRuns2) :
    generateContentHash hashCodeSchedules groupedRuns1 raidType currentTime =
      generateContentHash hashCodeSchedules groupedRuns2 raidType currentTime := by
  unfold generateContentHash categoryContentString
  rw [categoryContentString_congr hashCodeSchedules currentTime _ _ h]

/-- C9 for two inputs whose single run differs in data-center label, reference link and
creation instant, with the identity as hash function. -/
theorem content_hash_depends_only_on_canonical_tuples_witness :
    demoRunNew ≠ demoRunRelabelled ∧
    generateContentHash id [("Host A", [demoRunNew])] "BA" 200000000 =
      generateContentHash id [("Host A", [demoRunRelabelled])] "BA" 200000000 :=
  ⟨by decide,
   content_hash_depends_only_on_canonical_tuples id [("Host A", [demoRunNew])]
     [("Host A", [demoRunRelabelled])] "BA" 200000000 (by decide)⟩

/-- C10 as stated fails for a hash function that the spec accepts.  For the source name
`AFuglgfA` and two runs with the same ID, Type and Start, one created 29 h 59 min and one
created 30 h 01 min before the instant 200000000, the content strings differ in the marker
and the 32-bit polynomial hash gives both the value -945930820. -/
theorem new_boundary_hash_collision_counterexample :
    demoRunNew.ID = demoRunOld.ID ∧ demoRunNew.RunType = demoRunOld.RunType ∧
    demoRunNew.Start = demoRunOld.Start ∧
    isNew demoRunNew 200000000 = true ∧ isNew demoRunOld 200000000 = false ∧
    serverContentString "AFuglgfA" [demoRunNew] 200000000 =
      "AFuglgfA:17|Fresh|300000000|NEW|" ∧
    serverContentString "AFuglgfA" [demoRunOld] 200000000 =
      "AFuglgfA:17|Fresh|300000000||" ∧
    generateServerHash hashCode32 "AFuglgfA" [demoRunNew] 200000000 = "-945930820" ∧
    generateServerHash hashCode32 "AFuglgfA" [demoRunOld] 200000000 = "-945930820" := by
  decide

/-- C10 (crossing the 30-hour boundary changes the hash input), amended.  A run is new
exactly when it has a creation instant `c` with `now - c < 108000000` (30 hours, strict).
For two runs with the same ID, Type and Start, one created less than 30 hours ago and one
created 30 hours ago or earlier, standing at the same place of the same run list: the
first contributes `ID|Type|Start|NEW|` and the second `ID|Type|Start||`, the content
strings that `generateServerHash` builds are different, and the two hashes are different
exactly when the hash function `hashCodeSchedules` gives these two content strings
different values. -/
theorem new_boundary_changes_hash_input (hashCodeSchedules : String → String)
    (serverName : String) (pre post : List Run) (r1 r2 : Run) (now c1 c2 : Int)
    (hID : r1.ID = r2.ID) (hType : r1.RunType = r2.RunType) (hStart : r1.Start = r2.Start)
    (h1 : r1.TimeStamp = some c1) (h2 : r2.TimeStamp = some c2)
    (hc1 : now - c1 < thirtyHoursMs) (hc2 : thirtyHoursMs ≤ now - c2) :
    (∀ run : Run, isNew run now = true ↔
      ∃ c, run.TimeStamp = some c ∧ now - c < 108000000) ∧
    runContent r1 now =
      r1.ID ++ "|" ++ r1.RunType ++ "|" ++ toString r1.Start ++ "|" ++ "NEW" ++ "|" ∧
    runContent r2 now =
      r1.ID ++ "|" ++ r1.RunType ++ "|" ++ toString r1.Start ++ "|" ++ "" ++ "|" ∧
    serverContentString serverName (pre ++ r1 :: post) now ≠
      serverContentString serverName (pre ++ r2 :: post) now ∧
    (generateServerHash hashCodeSchedules serverName (pre ++ r1 :: post) now ≠
        generateServerHash hashCodeSchedules serverName (pre ++ r2 :: post) now ↔
      hashCodeSchedules (serverContentString serverName (pre ++ r1 :: post) now) ≠
        hashCodeSchedules (serverContentString serverName (pre ++ r2 :: post) now)) := by
  have hn1 : isNew r1 now = true := (isNew_iff r1 now).mpr ⟨c1, h1, hc1⟩
  have hn2 : isNew r2 now = false := by
    rw [Bool.eq_false_iff]
    intro h
    obtain ⟨c, hc, hlt⟩ := (isNew_iff r2 now).mp h
    rw [h2] at hc
    cases hc
    omega
  have hne := serverContentString_ne_of_marker serverName pre post r1 r2 now hID hType hStart
    hn1 hn2
  refine ⟨fun run => isNew_iff run now, ?_, ?_, hne, Iff.rfl⟩
  · unfold runContent; rw [hn1]; rfl
  · unfold runContent; rw [hn2, hID, hType, hStart]; rfl

/-- C10 for one run created 29 h 59 min and one created 30 h 01 min before the instant
200000000, of the source `Host A`, with the 32-bit polynomial hash: the two content
strings get the values -1522233256 and -1936830304, so the hashes differ. -/
theorem new_boundary_changes_hash_input_witness :
    serverContentString "Host A" [demoRunNew] 200000000 = "Host A:17|Fresh|300000000|NEW|" ∧
    serverContentString "Host A" [demoRunOld] 200000000 = "Host A:17|Fresh|300000000||" ∧
    generateServerHash hashCode32 "Host A" [demoRunNew] 200000000 ≠
      generateServerHash hashCode32 "Host A" [demoRunOld] 200000000 :=
  ⟨by decide, by decide,
   (new_boundary_changes_hash_input hashCode32 "Host A" [] [] demoRunNew demoRunOld 200000000
      (200000000 - 107940000) (200000000 - 108060000) rfl rfl rfl rfl rfl
      (by decide) (by decide)).2.2.2.2.mpr (by decide)⟩

/-! ## Properties of the empty-state sentinel, the host registry and the denial replies -/

theorem string_ne_empty_of_data {s : String} (h : s.data ≠ []) : s ≠ "" := by
  intro e; apply h; rw [e]

theorem categoryContentString_nonempty (hash : String → String) (hne : ∀ s, hash s ≠ "")
    (groupedRuns : List (String × List Run)) (hg : groupedRuns ≠ []) (raidType : String)
    (now : Int) :
    categoryContentString hash groupedRuns raidType now ≠ raidType ++ "|" := by
  intro h
  have hd := congrArg String.data h
  unfold categoryContentString at hd
  rw [foldl_append_data (fun entry : String × List Run =>
    generateServerHash hash entry.1 entry.2 now)] at hd
  have hnil := List.append_right_eq_self.mp hd
  cases groupedRuns with
  | nil => exact hg rfl
  | cons e rest =>
    simp only [List.map_cons, List.flatten_cons, List.append_eq_nil] at hnil
    apply hne (serverContentString e.1 e.2 now)
    exact String.ext hnil.1

/-- C11 (the empty state has a deterministic sentinel).  For a missing and for an empty
grouped-run input `buildScheduleContainers` returns exactly one entry, whose server name is
`__empty__` and whose hash is the hash of the fixed string `__empty__:`, whatever the
category and the instant; `generateContentHash` then hashes exactly the string
`<category>|`; and, for a hash function whose rendering is never the empty string, that
string differs from the pre-hash string of every non-empty input of the category. -/
theorem empty_state_sentinel (hashCodeSchedules : String → String) (raidType : String)
    (currentTime : Int) :
    (buildScheduleContainers hashCodeSchedules none raidType currentTime).map
        (fun e => (e.serverName, e.hash)) =
      [("__empty__", hashCodeSchedules "__empty__:")] ∧
    (buildScheduleContainers hashCodeSchedules (some []) raidType currentTime).map
        (fun e => (e.serverName, e.hash)) =
      [("__empty__", hashCodeSchedules "__empty__:")] ∧
    categoryContentString hashCodeSchedules (sourcesOf none) raidType currentTime =
      raidType ++ "|" ∧
    categoryContentString hashCodeSchedules (sourcesOf (some [])) raidType currentTime =
      raidType ++ "|" ∧
    generateContentHash hashCodeSchedules (sourcesOf none) raidType currentTime =
      hashCodeSchedules (raidType ++ "|") ∧
    generateContentHash hashCodeSchedules (sourcesOf (some [])) raidType currentTime =
      hashCodeSchedules (raidType ++ "|") ∧
    ((∀ s, hashCodeSchedules s ≠ "") →
      ∀ groupedRuns : List (String × List Run), groupedRuns ≠ [] →
        categoryContentString hashCodeSchedules (sourcesOf (some groupedRuns)) raidType
          currentTime ≠ raidType ++ "|") :=
  ⟨rfl, rfl, rfl, rfl, rfl, rfl,
   fun hne groupedRuns hg =>
     categoryContentString_nonempty hashCodeSchedules hne groupedRuns hg raidType currentTime⟩

theorem lookup_of_mem_of_nodup {β : Type} (l : List (String × β))
    (hnd : (l.map (fun e => e.1)).Nodup) (k : String) (v : β) (h : (k, v) ∈ l) :
    l.lookup k = some v := by
  induction l with
  | nil => cases h
  | cons e rest ih =>
    obtain ⟨k0, v0⟩ := e
    have hnd2 := List.nodup_cons.mp hnd
    rcases List.mem_cons.mp h with h | h
    · cases h
      simp [List.lookup_cons]
    · have hne : k ≠ k0 := by
        intro e
        apply hnd2.1
        rw [← e]
        exact List.mem_map.mpr ⟨(k, v), h, rfl⟩
      rw [List.lookup_cons]
      have : (k == k0) = false := by simpa using hne
      rw [this]
      exact ih hnd2.2 h

theorem mem_of_lookup {β : Type} (l : List (String × β)) (k : String) (v : β)
    (h : l.lookup k = some v) : (k, v) ∈ l := by
  induction l with
  | nil => simp at h
  | cons e rest ih =>
    obtain ⟨k0, v0⟩ := e
    rw [List.lookup_cons] at h
    by_cases hk : k = k0
    · subst hk
      simp at h
      subst h
      exact List.mem_cons_self _ _
    · have : (k == k0) = false := by simpa using hk
      rw [this] at h
      exact List.mem_cons_of_mem _ (ih h)

theorem HOST_SERVERS_keys_nodup : (HOST_SERVERS.map (fun e => e.1)).Nodup := by decide

theorem HOST_SERVERS_channel_ids_nonempty :
    ∀ e ∈ HOST_SERVERS, ∀ c ∈ e.2.channels, c.2 ≠ "" := by decide

/-- Upper-casing yields no lower-case letter. -/
theorem toUpper_not_lower (c : Char) : (Char.toUpper c).isLower = false := by
  unfold Char.toUpper
  simp only
  by_cases h : c.toNat ≥ 97 ∧ c.toNat ≤ 122
  · rw [if_pos h]
    obtain ⟨h1, h2⟩ := h
    generalize c.toNat = n at h1 h2
    interval_cases n <;> decide
  · rw [if_neg h]
    unfold Char.isLower
    cases hA : decide (c.val ≥ 97)
    · rfl
    · cases hB : decide (c.val ≤ 122)
      · rfl
      · exfalso
        have a : 97 ≤ c.val.toNat := of_decide_eq_true hA
        have b : c.val.toNat ≤ 122 := of_decide_eq_true hB
        exact h ⟨a, b⟩

/-- An upper-cased string is none of the names that an object literal inherits: each of
them contains a lower-case letter. -/
theorem toUpperCase_not_inherited (s : String) : toUpperCase s ∉ inheritedPropertyNames := by
  intro hmem
  have hall : (toUpperCase s).data.all (fun c => !c.isLower) = true := by
    unfold toUpperCase
    simp only [List.all_eq_true, List.mem_map]
    rintro c ⟨d, _, rfl⟩
    rw [toUpper_not_lower]
    rfl
  have hnone : ∀ name ∈ inheritedPropertyNames,
      name.data.all (fun c => !c.isLower) = false := by decide
  rw [hnone _ hmem] at hall
  cases hall

theorem readThroughPrototype_own (o : JsObject String) (key : String)
    (h : key ∉ inheritedPropertyNames) : readThroughPrototype o key = objGet o key := by
  unfold readThroughPrototype
  cases objGet o key with
  | none => simp [h]
  | some v => rfl

theorem mem_getHostServersForRaidType (raidType serverName : String)
    (hown : raidType ∉ inheritedPropertyNames) :
    serverName ∈ getHostServersForRaidType raidType ↔
      ∃ server, (serverName, server) ∈ HOST_SERVERS ∧
        (objGet server.channels raidType).isSome = true := by
  unfold getHostServersForRaidType getAllHostServers
  rw [List.mem_filter]
  constructor
  · rintro ⟨_, hp⟩
    cases hl : objGet HOST_SERVERS serverName with
    | none => rw [hl] at hp; cases hp
    | some server =>
      rw [hl] at hp
      refine ⟨server, mem_of_lookup _ _ _ hl, ?_⟩
      simp only [readThroughPrototype_own _ _ hown, truthyString] at hp
      cases hc : objGet server.channels raidType with
      | none => rw [hc] at hp; cases hp
      | some id => rfl
  · rintro ⟨server, hmem, hsome⟩
    refine ⟨List.mem_map.mpr ⟨(serverName, server), hmem, rfl⟩, ?_⟩
    have hl : objGet HOST_SERVERS serverName = some server :=
      lookup_of_mem_of_nodup _ HOST_SERVERS_keys_nodup _ _ hmem
    rw [hl]
    show truthyString (readThroughPrototype server.channels raidType) = true
    rw [readThroughPrototype_own _ _ hown]
    cases hc : objGet server.channels raidType with
    | none => rw [hc] at hsome; cases hsome
    | some id =>
      have hne := HOST_SERVERS_channel_ids_nonempty _ hmem (raidType, id)
        (mem_of_lookup _ _ _ hc)
      simp only [truthyString]
      simpa using hne

theorem mem_getHostServersForRaidType_registered (raidType serverName : String)
    (h : serverName ∈ getHostServersForRaidType raidType) :
    ∃ server, (serverName, server) ∈ HOST_SERVERS := by
  unfold getHostServersForRaidType getAllHostServers at h
  obtain ⟨hkeys, _⟩ := List.mem_filter.mp h
  obtain ⟨e, he, rfl⟩ := List.mem_map.mp hkeys
  exact ⟨e.2, he⟩

/-- For a name that the `channels` literals inherit (no category is one),
`getHostServersForRaidType` returns every server of the registry: the read finds the
inherited function, which is truthy. -/
theorem getHostServersForRaidType_inherited (raidType : String)
    (h : raidType ∈ inheritedPropertyNames) :
    getHostServersForRaidType raidType = getAllHostServers := by
  revert raidType
  decide

/-- C17 (the offered sources are exactly the valid ones).  For every category, and for
every other string that is not the name of a property that the `channels` literals
inherit from `Object.prototype` (no category and no raid type decoded from a custom id is
such a name), `getHostServersForRaidType` returns exactly the names of the servers of
`HOST_SERVERS` that have a channel entry for it.  The list is in registry order and each
name in it is accepted by `isWhitelistedHost`; for BA, FT and DRS the list shown by the
host menu is this list and has at least one element. -/
theorem offered_sources_are_the_valid_ones (raidType : String) :
    (raidType ∉ inheritedPropertyNames →
      ∀ serverName, serverName ∈ getHostServersForRaidType raidType ↔
        ∃ server, (serverName, server) ∈ HOST_SERVERS ∧
          (objGet server.channels raidType).isSome = true) ∧
    (∀ category ∈ ALL_RAID_TYPES, category ∉ inheritedPropertyNames) ∧
    (∀ customId, raidTypeOf customId ∉ inheritedPropertyNames) ∧
    List.Sublist (getHostServersForRaidType raidType) (HOST_SERVERS.map (fun e => e.1)) ∧
    (∀ serverName ∈ getHostServersForRaidType raidType, isWhitelistedHost serverName = true) ∧
    (raidType ∈ ALL_RAID_TYPES →
      (∀ serverName, serverName ∈ getHostServersForRaidType raidType ↔
        ∃ server, (serverName, server) ∈ HOST_SERVERS ∧
          (objGet server.channels raidType).isSome = true) ∧
      ∃ hostServers, showHostSelection raidType = Screen.hostSelection raidType hostServers ∧
        hostServers = getHostServersForRaidType raidType ∧ 1 ≤ hostServers.length) := by
  have hcat : ∀ category ∈ ALL_RAID_TYPES, category ∉ inheritedPropertyNames := by decide
  refine ⟨fun hown serverName => mem_getHostServersForRaidType raidType serverName hown, hcat,
    fun customId => toUpperCase_not_inherited _, List.filter_sublist _, ?_, ?_⟩
  · intro serverName h
    obtain ⟨server, hmem⟩ := mem_getHostServersForRaidType_registered raidType serverName h
    unfold isWhitelistedHost
    rw [show objGet HOST_SERVERS serverName = some server from
      lookup_of_mem_of_nodup _ HOST_SERVERS_keys_nodup _ _ hmem]
    rfl
  · intro h
    refine ⟨fun serverName => mem_getHostServersForRaidType raidType serverName (hcat raidType h),
      getHostServersForRaidType raidType, rfl, rfl, ?_⟩
    simp only [ALL_RAID_TYPES, List.mem_cons, List.mem_singleton, List.not_mem_nil,
      or_false] at h
    rcases h with h | h | h <;> subst h <;> decide


theorem includesText_middle (a b c : String) : includesText (a ++ b ++ c) b = true := by
  unfold includesText
  simp only [decide_eq_true_eq, String.data_append]
  exact ⟨a.data, c.data, rfl⟩

/-- C19, amended (only the denial of a slash command shows the remaining wait).  When the
limiter denies a slash command with `timeLeft: k`, the reply contains the decimal
rendering of `k`; when it denies a button click or a select-menu interaction the reply is
a fixed text, the same for every `k`, that contains no digit. -/
theorem admission_denial_replies (s : RateLimiter) (userId : String) (now : Int) :
    (∀ commandName k,
      (checkCommandCooldown s userId commandName now).1 = { allowed := false, timeLeft := some k } →
      ∃ reply, slashCommandDenial s userId commandName now = some reply ∧
        includesText reply (toString k) = true) ∧
    ((checkInteractionCooldown s userId "button" now).1.allowed = false →
      buttonDenial s userId now = some "⏱️ You're clicking too fast! Please slow down.") ∧
    ((checkInteractionCooldown s userId "selectmenu" now).1.allowed = false →
      selectMenuDenial s userId now =
        some "⏱️ Please wait a moment before making another selection.") ∧
    (∀ c ∈ "⏱️ You're clicking too fast! Please slow down.".data, c.isDigit = false) ∧
    (∀ c ∈ "⏱️ Please wait a moment before making another selection.".data,
      c.isDigit = false) := by
  refine ⟨?_, ?_, ?_, by decide, by decide⟩
  · intro commandName k h
    refine ⟨_, ?_, includesText_middle "⏱️ Please wait " (toString k)
      " second(s) before using this command again."⟩
    unfold slashCommandDenial
    simp only [h, renderTimeLeft, if_true]
  · intro h
    unfold buttonDenial
    simp only [h, if_true]
  · intro h
    unfold selectMenuDenial
    simp only [h, if_true]

/-- C18, the divergence.  When `createScheduleChannel` is called as the setup flow calls
it (no `name` option, `readOnly: true`) for a non-empty category, and the bot passes the
Manage Channels (or Administrator) and role-rank checks, the read of `DEFAULT_SCHEDULE_CHANNEL_NAMES` (which
`constants.js` does not export) throws: no channel is requested and the call returns
`success: false` with the message of the TypeError. -/
theorem createScheduleChannel_without_name_fails (guild : Guild) (raidType : String)
    (botMember fresh : BotMember) (flags : List PermissionFlag)
    (topic : Option String) (categoryId : Option String)
    (hraid : raidType ≠ "")
    (hfetch : guild.fetchMe = Except.ok fresh)
    (hperm : fresh.permissions = some flags)
    (hmanage : PermissionFlag.ManageChannels ∈ flags ∨ PermissionFlag.Administrator ∈ flags)
    (hrank : 1 < fresh.highestRolePosition) :
    createScheduleChannel (some guild) raidType (some botMember)
        { name := none, topic := topic, readOnly := some true, categoryId := categoryId } =
      ([], Except.ok (CreateResult.failure
        ("Failed to create channel: Cannot read properties of undefined (reading '" ++
          toUpperCase raidType ++ "')"))) := by
  have hbody : createScheduleChannelBody guild raidType
      { name := none, topic := topic, readOnly := some true, categoryId := categoryId } =
      ([], Except.error (typeErrorReadingUndefined (toUpperCase raidType))) := by
    have hcheck : (!decide (PermissionFlag.ManageChannels ∈ flags) &&
        !decide (PermissionFlag.Administrator ∈ flags)) = false := by
      rcases hmanage with h | h <;> simp [h]
    unfold createScheduleChannelBody
    simp only [hfetch, hperm, permissionsHas, hcheck, Bool.false_eq_true, if_false,
      not_le.mpr hrank]
    rfl
  unfold createScheduleChannel
  simp only [hraid, if_false, hbody]
  rfl


/-! ## Properties of the setup flow -/

theorem lookup_map_replace {β : Type} (o : List (String × β)) (key k : String) (v : β) :
    (o.map (fun e => if e.1 = key then (key, v) else e)).lookup k =
      if k = key then (o.lookup key).map (fun _ => v) else o.lookup k := by
  induction o with
  | nil => simp
  | cons e rest ih =>
    obtain ⟨k0, v0⟩ := e
    simp only [List.map_cons]
    by_cases h0 : k0 = key
    · subst h0
      simp only [if_true, List.lookup_cons]
      by_cases hk : k = k0
      · subst hk; simp
      · have : (k == k0) = false := by simpa using hk
        simp only [this, hk, if_false]
        rw [ih, if_neg hk]
    · simp only [h0, if_false, List.lookup_cons]
      by_cases hk : k = key
      · subst hk
        have hne : (k == k0) = false := by simpa using (Ne.symm h0)
        simp only [hne, if_true]
        rw [ih, if_pos rfl]
      · simp only [hk, if_false]
        rw [ih, if_neg hk]

theorem objGet_objSet {β : Type} (o : JsObject β) (key k : String) (v : β) :
    objGet (objSet o key v) k = if k = key then some v else objGet o k := by
  unfold objGet objSet
  by_cases hany : o.any (fun e => e.1 == key) = true
  · rw [if_pos hany, lookup_map_replace]
    by_cases hk : k = key
    · simp only [hk, if_true]
      obtain ⟨e, he, hek⟩ := List.any_eq_true.mp hany
      have hek2 : e.1 = key := by simpa using hek
      cases hl : List.lookup key o with
      | none =>
        rw [List.lookup_eq_none_iff] at hl
        have := hl e he
        simp [hek2] at this
      | some x => rfl
    · simp only [hk, if_false]
  · rw [if_neg hany, List.lookup_append]
    have hnone : List.lookup key o = none := by
      rw [List.lookup_eq_none_iff]
      intro e he
      have := List.any_eq_true.not.mp hany
      simp only [not_exists, not_and] at this
      have h2 : e.1 ≠ key := by simpa using this e he
      simpa using Ne.symm h2
    by_cases hk : k = key
    · subst hk
      simp [hnone]
    · have hb : (k == key) = false := by simpa using hk
      simp only [hk, if_false, List.lookup_cons, hb, List.lookup_nil]
      cases List.lookup k o <;> rfl

theorem fieldOf_objSet (o : JsObject JsValue) (key k : String) (v : JsValue) :
    fieldOf (objSet o key v) k = if k = key then v else fieldOf o k := by
  unfold fieldOf
  rw [objGet_objSet]
  split <;> rfl

/-- The configuration keys of a raid type: those of BA, FT and DRS, and none for another
string. -/
theorem config_keys_cases (raidType : String) :
    (raidType = "BA" ∨ raidType = "FT" ∨ raidType = "DRS") ∨
    (raidType ∉ ALL_RAID_TYPES ∧ getScheduleChannelKey raidType = none ∧
      getEnabledHostsKey raidType = none) := by
  by_cases h : raidType ∈ ALL_RAID_TYPES
  · left
    simpa [ALL_RAID_TYPES] using h
  · right
    refine ⟨h, ?_, ?_⟩
    · simp only [ALL_RAID_TYPES, List.mem_cons, List.mem_singleton, List.not_mem_nil,
        or_false, not_or] at h
      have h1 : (raidType == "BA") = false := by simpa using h.1
      have h2 : (raidType == "FT") = false := by simpa using h.2.1
      have h3 : (raidType == "DRS") = false := by simpa using h.2.2
      unfold getScheduleChannelKey objGet getAllConfigKeys ALL_RAID_TYPES
      simp only [List.map_cons, List.map_nil, List.lookup_cons, List.lookup_nil, h1, h2, h3]
    · simp only [ALL_RAID_TYPES, List.mem_cons, List.mem_singleton, List.not_mem_nil,
        or_false, not_or] at h
      have h1 : (raidType == "BA") = false := by simpa using h.1
      have h2 : (raidType == "FT") = false := by simpa using h.2.1
      have h3 : (raidType == "DRS") = false := by simpa using h.2.2
      unfold getEnabledHostsKey objGet getAllConfigKeys ALL_RAID_TYPES
      simp only [List.map_cons, List.map_nil, List.lookup_cons, List.lookup_nil, h1, h2, h3]

theorem writeSelections_untouched (channels : Option (JsObject String))
    (hosts : Option (JsObject (List String))) (k : String) (selected : List String) :
    ∀ (configData record : JsObject JsValue),
      (∀ raidType ∈ selected, k ∉ writtenKeys raidType) →
      writeSelections channels hosts selected configData = Except.ok record →
      fieldOf record k = fieldOf configData k := by
  induction selected with
  | nil =>
    intro configData record _ h
    simp only [writeSelections] at h
    cases h
    rfl
  | cons raidType rest ih =>
    intro configData record hk h
    cases channels with
    | none => simp [writeSelections] at h
    | some ch =>
      cases hosts with
      | none => simp [writeSelections] at h
      | some hs =>
        simp only [writeSelections] at h
        have hnot := hk raidType (List.mem_cons_self _ _)
        simp only [writtenKeys, List.mem_cons, List.mem_singleton, List.not_mem_nil,
          or_false, not_or] at hnot
        rw [ih _ record (fun r hr => hk r (List.mem_cons_of_mem _ hr)) h,
          fieldOf_objSet, if_neg hnot.2, fieldOf_objSet, if_neg hnot.1]


theorem categoryKeys_not_written (category raidType : String)
    (hcat : category ∈ ALL_RAID_TYPES) (hne : raidType ≠ category) :
    ∀ k ∈ categoryKeys category, k ∉ writtenKeys raidType := by
  simp only [ALL_RAID_TYPES, List.mem_cons, List.mem_singleton, List.not_mem_nil,
    or_false] at hcat
  rcases config_keys_cases raidType with h | ⟨_, h1, h2⟩
  · rcases h with h | h | h <;> rcases hcat with hc | hc | hc <;> subst h <;> subst hc <;>
      first
        | exact absurd rfl hne
        | decide
  · unfold writtenKeys
    rw [h1, h2]
    rcases hcat with hc | hc | hc <;> subst hc <;> decide

theorem written_keys_of_category (category : String) (hcat : category ∈ ALL_RAID_TYPES) :
    propertyName (getScheduleChannelKey category) = getConfigKey "schedule_channel" category ∧
    propertyName (getEnabledHostsKey category) = getConfigKey "enabled_hosts" category ∧
    getConfigKey "schedule_channel" category ≠ getConfigKey "enabled_hosts" category := by
  simp only [ALL_RAID_TYPES, List.mem_cons, List.mem_singleton, List.not_mem_nil,
    or_false] at hcat
  rcases hcat with hc | hc | hc <;> subst hc <;> decide

theorem writeSelections_selected (ch : JsObject String) (hs : JsObject (List String))
    (category : String) (hcat : category ∈ ALL_RAID_TYPES) (selected : List String) :
    ∀ (configData record : JsObject JsValue), category ∈ selected →
      writeSelections (some ch) (some hs) selected configData = Except.ok record →
      fieldOf record (getConfigKey "schedule_channel" category) = channelValue ch category ∧
      fieldOf record (getConfigKey "enabled_hosts" category) = hostsValue hs category := by
  induction selected with
  | nil => intro _ _ h; cases h
  | cons raidType rest ih =>
    intro configData record hmem h
    simp only [writeSelections] at h
    by_cases hrest : category ∈ rest
    · exact ih _ record hrest h
    · have heq : category = raidType := by
        rcases List.mem_cons.mp hmem with h1 | h1
        · exact h1
        · exact absurd h1 hrest
      subst heq
      obtain ⟨hk1, hk2, hk3⟩ := written_keys_of_category category hcat
      have hun : ∀ k ∈ categoryKeys category, ∀ r ∈ rest, k ∉ writtenKeys r := by
        intro k hk r hr
        exact categoryKeys_not_written category r hcat
          (fun e => hrest (e ▸ hr)) k hk
      constructor
      · rw [writeSelections_untouched _ _ _ rest _ record
          (hun _ (by simp [categoryKeys])) h, fieldOf_objSet, hk2, if_neg hk3,
          fieldOf_objSet, hk1, if_pos rfl]
      · rw [writeSelections_untouched _ _ _ rest _ record
          (hun _ (by simp [categoryKeys])) h, fieldOf_objSet, hk2, if_pos rfl]

theorem confirmation_writes (setupState : SetupState) (interaction : Interaction)
    (state : SetupSession) (hstate : setupState interaction.userId = some state)
    (guildId : String) (record : JsObject JsValue)
    (hw : (guildId, record) ∈ (handleSetupConfirmation setupState interaction).writes) :
    guildId = interaction.guild.id ∧
    ∃ existingConfig,
      (if state.returnToConfig then interaction.commit.getServerConfig else Except.ok none) =
        Except.ok existingConfig ∧
      buildConfigData state interaction.guild.name existingConfig = Except.ok record := by
  unfold handleSetupConfirmation at hw
  rw [hstate] at hw
  simp only at hw
  split at hw
  · split at hw
    · simp [commitFailed] at hw
    · rename_i existingConfig hex
      split at hw
      · simp [commitFailed] at hw
      · rename_i configData hcd
        have hrec : guildId = interaction.guild.id ∧ record = configData := by
          split at hw
          · simpa [commitFailed] using hw
          · split at hw
            · simpa [commitFailed] using hw
            · split at hw
              · simpa [commitFailed] using hw
              · simpa using hw
        exact ⟨hrec.1, existingConfig, hex, by rw [hrec.2]; exact hcd⟩
  · simp [commitFailed] at hw

/-- C13, amended (an amend commit leaves the unselected categories untouched, a missing
colour apart).  For an amend session, every stored configuration and every category of
BA, FT, DRS that is not selected, the record written by `handleSetupConfirmation` has the
channel, enabled hosts, overview identifier and message identifier of the category equal
to the stored values, and its colour equal to the stored colour when this is neither
`null` nor `undefined`, and to `-1` otherwise. -/
theorem amend_commit_keeps_unselected (setupState : SetupState) (interaction : Interaction)
    (state : SetupSession) (selected : List String)
    (existingConfig : Option (JsObject JsValue)) (category guildId : String)
    (record : JsObject JsValue)
    (hstate : setupState interaction.userId = some state)
    (hamend : state.returnToConfig = true)
    (hsel : state.selectedRaidTypes = some selected)
    (hread : interaction.commit.getServerConfig = Except.ok existingConfig)
    (hcat : category ∈ ALL_RAID_TYPES)
    (hnot : category ∉ selected)
    (hw : (guildId, record) ∈ (handleSetupConfirmation setupState interaction).writes) :
    fieldOf record (getConfigKey "schedule_channel" category) =
      optFieldOf existingConfig (getConfigKey "schedule_channel" category) ∧
    fieldOf record (getConfigKey "enabled_hosts" category) =
      optFieldOf existingConfig (getConfigKey "enabled_hosts" category) ∧
    fieldOf record (getConfigKey "schedule_overview" category) =
      optFieldOf existingConfig (getConfigKey "schedule_overview" category) ∧
    fieldOf record (getConfigKey "schedule_message" category) =
      optFieldOf existingConfig (getConfigKey "schedule_message" category) ∧
    fieldOf record (getConfigKey "schedule_color" category) =
      nullish (optFieldOf existingConfig (getConfigKey "schedule_color" category))
        (JsValue.number (-1)) := by
  obtain ⟨_, existing, hex, hbuild⟩ :=
    confirmation_writes setupState interaction state hstate guildId record hw
  rw [hamend, if_pos rfl, hread] at hex
  cases hex
  unfold buildConfigData at hbuild
  rw [hsel] at hbuild
  simp only [hamend, if_true] at hbuild
  have hun : ∀ k ∈ categoryKeys category,
      fieldOf record k = fieldOf (amendBase interaction.guild.name existingConfig) k := by
    intro k hk
    exact writeSelections_untouched _ _ k selected _ record
      (fun r hr => categoryKeys_not_written category r hcat
        (fun e => hnot (e ▸ hr)) k hk) hbuild
  rw [hun _ (by simp [categoryKeys]), hun _ (by simp [categoryKeys]),
    hun _ (by simp [categoryKeys]), hun _ (by simp [categoryKeys]),
    hun _ (by simp [categoryKeys])]
  simp only [ALL_RAID_TYPES, List.mem_cons, List.mem_singleton, List.not_mem_nil,
    or_false] at hcat
  rcases hcat with hc | hc | hc <;> subst hc <;> exact ⟨rfl, rfl, rfl, rfl, rfl⟩


/-- C13 fails for the colour: the stored BA colour is `null`, BA is not selected by the
amend session, and the record written has the BA colour `-1`. -/
theorem amend_commit_colour_counterexample :
    "BA" ∉ ["FT"] ∧
    optFieldOf (some demoStored) (getConfigKey "schedule_color" "BA") = JsValue.null ∧
    (handleSetupConfirmation (fun u => if u = "u" then some demoAmendSession else none)
        demoAmendConfirm).writes.map
      (fun w => fieldOf w.2 (getConfigKey "schedule_color" "BA")) = [JsValue.number (-1)] := by
  decide

/-- C13, amended, at the amend session `demoAmendSession`: the BA channel written is the
stored one. -/
theorem amend_commit_keeps_unselected_witness :
    fieldOf ((handleSetupConfirmation (fun u => if u = "u" then some demoAmendSession else none)
        demoAmendConfirm).writes.headD ("", [])).2 (getConfigKey "schedule_channel" "BA") =
      optFieldOf (some demoStored) (getConfigKey "schedule_channel" "BA") ∧
    fieldOf ((handleSetupConfirmation (fun u => if u = "u" then some demoAmendSession else none)
        demoAmendConfirm).writes.headD ("", [])).2 (getConfigKey "schedule_channel" "BA") =
      JsValue.string "123" :=
  ⟨(amend_commit_keeps_unselected (fun u => if u = "u" then some demoAmendSession else none)
      demoAmendConfirm demoAmendSession ["FT"] (some demoStored) "BA" "guild"
      ((handleSetupConfirmation (fun u => if u = "u" then some demoAmendSession else none)
        demoAmendConfirm).writes.headD ("", [])).2
      rfl rfl rfl rfl (by decide) (by decide) (by decide)).1, by decide⟩

/-- C16, amended (a complete session commits all-unset or fully set categories).  For a
new-tenant session in which every selected category has a channel and a non-empty host
list, the record written by `handleSetupConfirmation` has, for each of BA, FT and DRS,
either neither a channel nor a host list, or a channel identifier and a host list with
at least one source. -/
theorem new_tenant_commit_of_complete_session (setupState : SetupState)
    (interaction : Interaction) (state : SetupSession) (selected : List String)
    (channels : JsObject String) (hosts : JsObject (List String))
    (category guildId : String) (record : JsObject JsValue)
    (hstate : setupState interaction.userId = some state)
    (hnew : state.returnToConfig = false)
    (hsel : state.selectedRaidTypes = some selected)
    (hch : state.channels = some channels)
    (hhs : state.hosts = some hosts)
    (hcomplete : ∀ c ∈ selected, (∃ channelId, objGet channels c = some channelId) ∧
      ∃ selectedHosts, objGet hosts c = some selectedHosts ∧ selectedHosts ≠ [])
    (hcat : category ∈ ALL_RAID_TYPES)
    (hw : (guildId, record) ∈ (handleSetupConfirmation setupState interaction).writes) :
    (fieldOf record (getConfigKey "schedule_channel" category) = JsValue.undefined ∧
      fieldOf record (getConfigKey "enabled_hosts" category) = JsValue.undefined) ∨
    (∃ channelId selectedHosts,
      fieldOf record (getConfigKey "schedule_channel" category) = JsValue.string channelId ∧
      fieldOf record (getConfigKey "enabled_hosts" category) = JsValue.array selectedHosts ∧
      selectedHosts ≠ []) := by
  obtain ⟨_, existing, _, hbuild⟩ :=
    confirmation_writes setupState interaction state hstate guildId record hw
  unfold buildConfigData at hbuild
  rw [hsel] at hbuild
  simp only [hnew, Bool.false_eq_true, if_false, hch, hhs] at hbuild
  by_cases hmem : category ∈ selected
  · right
    obtain ⟨⟨channelId, hc⟩, selectedHosts, hh, hne⟩ := hcomplete category hmem
    obtain ⟨h1, h2⟩ := writeSelections_selected channels hosts category hcat selected _ record
      hmem hbuild
    refine ⟨channelId, selectedHosts, ?_, ?_, hne⟩
    · rw [h1]; unfold channelValue; rw [hc]
    · rw [h2]; unfold hostsValue; rw [hh]
  · left
    have hun : ∀ k ∈ categoryKeys category,
        fieldOf record k = fieldOf (newTenantBase interaction.guild.name) k := by
      intro k hk
      exact writeSelections_untouched _ _ k selected _ record
        (fun r hr => categoryKeys_not_written category r hcat
          (fun e => hmem (e ▸ hr)) k hk) hbuild
    rw [hun _ (by simp [categoryKeys]), hun _ (by simp [categoryKeys])]
    simp only [ALL_RAID_TYPES, List.mem_cons, List.mem_singleton, List.not_mem_nil,
      or_false] at hcat
    rcases hcat with hc | hc | hc <;> subst hc <;> exact ⟨rfl, rfl⟩

/-- C16 fails for a commit that arrives before the hosts of BA were chosen: the session
is reached from category selection through the handlers, and the record written has a BA
channel and no BA host list. -/
theorem early_commit_counterexample :
    (handleSetupInteraction (runSetup noSessions demoEarlyCommit)
        (demoInteraction demoGuild "setup_confirm" [])).writes.map
      (fun w => (fieldOf w.2 "schedule_channel_ba", fieldOf w.2 "enabled_hosts_ba")) =
      [(JsValue.string "123", JsValue.undefined)] := by
  decide


/-- C16, amended, at the session reached by `demoFlow`: DRS was not selected and is
written all-unset. -/
theorem new_tenant_commit_of_complete_session_witness :
    (fieldOf ((handleSetupConfirmation (runSetup noSessions (demoFlow demoGuild))
          (demoInteraction demoGuild "setup_confirm" [])).writes.headD ("", [])).2
        (getConfigKey "schedule_channel" "DRS") = JsValue.undefined ∧
      fieldOf ((handleSetupConfirmation (runSetup noSessions (demoFlow demoGuild))
          (demoInteraction demoGuild "setup_confirm" [])).writes.headD ("", [])).2
        (getConfigKey "enabled_hosts" "DRS") = JsValue.undefined) ∨
    (∃ channelId selectedHosts,
      fieldOf ((handleSetupConfirmation (runSetup noSessions (demoFlow demoGuild))
          (demoInteraction demoGuild "setup_confirm" [])).writes.headD ("", [])).2
        (getConfigKey "schedule_channel" "DRS") = JsValue.string channelId ∧
      fieldOf ((handleSetupConfirmation (runSetup noSessions (demoFlow demoGuild))
          (demoInteraction demoGuild "setup_confirm" [])).writes.headD ("", [])).2
        (getConfigKey "enabled_hosts" "DRS") = JsValue.array selectedHosts ∧
      selectedHosts ≠ []) :=
  new_tenant_commit_of_complete_session (runSetup noSessions (demoFlow demoGuild))
    (demoInteraction demoGuild "setup_confirm" [])
    { selectedRaidTypes := some ["BA", "FT"], channels := some [("BA", "123"), ("FT", "456")],
      hosts := some [("BA", ["CAFE"]), ("FT", ["CEM", "CAFE"])], returnToConfig := false }
    ["BA", "FT"] [("BA", "123"), ("FT", "456")] [("BA", ["CAFE"]), ("FT", ["CEM", "CAFE"])]
    "DRS" "guild"
    ((handleSetupConfirmation (runSetup noSessions (demoFlow demoGuild))
      (demoInteraction demoGuild "setup_confirm" [])).writes.headD ("", [])).2
    (by decide) rfl rfl rfl rfl
    (by
      intro c hc
      rcases List.mem_cons.mp hc with rfl | hc
      · exact ⟨⟨"123", rfl⟩, ["CAFE"], rfl, by decide⟩
      · rcases List.mem_cons.mp hc with rfl | hc
        · exact ⟨⟨"456", rfl⟩, ["CEM", "CAFE"], rfl, by decide⟩
        · cases hc)
    (by decide) (by decide)

/-- C14 (a commit failure keeps the session).  In `handleSetupConfirmation` for an actor
with a session: if the write to the configuration store fails, the session map is
unchanged, the save error is shown and no update is forced; and if the session of the
actor is gone afterwards, the store write and the forced update both completed without
error, exactly one record was written and the update of the guild was forced. -/
theorem commit_failure_keeps_session (setupState : SetupState) (interaction : Interaction)
    (state : SetupSession) (hstate : setupState interaction.userId = some state) :
    (∀ e, interaction.commit.upsertServerConfig = Except.error e →
      (handleSetupConfirmation setupState interaction).setupState = setupState ∧
      (handleSetupConfirmation setupState interaction).shown = [Screen.saveError] ∧
      (handleSetupConfirmation setupState interaction).forced = []) ∧
    ((handleSetupConfirmation setupState interaction).setupState interaction.userId = none →
      interaction.commit.upsertServerConfig = Except.ok () ∧
      interaction.commit.forceUpdate = Except.ok () ∧
      (∃ record, (handleSetupConfirmation setupState interaction).writes =
        [(interaction.guild.id, record)]) ∧
      (handleSetupConfirmation setupState interaction).forced = [interaction.guild.id]) := by
  constructor
  · intro e he
    unfold handleSetupConfirmation
    rw [hstate]
    simp only [he]
    split
    · split
      · exact ⟨rfl, rfl, rfl⟩
      · split
        · exact ⟨rfl, rfl, rfl⟩
        · exact ⟨rfl, rfl, rfl⟩
    · exact ⟨rfl, rfl, rfl⟩
  · unfold handleSetupConfirmation
    rw [hstate]
    simp only
    have hkeep : ∀ w f, (commitFailed setupState w f).setupState interaction.userId ≠ none := by
      intro w f h
      simp only [commitFailed] at h
      rw [hstate] at h
      cases h
    split
    · split
      · intro h; exact absurd h (hkeep _ _)
      · split
        · intro h; exact absurd h (hkeep _ _)
        · split
          · intro h; exact absurd h (hkeep _ _)
          · rename_i hup
            split
            · intro h; exact absurd h (hkeep _ _)
            · rename_i hforce
              have h1 : interaction.commit.upsertServerConfig = Except.ok () := hup
              have h2 : interaction.commit.forceUpdate = Except.ok () := hforce
              split
              · intro _; exact ⟨h1, h2, ⟨_, rfl⟩, rfl⟩
              · intro _; exact ⟨h1, h2, ⟨_, rfl⟩, rfl⟩
    · intro h; exact absurd h (hkeep _ _)

/-- C14 at the confirmation `demoFailingConfirm`, whose store write fails, after
`demoFlow`. -/
theorem commit_failure_keeps_session_witness :
    (handleSetupConfirmation (runSetup noSessions (demoFlow demoGuild))
        demoFailingConfirm).setupState = runSetup noSessions (demoFlow demoGuild) ∧
    (handleSetupConfirmation (runSetup noSessions (demoFlow demoGuild))
        demoFailingConfirm).shown = [Screen.saveError] ∧
    (handleSetupConfirmation (runSetup noSessions (demoFlow demoGuild))
        demoFailingConfirm).forced = [] :=
  (commit_failure_keeps_session (runSetup noSessions (demoFlow demoGuild)) demoFailingConfirm
    { selectedRaidTypes := some ["BA", "FT"], channels := some [("BA", "123"), ("FT", "456")],
      hosts := some [("BA", ["CAFE"]), ("FT", ["CEM", "CAFE"])], returnToConfig := false }
    (by decide)).1 { message := "database is locked", code := none } rfl


/-- C11 for the hash function that puts `h` before its argument and an input with one
run of one server. -/
theorem empty_state_sentinel_witness :
    categoryContentString (fun s => "h" ++ s) (sourcesOf (some [("CAFE", [demoRunNew])])) "BA" 0 ≠
      "BA" ++ "|" :=
  (empty_state_sentinel (fun s => "h" ++ s) "BA" 0).2.2.2.2.2.2
    (fun s h => by
      have hlen := congrArg String.length h
      simp at hlen
      exact absurd hlen.1 (by decide))
    [("CAFE", [demoRunNew])] (by decide)

/-- C17 at the category DRS. -/
theorem offered_sources_are_the_valid_ones_witness :
    (∀ serverName, serverName ∈ getHostServersForRaidType "DRS" ↔
      ∃ server, (serverName, server) ∈ HOST_SERVERS ∧
        (objGet server.channels "DRS").isSome = true) ∧
    ∃ hostServers, showHostSelection "DRS" = Screen.hostSelection "DRS" hostServers ∧
      hostServers = getHostServersForRaidType "DRS" ∧ 1 ≤ hostServers.length :=
  (offered_sources_are_the_valid_ones "DRS").2.2.2.2.2 (by decide)

/-- C18, the divergence, in the guild `demoGuildCanCreate` for the category BA. -/
theorem createScheduleChannel_without_name_fails_witness :
    createScheduleChannel (some demoGuildCanCreate) "BA"
        (some (demoBot [PermissionFlag.ManageChannels]))
        { name := none, topic := none, readOnly := some true, categoryId := none } =
      ([], Except.ok (CreateResult.failure
        ("Failed to create channel: Cannot read properties of undefined (reading '" ++
          toUpperCase "BA" ++ "')"))) :=
  createScheduleChannel_without_name_fails demoGuildCanCreate "BA"
    (demoBot [PermissionFlag.ManageChannels])
    (demoBot [PermissionFlag.ViewChannel, PermissionFlag.ManageChannels,
      PermissionFlag.SendMessages])
    [PermissionFlag.ViewChannel, PermissionFlag.ManageChannels, PermissionFlag.SendMessages]
    none none (by decide) rfl rfl (Or.inl (by decide)) (by decide)

/-- C19 fails for a button click: the second click, 100 ms after the first, is denied
with `timeLeft: 1`, and the reply does not contain `1`. -/
theorem button_denial_omits_wait_counterexample :
    (checkInteractionCooldown (checkInteractionCooldown RateLimiter.new "u" "button" 1000).2
        "u" "button" 1100).1 = { allowed := false, timeLeft := some 1 } ∧
    buttonDenial (checkInteractionCooldown RateLimiter.new "u" "button" 1000).2 "u" 1100 =
      some "⏱️ You're clicking too fast! Please slow down." ∧
    includesText "⏱️ You're clicking too fast! Please slow down." (toString (1 : Int)) = false := by
  decide

/-- C19, amended, for the command `schedule` used again 100 ms after its first use: it
is denied with `timeLeft: 3` and the reply contains `3`. -/
theorem admission_denial_replies_witness :
    ∃ reply,
      slashCommandDenial (checkCommandCooldown RateLimiter.new "u" "schedule" 1000).2 "u" "schedule"
        1100 = some reply ∧
      includesText reply (toString (3 : Int)) = true :=
  (admission_denial_replies (checkCommandCooldown RateLimiter.new "u" "schedule" 1000).2 "u"
    1100).1 "schedule" 3 (by decide)

/-- A session map without a session of the actor holds, after `storeChannel`, a session
with the stored channel and nothing else. -/
theorem storeChannel_fresh (setupState : SetupState) (userId raidType channelId : String)
    (hnone : setupState userId = none) :
    storeChannel setupState userId raidType channelId userId =
      some { selectedRaidTypes := none, channels := some [(raidType, channelId)],
             hosts := none, returnToConfig := false } := by
  simp [storeChannel, mapSet, sessionOrEmpty, hnone, SetupSession.empty, objSet]

/-- The screen shown at a host selection without session context names the registered
command `/na-schedule`; the one shown at a confirmation without a session names `/setup`,
which is not a command of the bot. -/
theorem expiry_texts_name_commands :
    (expiryText Screen.sessionExpired).map namedCommand = some registeredCommandName ∧
    (expiryText Screen.sessionExpiredAtConfirmation).map namedCommand = some "setup" ∧
    (expiryText Screen.sessionExpiredAtConfirmation).map namedCommand ≠
      some registeredCommandName := by
  decide

/-- C15, amended (host selection and confirmation treat a missing session context as
expired; channel selection does not).  A host selection that arrives while the actor has
no session with a selected-categories list shows the session as expired, stores nothing,
forces nothing, and the actor has no session afterwards.  A confirmation that arrives
while the actor has no session shows the session as expired and leaves the session map
unchanged.  A channel selection that arrives while the actor has no session never shows
the session as expired.  When the chosen channel is not in the guild cache it shows
"channel not found" and leaves the session map unchanged; when the bot member cannot be
fetched or its permissions in the channel cannot be read it rejects with that error and
leaves the session map unchanged.  Otherwise a session that holds the chosen channel and
nothing else exists afterwards, and what is shown depends on the five required
permissions: the host selection when the bot holds all of them; when some are missing,
the success screen followed by the host selection if the bot can set them itself and
does so, the failure screen with the missing permissions if it can but fails, and the
missing-permissions screen if it cannot. -/
theorem step_without_session_context (setupState : SetupState) (interaction : Interaction)
    (raidType : String) :
    ((∀ state, setupState interaction.userId = some state → state.selectedRaidTypes = none) →
      handleHostSelection setupState interaction raidType =
        Handled.showing (mapDelete setupState interaction.userId) [Screen.sessionExpired] ∧
      (handleHostSelection setupState interaction raidType).setupState interaction.userId =
        none) ∧
    (setupState interaction.userId = none →
      handleSetupConfirmation setupState interaction =
        Handled.showing setupState [Screen.sessionExpiredAtConfirmation] ∧
      (handleSetupConfirmation setupState interaction).setupState interaction.userId = none) ∧
    (∀ values, setupState interaction.userId = none →
      Screen.sessionExpired ∉
        (handleChannelSelection setupState interaction raidType values).shown ∧
      Screen.sessionExpiredAtConfirmation ∉
        (handleChannelSelection setupState interaction raidType values).shown ∧
      ((∀ channelId, values.head? = some channelId →
          interaction.guild.channelsCache channelId = none) →
        handleChannelSelection setupState interaction raidType values =
          Handled.showing setupState [Screen.channelNotFound]) ∧
      (∀ channelId channel, values.head? = some channelId →
        interaction.guild.channelsCache channelId = some channel →
        (∀ e, interaction.guild.fetchMe = Except.error e →
          handleChannelSelection setupState interaction raidType values =
            Handled.throwing setupState e) ∧
        (∀ botMember, interaction.guild.fetchMe = Except.ok botMember →
          channel.botPermissions = none →
          handleChannelSelection setupState interaction raidType values =
            Handled.throwing setupState (typeErrorReadingUndefined "has")) ∧
        (∀ botMember flags, interaction.guild.fetchMe = Except.ok botMember →
          channel.botPermissions = some flags →
          (handleChannelSelection setupState interaction raidType values).setupState
              interaction.userId =
            some { selectedRaidTypes := none, channels := some [(raidType, channelId)],
                   hosts := none, returnToConfig := false } ∧
          ((∀ perm ∈ requiredPermissions, perm.2 ∈ flags) →
            (handleChannelSelection setupState interaction raidType values).shown =
              [showHostSelection raidType]) ∧
          (¬ (∀ perm ∈ requiredPermissions, perm.2 ∈ flags) →
            ∃ missing,
              missing = (requiredPermissions.filter (fun perm => decide (perm.2 ∉ flags))).map
                (fun perm => perm.1) ∧
              missing ≠ [] ∧
              (handleChannelSelection setupState interaction raidType values).shown =
                if canManageChannelPermissions channel = true ∧
                    botMember.highestRolePosition > 1 then
                  if (setChannelPermissions channel botMember).success = true then
                    [Screen.permissionsSet raidType, showHostSelection raidType]
                  else [Screen.permissionsNotSet raidType missing]
                else [Screen.missingPermissions raidType missing])))) := by
  refine ⟨?_, ?_, ?_⟩
  · intro hno
    have hsel : (sessionOrEmpty setupState interaction.userId).selectedRaidTypes = none := by
      unfold sessionOrEmpty
      cases h : setupState interaction.userId with
      | none => rfl
      | some state => exact hno state h
    have heq : handleHostSelection setupState interaction raidType =
        Handled.showing (mapDelete setupState interaction.userId) [Screen.sessionExpired] := by
      unfold handleHostSelection
      simp only [hsel]
    refine ⟨heq, ?_⟩
    rw [heq]
    simp [Handled.showing, mapDelete]
  · intro hnone
    have heq : handleSetupConfirmation setupState interaction =
        Handled.showing setupState [Screen.sessionExpiredAtConfirmation] := by
      unfold handleSetupConfirmation
      simp only [hnone]
    refine ⟨heq, ?_⟩
    rw [heq]
    exact hnone
  · intro values hnone
    have hshown : ∀ screen ∈ (handleChannelSelection setupState interaction raidType values).shown,
        screen ≠ Screen.sessionExpired ∧ screen ≠ Screen.sessionExpiredAtConfirmation := by
      intro screen hmem
      unfold handleChannelSelection showHostSelection at hmem
      cases hv : values.head? with
      | none =>
        simp only [hv, Handled.showing, List.mem_singleton] at hmem
        subst hmem; simp
      | some channelId =>
        cases hc : interaction.guild.channelsCache channelId with
        | none =>
          simp only [hv, hc, Handled.showing, List.mem_singleton] at hmem
          subst hmem; simp
        | some channel =>
          cases hme : interaction.guild.fetchMe with
          | error e =>
            simp only [hv, hc, hme, Handled.throwing, List.not_mem_nil] at hmem
          | ok botMember =>
            cases hperm : channel.botPermissions with
            | none =>
              simp only [hv, hc, hme, hperm, Handled.throwing, List.not_mem_nil] at hmem
            | some flags =>
              simp only [hv, hc, hme, hperm, Handled.showing] at hmem
              split_ifs at hmem
              all_goals
                simp only [List.mem_cons, List.mem_singleton, List.not_mem_nil, or_false] at hmem
              all_goals
                first
                | (subst hmem; simp)
                | (rcases hmem with h | h <;> subst h <;> simp)
    refine ⟨fun h => (hshown _ h).1 rfl, fun h => (hshown _ h).2 rfl, ?_, ?_⟩
    · intro hcache
      unfold handleChannelSelection
      cases hv : values.head? with
      | none => rfl
      | some channelId => simp only [hcache channelId hv]
    · intro channelId channel hv hcache
      refine ⟨?_, ?_, ?_⟩
      · intro e hme
        unfold handleChannelSelection
        simp only [hv, hcache, hme]
      · intro botMember hme hperm
        unfold handleChannelSelection
        simp only [hv, hcache, hme, hperm]
      · intro botMember flags hme hperm
        have hstate : (handleChannelSelection setupState interaction raidType values).setupState
            interaction.userId = storeChannel setupState interaction.userId raidType channelId
              interaction.userId := by
          unfold handleChannelSelection
          simp only [hv, hcache, hme, hperm]
          repeat' split
          all_goals rfl
        refine ⟨by rw [hstate, storeChannel_fresh _ _ _ _ hnone], ?_, ?_⟩
        · intro hall
          have hmissing :
              (requiredPermissions.filter (fun perm => decide (perm.2 ∉ flags))) = [] := by
            rw [List.filter_eq_nil_iff]
            intro perm hp
            simpa using hall perm hp
          unfold handleChannelSelection
          simp only [hv, hcache, hme, hperm, hmissing, List.map_nil, List.length_nil,
            gt_iff_lt, lt_self_iff_false, if_false]
          rfl
        · intro hnot
          have hmissing :
              (requiredPermissions.filter (fun perm => decide (perm.2 ∉ flags))).map
                (fun perm => perm.1) ≠ [] := by
            intro h
            apply hnot
            intro perm hp
            have h2 := List.map_eq_nil_iff.mp h
            rw [List.filter_eq_nil_iff] at h2
            simpa using h2 perm hp
          refine ⟨_, rfl, hmissing, ?_⟩
          have hlen : ((requiredPermissions.filter (fun perm => decide (perm.2 ∉ flags))).map
                (fun perm => perm.1)).length > 0 := List.length_pos.mpr hmissing
          unfold handleChannelSelection
          simp only [hv, hcache, hme, hperm, hlen, if_true]
          by_cases hA : canManageChannelPermissions channel = true ∧
              botMember.highestRolePosition > 1
          · rw [if_pos hA]
            obtain ⟨hA1, hA2⟩ := hA
            simp only [hA1, hA2, decide_True, Bool.and_self, if_true]
            split <;> rfl
          · rw [if_neg hA]
            have : (canManageChannelPermissions channel &&
                decide (botMember.highestRolePosition > 1)) = false := by
              rw [Bool.and_eq_false_iff]
              by_cases h1 : canManageChannelPermissions channel = true
              · right
                simpa using fun h2 => hA ⟨h1, h2⟩
              · left
                simpa using h1
            simp only [this]
            rfl

/-- C15 fails for channel selection: the actor has no session, the channel selection of
BA shows the host selection of BA, and a session with the channel exists afterwards. -/
theorem channel_selection_without_session_counterexample :
    noSessions "u" = none ∧
    (handleSetupInteraction noSessions
      (demoInteraction demoGuild "setup_select_channel_ba" ["123"])).shown =
      [Screen.hostSelection "BA" (getHostServersForRaidType "BA")] ∧
    (handleSetupInteraction noSessions
      (demoInteraction demoGuild "setup_select_channel_ba" ["123"])).setupState "u" =
      some { selectedRaidTypes := none, channels := some [("BA", "123")], hosts := none,
             returnToConfig := false } := by
  decide

/-- C15, amended, in the empty session map: a host selection is shown as expired and
leaves no session, and the selection of the channel `789`, in which the bot lacks four of
the five required permissions and cannot set them, stores the channel in a new session and
shows the missing-permissions screen. -/
theorem step_without_session_context_witness :
    (handleHostSelection noSessions (demoInteraction demoGuild "setup_select_hosts_ba" ["CAFE"])
        "BA" =
      Handled.showing
        (mapDelete noSessions (demoInteraction demoGuild "setup_select_hosts_ba" ["CAFE"]).userId)
        [Screen.sessionExpired] ∧
    (handleHostSelection noSessions (demoInteraction demoGuild "setup_select_hosts_ba" ["CAFE"])
        "BA").setupState (demoInteraction demoGuild "setup_select_hosts_ba" ["CAFE"]).userId =
      none) ∧
    (handleChannelSelection noSessions
        (demoInteraction demoGuildBare "setup_select_channel_ba" ["789"]) "BA"
        ["789"]).setupState "u" =
      some { selectedRaidTypes := none, channels := some [("BA", "789")], hosts := none,
             returnToConfig := false } ∧
    (handleChannelSelection noSessions
        (demoInteraction demoGuildBare "setup_select_channel_ba" ["789"]) "BA" ["789"]).shown =
      [Screen.missingPermissions "BA"
        ["Send Messages", "Embed Links", "Attach Files", "Read Message History"]] := by
  have h := (((step_without_session_context noSessions
    (demoInteraction demoGuildBare "setup_select_channel_ba" ["789"]) "BA").2.2
    ["789"] rfl).2.2.2 "789" (demoChannelBare "789") rfl rfl).2.2
    (demoBot [PermissionFlag.ViewChannel, PermissionFlag.SendMessages])
    [PermissionFlag.ViewChannel] rfl rfl
  refine ⟨(step_without_session_context noSessions
    (demoInteraction demoGuild "setup_select_hosts_ba" ["CAFE"]) "BA").1
    (fun state h => by cases h), h.1, ?_⟩
  obtain ⟨missing, hm, _, hshown⟩ := h.2.2 (by decide)
  subst hm
  exact hshown.trans (by decide)

/-! ## The order of the setup steps -/

/-- In a list without repetition `indexOf` finds the position of each element. -/
theorem jsIndexOf_of_nodup (cs : List String) (hnd : cs.Nodup) (i : Nat) (raidType : String)
    (hi : cs[i]? = some raidType) : jsIndexOf cs raidType = (i : Int) := by
  obtain ⟨hlt, hget⟩ := List.getElem?_eq_some_iff.mp hi
  have hmem : raidType ∈ cs := hget ▸ List.getElem_mem hlt
  unfold jsIndexOf
  rw [if_pos hmem]
  have := List.indexOf_getElem hnd i hlt
  rw [hget] at this
  rw [this]

/-- The element after position `i`. -/
theorem elementAt_succ (cs : List String) (i : Nat) :
    elementAt cs ((i : Int) + 1) = cs[i + 1]? := by
  unfold elementAt
  rw [if_neg (by omega)]
  congr 1

/-- Where the bot cannot create channels, the channel-selection screen is shown. -/
theorem showChannelSelection_without_create (interaction : Interaction) (botMember : BotMember)
    (raidType : String) (hfetch : interaction.guild.fetchMe = Except.ok botMember)
    (hcannot : (canCreateChannels (some interaction.guild) (some botMember)).canCreate = false) :
    ∃ retry, showChannelSelection interaction (some raidType) =
      Except.ok (Screen.channelSelection raidType none retry) := by
  unfold showChannelSelection
  simp only [hfetch, hcannot]
  exact ⟨_, rfl⟩

/-- Where the bot cannot create channels, the wizard follows the order of the selected
list: category selection shows the channel selection of the first category, and host
selection for the category at position `i` shows the channel selection of the category at
position `i + 1`, or the confirmation when there is none. -/
theorem steps_follow_list_order_without_create (setupState : SetupState)
    (interaction : Interaction) (botMember : BotMember)
    (hfetch : interaction.guild.fetchMe = Except.ok botMember)
    (hcannot : (canCreateChannels (some interaction.guild) (some botMember)).canCreate = false) :
    (∀ first rest, interaction.values = first :: rest →
      ∃ retry, (handleRaidTypeSelection setupState interaction).shown =
        [Screen.channelSelection first none retry]) ∧
    (∀ state cs channels hosts i raidType,
      setupState interaction.userId = some state →
      state.selectedRaidTypes = some cs → state.channels = some channels →
      state.hosts = some hosts → cs.Nodup → (∀ c ∈ cs, c ≠ "") →
      cs[i]? = some raidType →
      (∀ nxt, cs[i + 1]? = some nxt →
        ∃ retry, (handleHostSelection setupState interaction raidType).shown =
          [Screen.channelSelection nxt none retry]) ∧
      (cs[i + 1]? = none →
        ∃ summary, (handleHostSelection setupState interaction raidType).shown =
          [Screen.confirmation summary] ∧ summary.map (fun row => row.1) = cs)) := by
  constructor
  · intro first rest hvalues
    obtain ⟨retry, hshow⟩ :=
      showChannelSelection_without_create interaction botMember first hfetch hcannot
    refine ⟨retry, ?_⟩
    unfold handleRaidTypeSelection thenChannelSelection
    simp only [hvalues, List.head?_cons, hshow]
    rfl
  · intro state cs channels hosts i raidType hstate hsel hch hhs hnd hne hi
    have hso : sessionOrEmpty setupState interaction.userId = state := by
      unfold sessionOrEmpty
      rw [hstate]
      rfl
    have hidx := jsIndexOf_of_nodup cs hnd i raidType hi
    constructor
    · intro nxt hnxt
      obtain ⟨retry, hshow⟩ :=
        showChannelSelection_without_create interaction botMember nxt hfetch hcannot
      refine ⟨retry, ?_⟩
      have hmem : nxt ∈ cs := by
        obtain ⟨hlt, hget⟩ := List.getElem?_eq_some_iff.mp hnxt
        exact hget ▸ List.getElem_mem hlt
      have htruthy : truthyString (some nxt) = true := by
        simp only [truthyString]
        simpa using hne nxt hmem
      unfold handleHostSelection
      simp only [hso, hsel, hidx, elementAt_succ, hnxt, htruthy, if_true]
      unfold thenChannelSelection
      simp only [hshow]
      rfl
    · intro hnone
      have htruthy : truthyString (none : Option String) = false := rfl
      obtain ⟨hlt, _⟩ := List.getElem?_eq_some_iff.mp hi
      obtain ⟨first, rest, hcs⟩ : ∃ first rest, cs = first :: rest := by
        cases cs with
        | nil => exact absurd hlt (by simp)
        | cons first rest => exact ⟨first, rest, rfl⟩
      unfold handleHostSelection
      simp only [hso, hsel, hidx, elementAt_succ, hnone, htruthy]
      unfold showSetupConfirmation
      simp only [sessionOrEmpty, mapSet, if_true, Option.getD_some, hsel, hch, hcs]
      refine ⟨_, rfl, ?_⟩
      rw [List.map_map]
      exact List.map_id _

/-- The wizard followed in order for `[BA, FT]`, where the bot cannot create channels,
visits channel selection and host selection of BA, then of FT, then the confirmation. -/
theorem demoFlow_visits_steps_in_order :
    screensOf noSessions (demoFlow demoGuild) =
      [[Screen.channelSelection "BA" none false],
       [Screen.hostSelection "BA" (getHostServersForRaidType "BA")],
       [Screen.channelSelection "FT" none false],
       [Screen.hostSelection "FT" (getHostServersForRaidType "FT")],
       [Screen.confirmation [("BA", some "123", ["CAFE"]), ("FT", some "456", ["CEM", "CAFE"])]]] := by
  decide

/-- C12, the divergence.  In a guild where the bot has Manage Channels and a role above
position 1, a category selection `[first, …]` stores the session and then shows no
screen: `showChannelSelection` throws the TypeError of the read of
`DEFAULT_SCHEDULE_CHANNEL_NAMES`, which `constants.js` does not export. -/
theorem category_selection_throws_where_bot_can_create (setupState : SetupState)
    (interaction : Interaction) (first : String) (rest : List String) (botMember : BotMember)
    (flags : List PermissionFlag)
    (hid : interaction.customId = "setup_select_raids")
    (hvalues : interaction.values = first :: rest)
    (hfetch : interaction.guild.fetchMe = Except.ok botMember)
    (hperm : botMember.permissions = some flags)
    (hmanage : PermissionFlag.ManageChannels ∈ flags)
    (hrank : 1 < botMember.highestRolePosition) :
    (handleSetupInteraction setupState interaction).shown = [] ∧
    (handleSetupInteraction setupState interaction).thrown =
      some (typeErrorReadingUndefined (toUpperCase first)) ∧
    ∃ state, (handleSetupInteraction setupState interaction).setupState interaction.userId =
        some state ∧ state.selectedRaidTypes = some (first :: rest) := by
  have hcan : (canCreateChannels (some interaction.guild) (some botMember)).canCreate = true := by
    unfold canCreateChannels
    simp only [hfetch, hperm]
    rw [if_neg (by simpa using hmanage), if_neg (by omega)]
  have hshow : showChannelSelection interaction (some first) =
      Except.error (typeErrorReadingUndefined (toUpperCase first)) := by
    unfold showChannelSelection
    simp only [hfetch, hcan, if_true]
    rfl
  unfold handleSetupInteraction
  simp only [hid, if_true]
  unfold handleRaidTypeSelection thenChannelSelection
  simp only [hvalues, List.head?_cons, hshow]
  refine ⟨rfl, rfl, ?_⟩
  simp [Handled.throwing, mapSet]

/-- C12, the divergence, in the guild `demoGuildCanCreate` for the selection
`[BA, FT]`. -/
theorem category_selection_throws_where_bot_can_create_witness :
    (handleSetupInteraction noSessions
      (demoInteraction demoGuildCanCreate "setup_select_raids" ["BA", "FT"])).shown = [] ∧
    (handleSetupInteraction noSessions
      (demoInteraction demoGuildCanCreate "setup_select_raids" ["BA", "FT"])).thrown =
      some (typeErrorReadingUndefined (toUpperCase "BA")) ∧
    ∃ state, (handleSetupInteraction noSessions
      (demoInteraction demoGuildCanCreate "setup_select_raids" ["BA", "FT"])).setupState
        (demoInteraction demoGuildCanCreate "setup_select_raids" ["BA", "FT"]).userId =
        some state ∧ state.selectedRaidTypes = some ("BA" :: ["FT"]) :=
  category_selection_throws_where_bot_can_create noSessions
    (demoInteraction demoGuildCanCreate "setup_select_raids" ["BA", "FT"]) "BA" ["FT"]
    (demoBot [PermissionFlag.ViewChannel, PermissionFlag.ManageChannels,
      PermissionFlag.SendMessages])
    [PermissionFlag.ViewChannel, PermissionFlag.ManageChannels, PermissionFlag.SendMessages]
    rfl rfl rfl rfl (by decide) (by decide)

/-! ## The default channel name and the concurrency limit -/

/-- Had `constants.js` exported a table of default names, line 182 would yield the entry
of the category when it is a non-empty string, and `na-forays-<category in lower case>`
otherwise. -/
theorem channelNameFor_with_table (table : JsObject String) (raidType : String) :
    channelNameFor (some table) none raidType =
      Except.ok (match objGet table (toUpperCase raidType) with
        | some name => if name ≠ "" then name else "na-forays-" ++ toLowerCase raidType
        | none => "na-forays-" ++ toLowerCase raidType) := by
  cases h : objGet table (toUpperCase raidType) with
  | none => simp [channelNameFor, truthyString, h]
  | some name =>
    by_cases hname : name = ""
    · simp [channelNameFor, truthyString, h, hname]
    · simp [channelNameFor, truthyString, h, hname]

/-- The concurrency limit is 3 when the environment variable is unset or does not parse
to a number, and when it parses to 0; otherwise it is the parsed number. -/
theorem CONCURRENCY_LIMIT_default (n : Int) :
    CONCURRENCY_LIMIT none = 3 ∧ CONCURRENCY_LIMIT (some 0) = 3 ∧
    (n ≠ 0 → CONCURRENCY_LIMIT (some n) = n) := by
  refine ⟨rfl, rfl, ?_⟩
  intro hn
  simp [CONCURRENCY_LIMIT, hn]

/-! ## Renderings of integers -/

theorem digitChar_value (k : Nat) (hk : k < 10) : (Nat.digitChar k).toNat - 48 = k := by
  interval_cases k <;> decide

theorem digitChar_isDigit (k : Nat) (hk : k < 10) : (Nat.digitChar k).isDigit = true := by
  interval_cases k <;> decide

theorem toDigitsCore_foldl (fuel : Nat) : ∀ (n : Nat) (ds : List Char), n < fuel →
    (Nat.toDigitsCore 10 fuel n ds).foldl (fun acc c => 10 * acc + (c.toNat - 48)) 0 =
      ds.foldl (fun acc c => 10 * acc + (c.toNat - 48)) n := by
  induction fuel with
  | zero => intro n ds h; omega
  | succ fuel ih =>
    intro n ds h
    unfold Nat.toDigitsCore
    simp only
    split
    · rename_i h0
      simp only [List.foldl_cons, Nat.mul_zero, Nat.zero_add]
      rw [digitChar_value _ (Nat.mod_lt _ (by decide))]
      congr 1
      omega
    · rename_i h0
      rw [ih (n / 10) _ (by omega)]
      simp only [List.foldl_cons]
      rw [digitChar_value _ (Nat.mod_lt _ (by decide))]
      congr 1
      omega

theorem toDigitsCore_isDigit (fuel : Nat) : ∀ (n : Nat) (ds : List Char),
    ∀ c ∈ Nat.toDigitsCore 10 fuel n ds, c.isDigit = true ∨ c ∈ ds := by
  induction fuel with
  | zero => intro n ds c hc; exact Or.inr hc
  | succ fuel ih =>
    intro n ds c hc
    unfold Nat.toDigitsCore at hc
    simp only at hc
    split at hc
    · rcases List.mem_cons.mp hc with rfl | h
      · exact Or.inl (digitChar_isDigit _ (Nat.mod_lt _ (by decide)))
      · exact Or.inr h
    · rcases ih _ _ c hc with h | h
      · exact Or.inl h
      · rcases List.mem_cons.mp h with rfl | h
        · exact Or.inl (digitChar_isDigit _ (Nat.mod_lt _ (by decide)))
        · exact Or.inr h

theorem toDigitsCore_ne_nil (fuel : Nat) : ∀ (n : Nat) (ds : List Char),
    ds ≠ [] ∨ 0 < fuel → Nat.toDigitsCore 10 fuel n ds ≠ [] := by
  induction fuel with
  | zero =>
    intro n ds h
    rcases h with h | h
    · simpa [Nat.toDigitsCore] using h
    · omega
  | succ fuel ih =>
    intro n ds _
    unfold Nat.toDigitsCore
    simp only
    split
    · simp
    · exact ih _ _ (Or.inl (by simp))

theorem decimalValue_repr (n : Nat) : decimalValue (Nat.repr n).data = n := by
  unfold decimalValue Nat.repr Nat.toDigits
  simp only [List.asString]
  rw [toDigitsCore_foldl (n + 1) n [] (by omega)]
  rfl

theorem repr_isDigit (n : Nat) : ∀ c ∈ (Nat.repr n).data, c.isDigit = true := by
  intro c hc
  unfold Nat.repr Nat.toDigits at hc
  simp only [List.asString] at hc
  rcases toDigitsCore_isDigit _ _ _ c hc with h | h
  · exact h
  · cases h

theorem repr_ne_nil (n : Nat) : (Nat.repr n).data ≠ [] := by
  unfold Nat.repr Nat.toDigits
  simp only [List.asString]
  exact toDigitsCore_ne_nil _ _ _ (Or.inr (by omega))

theorem repr_injective (m n : Nat) (h : Nat.repr m = Nat.repr n) : m = n := by
  rw [← decimalValue_repr m, ← decimalValue_repr n, h]

/-- The rendering of an integer in a template literal determines the integer. -/
theorem toString_int_injective (a b : Int) (h : toString a = toString b) : a = b := by
  have hdata := congrArg String.data h
  cases a with
  | ofNat m =>
    cases b with
    | ofNat n =>
      have : Nat.repr m = Nat.repr n := h
      rw [repr_injective m n this]
    | negSucc n =>
      exfalso
      have h1 : (Nat.repr m).data = '-' :: (Nat.repr (n + 1)).data := hdata
      have hmem : '-' ∈ (Nat.repr m).data := by rw [h1]; exact List.mem_cons_self _ _
      exact absurd (repr_isDigit m _ hmem) (by decide)
  | negSucc m =>
    cases b with
    | ofNat n =>
      exfalso
      have h1 : '-' :: (Nat.repr (m + 1)).data = (Nat.repr n).data := hdata
      have hmem : '-' ∈ (Nat.repr n).data := by rw [← h1]; exact List.mem_cons_self _ _
      exact absurd (repr_isDigit n _ hmem) (by decide)
    | negSucc n =>
      have h1 : '-' :: (Nat.repr (m + 1)).data = '-' :: (Nat.repr (n + 1)).data := hdata
      have h2 : (Nat.repr (m + 1)).data = (Nat.repr (n + 1)).data := List.tail_eq_of_cons_eq h1
      have h3 : Nat.repr (m + 1) = Nat.repr (n + 1) := String.ext h2
      have := repr_injective _ _ h3
      have hmn : m = n := by omega
      rw [hmn]

/-- The rendering of an integer contains no `|`. -/
theorem toString_int_no_bar (a : Int) : '|' ∉ (toString a).data := by
  intro hmem
  cases a with
  | ofNat m =>
    have : '|' ∈ (Nat.repr m).data := hmem
    exact absurd (repr_isDigit m _ this) (by decide)
  | negSucc m =>
    have : '|' ∈ '-' :: (Nat.repr (m + 1)).data := hmem
    rcases List.mem_cons.mp this with h | h
    · exact absurd h (by decide)
    · exact absurd (repr_isDigit _ _ h) (by decide)

/-! ## The canonical string determines the tuples -/

/-- Two fields without separator, each followed by the separator, are read back
unambiguously. -/
theorem split_at_separator (sep : Char) : ∀ (a b x y : List Char), sep ∉ a → sep ∉ b →
    a ++ sep :: x = b ++ sep :: y → a = b ∧ x = y := by
  intro a
  induction a with
  | nil =>
    intro b x y _ hb h
    cases b with
    | nil => exact ⟨rfl, by simpa using h⟩
    | cons c b =>
      exfalso
      simp only [List.nil_append, List.cons_append, List.cons.injEq] at h
      exact hb (h.1 ▸ List.mem_cons_self _ _)
  | cons c a ih =>
    intro b x y ha hb h
    cases b with
    | nil =>
      exfalso
      simp only [List.nil_append, List.cons_append, List.cons.injEq] at h
      exact ha (h.1 ▸ List.mem_cons_self _ _)
    | cons d b =>
      simp only [List.cons_append, List.cons.injEq] at h
      obtain ⟨hab, hxy⟩ := ih b x y (fun hm => ha (List.mem_cons_of_mem _ hm))
        (fun hm => hb (List.mem_cons_of_mem _ hm)) h.2
      exact ⟨by rw [h.1, hab], hxy⟩

theorem runContent_data (run : Run) (now : Int) (rest : List Char) :
    (runContent run now).data ++ rest =
      run.ID.data ++ '|' :: (run.RunType.data ++ '|' :: ((toString run.Start).data ++
        '|' :: ((if isNew run now then "NEW" else "").data ++ '|' :: rest))) := by
  simp [runContent, String.data_append, List.append_assoc]

theorem marker_injective (a b : Bool)
    (h : (if a then "NEW" else "").data = (if b then "NEW" else "").data) : a = b := by
  cases a <;> cases b <;> first | rfl | (exact absurd h (by decide))

theorem marker_no_bar (a : Bool) : '|' ∉ (if a then "NEW" else "").data := by
  cases a <;> decide

/-- The pieces appended per run are read back unambiguously when neither `ID` nor `Type`
contains the separator. -/
theorem runContents_injective (now : Int) : ∀ (runs1 runs2 : List Run),
    (∀ r ∈ runs1, '|' ∉ r.ID.data ∧ '|' ∉ r.RunType.data) →
    (∀ r ∈ runs2, '|' ∉ r.ID.data ∧ '|' ∉ r.RunType.data) →
    (runs1.map (fun r => (runContent r now).data)).flatten =
      (runs2.map (fun r => (runContent r now).data)).flatten →
    runs1.map (canonicalTuple now) = runs2.map (canonicalTuple now) := by
  intro runs1
  induction runs1 with
  | nil =>
    intro runs2 _ _ h
    cases runs2 with
    | nil => rfl
    | cons r rs =>
      exfalso
      simp only [List.map_nil, List.flatten_nil, List.map_cons, List.flatten_cons] at h
      rw [runContent_data] at h
      have := congrArg List.length h
      simp at this
      omega
  | cons r1 rs1 ih =>
    intro runs2 h1 h2 h
    cases runs2 with
    | nil =>
      exfalso
      simp only [List.map_nil, List.flatten_nil, List.map_cons, List.flatten_cons] at h
      rw [runContent_data] at h
      have := congrArg List.length h
      simp at this
    | cons r2 rs2 =>
      simp only [List.map_cons, List.flatten_cons] at h
      rw [runContent_data, runContent_data] at h
      have hr1 := h1 r1 (List.mem_cons_self _ _)
      have hr2 := h2 r2 (List.mem_cons_self _ _)
      obtain ⟨hID, h⟩ := split_at_separator '|' _ _ _ _ hr1.1 hr2.1 h
      obtain ⟨hType, h⟩ := split_at_separator '|' _ _ _ _ hr1.2 hr2.2 h
      obtain ⟨hStart, h⟩ := split_at_separator '|' _ _ _ _ (toString_int_no_bar _)
        (toString_int_no_bar _) h
      obtain ⟨hNew, h⟩ := split_at_separator '|' _ _ _ _ (marker_no_bar _) (marker_no_bar _) h
      have hrest := ih rs2 (fun r hr => h1 r (List.mem_cons_of_mem _ hr))
        (fun r hr => h2 r (List.mem_cons_of_mem _ hr)) h
      simp only [List.map_cons, hrest, List.cons.injEq, and_true]
      simp only [canonicalTuple, Prod.mk.injEq]
      exact ⟨String.ext hID, String.ext hType,
        toString_int_injective _ _ (String.ext hStart), marker_injective _ _ hNew⟩

/-- C21 (differing run data gives a differing per-source hash input).  For a fixed source
name and instant and two run lists in which no `ID` and no `Type` contains the character
`|` (the rendering of `Start`, an integer, never does), the content strings that
`generateServerHash` passes to the hash function are equal exactly when the lists have
the same canonical tuples (ID, Type, Start, is-new status) in the same order; so lists
that differ in length or in a tuple of some run give different content strings. -/
theorem differing_runs_give_differing_hash_input (serverName : String)
    (runs1 runs2 : List Run) (currentTime : Int)
    (h1 : ∀ r ∈ runs1, '|' ∉ r.ID.data ∧ '|' ∉ r.RunType.data)
    (h2 : ∀ r ∈ runs2, '|' ∉ r.ID.data ∧ '|' ∉ r.RunType.data) :
    (∀ n : Int, '|' ∉ (toString n).data) ∧
    (serverContentString serverName runs1 currentTime =
        serverContentString serverName runs2 currentTime ↔
      runs1.map (canonicalTuple currentTime) = runs2.map (canonicalTuple currentTime)) ∧
    (runs1.length ≠ runs2.length →
      serverContentString serverName runs1 currentTime ≠
        serverContentString serverName runs2 currentTime) ∧
    (∀ (i : Nat) (r1 r2 : Run), runs1[i]? = some r1 → runs2[i]? = some r2 →
      canonicalTuple currentTime r1 ≠ canonicalTuple currentTime r2 →
      serverContentString serverName runs1 currentTime ≠
        serverContentString serverName runs2 currentTime) := by
  have hiff : serverContentString serverName runs1 currentTime =
        serverContentString serverName runs2 currentTime ↔
      runs1.map (canonicalTuple currentTime) = runs2.map (canonicalTuple currentTime) := by
    constructor
    · intro h
      have hd := congrArg String.data h
      unfold serverContentString at hd
      rw [foldl_append_data, foldl_append_data] at hd
      exact runContents_injective currentTime runs1 runs2 h1 h2 (List.append_cancel_left hd)
    · exact serverContentString_congr serverName currentTime runs1 runs2
  refine ⟨toString_int_no_bar, hiff, ?_, ?_⟩
  · intro hlen h
    have := congrArg List.length (hiff.mp h)
    simp only [List.length_map] at this
    exact hlen this
  · intro i r1 r2 hi1 hi2 hne h
    have hmap := hiff.mp h
    have e1 : (runs1.map (canonicalTuple currentTime))[i]? =
        some (canonicalTuple currentTime r1) := by simp [hi1]
    have e2 : (runs2.map (canonicalTuple currentTime))[i]? =
        some (canonicalTuple currentTime r2) := by simp [hi2]
    rw [hmap, e2] at e1
    exact hne (Option.some.inj e1).symm

/-- C21 for the run `demoRunNew` against the same run an hour later: the content strings
differ. -/
theorem differing_runs_give_differing_hash_input_witness :
    serverContentString "Host A" [demoRunNew] 200000000 ≠
      serverContentString "Host A" [{ demoRunNew with Start := 303600000 }] 200000000 :=
  (differing_runs_give_differing_hash_input "Host A" [demoRunNew]
    [{ demoRunNew with Start := 303600000 }] 200000000
    (by decide) (by decide)).2.2.2 0 demoRunNew { demoRunNew with Start := 303600000 }
    rfl rfl (by decide)

/-! ## The category content string and the sequence of source hashes -/

theorem categoryContentString_data (hash : String → String) (g : List (String × List Run))
    (raidType : String) (now : Int) :
    (categoryContentString hash g raidType now).data =
      (raidType ++ "|").data ++
        ((g.map (fun e => generateServerHash hash e.1 e.2 now)).map String.data).flatten := by
  unfold categoryContentString
  rw [foldl_append_data (fun e => generateServerHash hash e.1 e.2 now) g, List.map_map]
  rfl

/-- Strings of which none is empty and none is a proper initial segment of another are
read back unambiguously from their concatenation. -/
theorem flatten_injective_of_prefix_free (code : String → Prop)
    (hne : ∀ s, code s → s ≠ "")
    (hpf : ∀ s t, code s → code t → s.data <+: t.data → s = t) :
    ∀ (xs ys : List String), (∀ x ∈ xs, code x) → (∀ y ∈ ys, code y) →
      (xs.map String.data).flatten = (ys.map String.data).flatten → xs = ys := by
  intro xs
  induction xs with
  | nil =>
    intro ys _ hys h
    cases ys with
    | nil => rfl
    | cons y ys =>
      exfalso
      simp only [List.map_nil, List.flatten_nil, List.map_cons, List.flatten_cons] at h
      have hy : y.data = [] := (List.append_eq_nil.mp h.symm).1
      exact hne y (hys y (List.mem_cons_self _ _)) (String.ext hy)
  | cons x xs ih =>
    intro ys hxs hys h
    cases ys with
    | nil =>
      exfalso
      simp only [List.map_nil, List.flatten_nil, List.map_cons, List.flatten_cons] at h
      have hx : x.data = [] := (List.append_eq_nil.mp h).1
      exact hne x (hxs x (List.mem_cons_self _ _)) (String.ext hx)
    | cons y ys =>
      simp only [List.map_cons, List.flatten_cons] at h
      have hx := hxs x (List.mem_cons_self _ _)
      have hy := hys y (List.mem_cons_self _ _)
      have hpx : x.data <+: y.data ++ (ys.map String.data).flatten := by
        rw [← h]
        exact ⟨_, rfl⟩
      have hpy : y.data <+: y.data ++ (ys.map String.data).flatten := ⟨_, rfl⟩
      have hxy : x = y := by
        rcases Nat.le_total x.data.length y.data.length with hle | hle
        · exact hpf x y hx hy (List.prefix_of_prefix_length_le hpx hpy hle)
        · exact (hpf y x hy hx (List.prefix_of_prefix_length_le hpy hpx hle)).symm
      subst hxy
      have hrest := ih ys (fun a ha => hxs a (List.mem_cons_of_mem _ ha))
        (fun a ha => hys a (List.mem_cons_of_mem _ ha)) (List.append_cancel_left h)
      rw [hrest]

/-- Strings of one length: none is a proper initial segment of another. -/
theorem prefix_free_of_fixed_length (hash : String → String)
    (hlen : ∀ s t, (hash s).length = (hash t).length) :
    ∀ s t, (hash s).data <+: (hash t).data → hash s = hash t := by
  intro s t hp
  have h : (hash s).data.length = (hash t).data.length := hlen s t
  exact String.ext (hp.eq_of_length h)

/-- For a hash function none of whose values is empty or a proper initial segment of
another value (as when all values have one length, which a decimal rendering does not
give), a fixed category and a fixed instant, the strings that `generateContentHash` passes
to the final hash are equal exactly when the ordered sequences of per-source hash values
are equal. -/
theorem category_hash_input_of_uniquely_decodable (hashCodeSchedules : String → String)
    (groupedRuns1 groupedRuns2 : List (String × List Run)) (raidType : String)
    (currentTime : Int)
    (hne : ∀ s, hashCodeSchedules s ≠ "")
    (hpf : ∀ s t, (hashCodeSchedules s).data <+: (hashCodeSchedules t).data →
      hashCodeSchedules s = hashCodeSchedules t) :
    (categoryContentString hashCodeSchedules groupedRuns1 raidType currentTime =
        categoryContentString hashCodeSchedules groupedRuns2 raidType currentTime ↔
      groupedRuns1.map (fun e => generateServerHash hashCodeSchedules e.1 e.2 currentTime) =
        groupedRuns2.map
          (fun e => generateServerHash hashCodeSchedules e.1 e.2 currentTime)) ∧
    (groupedRuns1.map (fun e => generateServerHash hashCodeSchedules e.1 e.2 currentTime) ≠
        groupedRuns2.map
          (fun e => generateServerHash hashCodeSchedules e.1 e.2 currentTime) →
      categoryContentString hashCodeSchedules groupedRuns1 raidType currentTime ≠
        categoryContentString hashCodeSchedules groupedRuns2 raidType currentTime) := by
  have hiff : categoryContentString hashCodeSchedules groupedRuns1 raidType currentTime =
        categoryContentString hashCodeSchedules groupedRuns2 raidType currentTime ↔
      groupedRuns1.map (fun e => generateServerHash hashCodeSchedules e.1 e.2 currentTime) =
        groupedRuns2.map
          (fun e => generateServerHash hashCodeSchedules e.1 e.2 currentTime) := by
    constructor
    · intro h
      have hd := congrArg String.data h
      rw [categoryContentString_data, categoryContentString_data] at hd
      refine flatten_injective_of_prefix_free (fun v => ∃ s, v = hashCodeSchedules s)
        ?_ ?_ _ _ ?_ ?_ (List.append_cancel_left hd)
      · rintro v ⟨s, rfl⟩
        exact hne s
      · rintro v w ⟨s, rfl⟩ ⟨t, rfl⟩ hp
        exact hpf s t hp
      · intro v hv
        obtain ⟨e, _, rfl⟩ := List.mem_map.mp hv
        exact ⟨_, rfl⟩
      · intro v hv
        obtain ⟨e, _, rfl⟩ := List.mem_map.mp hv
        exact ⟨_, rfl⟩
    · intro h
      apply String.ext
      rw [categoryContentString_data, categoryContentString_data, h]
  exact ⟨hiff, fun hne2 h => hne2 (hiff.mp h)⟩

/-- Two category content strings with the same label are equal exactly when the
concatenations of their per-source hash values are equal. -/
theorem categoryContentString_eq_iff (hash : String → String)
    (g1 g2 : List (String × List Run)) (raidType : String) (now : Int) :
    categoryContentString hash g1 raidType now = categoryContentString hash g2 raidType now ↔
      ((sourceHashes hash g1 now).map String.data).flatten =
        ((sourceHashes hash g2 now).map String.data).flatten := by
  constructor
  · intro h
    have hd := congrArg String.data h
    rw [categoryContentString_data, categoryContentString_data] at hd
    exact List.append_cancel_left hd
  · intro h
    apply String.ext
    rw [categoryContentString_data, categoryContentString_data]
    exact congrArg _ h

/-- Strings whose lengths are known position by position are read back unambiguously from
their concatenation. -/
theorem flatten_injective_of_lengths :
    ∀ (xs ys : List String), xs.map String.length = ys.map String.length →
      (xs.map String.data).flatten = (ys.map String.data).flatten → xs = ys := by
  intro xs
  induction xs with
  | nil =>
    intro ys hl _
    cases ys with
    | nil => rfl
    | cons y ys => cases hl
  | cons x xs ih =>
    intro ys hl h
    cases ys with
    | nil => cases hl
    | cons y ys =>
      simp only [List.map_cons, List.cons.injEq] at hl
      simp only [List.map_cons, List.flatten_cons] at h
      obtain ⟨hx, hrest⟩ := List.append_inj h hl.1
      rw [String.ext hx, ih ys hl.2 hrest]

/-- C22, amended (differing per-source content gives a differing category-level hash
input, where the two sequences of hash values line up).  For every hash function, a fixed
category and a fixed instant: inputs with the same ordered sequence of per-source hash
values give the same string to the final hash of `generateContentHash`.  Inputs whose
sequences differ give different strings when the two sequences have equally many values
and the values at each position have equal lengths; when the sequences differ in one
position only (one source's hash value changed, the values before and after it being the
same); and when one sequence is the other with one non-empty value left out (a source
added or removed). -/
theorem category_hash_input_determines_source_hashes (hashCodeSchedules : String → String)
    (groupedRuns1 groupedRuns2 : List (String × List Run)) (raidType : String)
    (currentTime : Int) :
    (sourceHashes hashCodeSchedules groupedRuns1 currentTime =
        sourceHashes hashCodeSchedules groupedRuns2 currentTime →
      categoryContentString hashCodeSchedules groupedRuns1 raidType currentTime =
        categoryContentString hashCodeSchedules groupedRuns2 raidType currentTime) ∧
    ((sourceHashes hashCodeSchedules groupedRuns1 currentTime).map String.length =
        (sourceHashes hashCodeSchedules groupedRuns2 currentTime).map String.length →
      sourceHashes hashCodeSchedules groupedRuns1 currentTime ≠
        sourceHashes hashCodeSchedules groupedRuns2 currentTime →
      categoryContentString hashCodeSchedules groupedRuns1 raidType currentTime ≠
        categoryContentString hashCodeSchedules groupedRuns2 raidType currentTime) ∧
    (∀ before after value1 value2,
      sourceHashes hashCodeSchedules groupedRuns1 currentTime = before ++ value1 :: after →
      sourceHashes hashCodeSchedules groupedRuns2 currentTime = before ++ value2 :: after →
      value1 ≠ value2 →
      categoryContentString hashCodeSchedules groupedRuns1 raidType currentTime ≠
        categoryContentString hashCodeSchedules groupedRuns2 raidType currentTime) ∧
    (∀ before after value,
      sourceHashes hashCodeSchedules groupedRuns1 currentTime = before ++ value :: after →
      sourceHashes hashCodeSchedules groupedRuns2 currentTime = before ++ after →
      value ≠ "" →
      categoryContentString hashCodeSchedules groupedRuns1 raidType currentTime ≠
        categoryContentString hashCodeSchedules groupedRuns2 raidType currentTime) := by
  refine ⟨?_, ?_, ?_, ?_⟩
  · intro h
    rw [categoryContentString_eq_iff, h]
  · intro hl hne h
    rw [categoryContentString_eq_iff] at h
    exact hne (flatten_injective_of_lengths _ _ hl h)
  · intro before after value1 value2 h1 h2 hne h
    rw [categoryContentString_eq_iff, h1, h2] at h
    simp only [List.map_append, List.map_cons, List.flatten_append, List.flatten_cons] at h
    exact hne (String.ext (List.append_cancel_right (List.append_cancel_left h)))
  · intro before after value h1 h2 hne h
    rw [categoryContentString_eq_iff, h1, h2] at h
    simp only [List.map_append, List.map_cons, List.flatten_append, List.flatten_cons] at h
    have h3 := List.append_cancel_left h
    have h4 : value.data ++ (after.map String.data).flatten =
        [] ++ (after.map String.data).flatten := h3
    exact hne (String.ext (List.append_cancel_right h4))

/-- C22 fails for hash values of different lengths: with the 32-bit polynomial hash
rendered in decimal, the sources `ghddef`, `hca` and the sources `cfabbhc`, `ag` (all
without runs) have different sequences of hash values (`-3538184`, `3196468` against
`-353818431`, `96468`) and the same string `BA|-35381843196468`. -/
theorem category_hash_input_counterexample :
    [("ghddef", ([] : List Run)), ("hca", [])].map
        (fun e => generateServerHash hashCode32 e.1 e.2 0) = ["-3538184", "3196468"] ∧
    [("cfabbhc", ([] : List Run)), ("ag", [])].map
        (fun e => generateServerHash hashCode32 e.1 e.2 0) = ["-353818431", "96468"] ∧
    categoryContentString hashCode32 [("ghddef", []), ("hca", [])] "BA" 0 =
      "BA|-35381843196468" ∧
    categoryContentString hashCode32 [("cfabbhc", []), ("ag", [])] "BA" 0 =
      "BA|-35381843196468" := by
  decide

/-- The parity hash, whose values have length 1, is uniquely decodable: two sources of
different parity give different strings. -/
theorem category_hash_input_of_uniquely_decodable_example :
    categoryContentString demoParityHash [("Host A", [])] "BA" 0 ≠
      categoryContentString demoParityHash [("Host AB", [])] "BA" 0 :=
  (category_hash_input_of_uniquely_decodable demoParityHash [("Host A", [])]
    [("Host AB", [])] "BA" 0
    (fun s => by unfold demoParityHash; split <;> decide)
    (prefix_free_of_fixed_length demoParityHash
      (fun s t => by unfold demoParityHash; split <;> split <;> rfl))).2 (by decide)

/-- C22, amended, for the 32-bit polynomial hash and two sources: the run of `Host A`
crosses the 30-hour boundary, its hash value changes from -1522233256 to -1936830304, the
value 320080703 of `Host B` stays, and the two strings differ. -/
theorem category_hash_input_determines_source_hashes_witness :
    sourceHashes hashCode32 [("Host A", [demoRunNew]), ("Host B", [demoRunOld])] 200000000 =
      ["-1522233256", "320080703"] ∧
    sourceHashes hashCode32 [("Host A", [demoRunOld]), ("Host B", [demoRunOld])] 200000000 =
      ["-1936830304", "320080703"] ∧
    categoryContentString hashCode32 [("Host A", [demoRunNew]), ("Host B", [demoRunOld])] "BA"
        200000000 ≠
      categoryContentString hashCode32 [("Host A", [demoRunOld]), ("Host B", [demoRunOld])] "BA"
        200000000 :=
  ⟨by decide, by decide,
   (category_hash_input_determines_source_hashes hashCode32 [("Host A", [demoRunNew]), ("Host B", [demoRunOld])]
      [("Host A", [demoRunOld]), ("Host B", [demoRunOld])] "BA" 200000000).2.2.1
      [] ["320080703"] "-1522233256" "-1936830304" (by decide) (by decide) (by decide)⟩

/-! ## The sections of a server container -/

theorem objGet_eq_none_iff {β : Type} (o : JsObject β) (k : String) :
    objGet o k = none ↔ k ∉ o.map (fun e => e.1) := by
  unfold objGet
  rw [List.lookup_eq_none_iff]
  constructor
  · intro h hmem
    obtain ⟨e, he, hk⟩ := List.mem_map.mp hmem
    have := h e he
    simp [hk] at this
  · intro h e he
    have hne : e.1 ≠ k := fun hk => h (List.mem_map.mpr ⟨e, he, hk⟩)
    simpa using Ne.symm hne

theorem keys_objSet {β : Type} (o : JsObject β) (k : String) (v : β) :
    (objSet o k v).map (fun e => e.1) =
      if k ∈ o.map (fun e => e.1) then o.map (fun e => e.1)
      else o.map (fun e => e.1) ++ [k] := by
  unfold objSet
  by_cases hany : o.any (fun e => e.1 == k) = true
  · have hmem : k ∈ o.map (fun e => e.1) := by
      obtain ⟨e, he, hek⟩ := List.any_eq_true.mp hany
      exact List.mem_map.mpr ⟨e, he, by simpa using hek⟩
    rw [if_pos hany, if_pos hmem, List.map_map]
    apply List.map_congr_left
    intro e _
    by_cases hk : e.1 = k
    · simp [hk]
    · simp [hk]
  · have hmem : k ∉ o.map (fun e => e.1) := by
      intro hm
      obtain ⟨e, he, hk⟩ := List.mem_map.mp hm
      exact hany (List.any_eq_true.mpr ⟨e, he, by simpa using hk⟩)
    rw [if_neg hany, if_neg hmem]
    simp

/-- Where no run type is the name of an inherited property, the grouping loop returns an
object whose keys are those of the start object and the run types, without repetition,
and under each key the runs of that type in fetch order, after those of the start
object. -/
theorem groupRunsByType_spec : ∀ (runs : List Run) (acc : JsObject (List Run)),
    (acc.map (fun e => e.1)).Nodup →
    (∀ run ∈ runs, runTypeKey run ∉ inheritedPropertyNames) →
    ∃ g, groupRunsByType runs acc = Except.ok g ∧
      (g.map (fun e => e.1)).Nodup ∧
      (∀ t, t ∈ g.map (fun e => e.1) ↔
        t ∈ acc.map (fun e => e.1) ∨ ∃ run ∈ runs, runTypeKey run = t) ∧
      (∀ t, (objGet g t).getD [] =
        (objGet acc t).getD [] ++ runs.filter (fun run => decide (runTypeKey run = t))) := by
  intro runs
  induction runs with
  | nil =>
    intro acc hnd _
    exact ⟨acc, rfl, hnd, by simp, by simp⟩
  | cons run rest ih =>
    intro acc hnd hsafe
    have hrest : ∀ r ∈ rest, runTypeKey r ∉ inheritedPropertyNames :=
      fun r hr => hsafe r (List.mem_cons_of_mem _ hr)
    have hrun := hsafe run (List.mem_cons_self _ _)
    cases hget : objGet acc (runTypeKey run) with
    | some typeRuns =>
      have hmem : runTypeKey run ∈ acc.map (fun e => e.1) := by
        by_contra hn
        rw [(objGet_eq_none_iff acc _).mpr hn] at hget
        cases hget
      have hkeys := keys_objSet acc (runTypeKey run) (typeRuns ++ [run])
      rw [if_pos hmem] at hkeys
      obtain ⟨g, hg, hgnd, hgmem, hgget⟩ :=
        ih (objSet acc (runTypeKey run) (typeRuns ++ [run])) (by rw [hkeys]; exact hnd) hrest
      refine ⟨g, ?_, hgnd, ?_, ?_⟩
      · simp only [groupRunsByType, hget]
        exact hg
      · intro t
        rw [hgmem t, hkeys]
        constructor
        · rintro (h | ⟨r, hr, hrt⟩)
          · exact Or.inl h
          · exact Or.inr ⟨r, List.mem_cons_of_mem _ hr, hrt⟩
        · rintro (h | ⟨r, hr, hrt⟩)
          · exact Or.inl h
          · rcases List.mem_cons.mp hr with rfl | hr
            · exact Or.inl (hrt ▸ hmem)
            · exact Or.inr ⟨r, hr, hrt⟩
      · intro t
        rw [hgget t, objGet_objSet]
        by_cases ht : t = runTypeKey run
        · subst ht
          simp [hget, List.filter_cons]
        · have ht2 : ¬ runTypeKey run = t := fun h => ht h.symm
          simp [ht, ht2, List.filter_cons]
    | none =>
      have hmem : runTypeKey run ∉ acc.map (fun e => e.1) := (objGet_eq_none_iff acc _).mp hget
      have hkeys := keys_objSet acc (runTypeKey run) [run]
      rw [if_neg hmem] at hkeys
      obtain ⟨g, hg, hgnd, hgmem, hgget⟩ :=
        ih (objSet acc (runTypeKey run) [run])
          (by
            rw [hkeys]
            exact List.Nodup.append hnd (List.nodup_singleton _)
              (by
                intro a ha hb
                rw [List.mem_singleton] at hb
                exact hmem (hb ▸ ha)))
          hrest
      refine ⟨g, ?_, hgnd, ?_, ?_⟩
      · simp only [groupRunsByType, hget, if_neg hrun]
        exact hg
      · intro t
        rw [hgmem t, hkeys]
        constructor
        · rintro (h | ⟨r, hr, hrt⟩)
          · rcases List.mem_append.mp h with h | h
            · exact Or.inl h
            · exact Or.inr ⟨run, List.mem_cons_self _ _, (List.mem_singleton.mp h).symm⟩
          · exact Or.inr ⟨r, List.mem_cons_of_mem _ hr, hrt⟩
        · rintro (h | ⟨r, hr, hrt⟩)
          · exact Or.inl (List.mem_append_left _ h)
          · rcases List.mem_cons.mp hr with rfl | hr
            · exact Or.inl (List.mem_append_right _ (List.mem_singleton.mpr hrt.symm))
            · exact Or.inr ⟨r, hr, hrt⟩
      · intro t
        rw [hgget t, objGet_objSet]
        by_cases ht : t = runTypeKey run
        · subst ht
          simp [hget, List.filter_cons]
        · have ht2 : ¬ runTypeKey run = t := fun h => ht h.symm
          simp [ht, ht2, List.filter_cons]

/-- `Object.keys` lists every key once. -/
theorem objectKeys_perm {α : Type} (o : JsObject α) :
    (objectKeys o).Perm (o.map (fun e => e.1)) := by
  unfold objectKeys
  simp only
  exact ((List.perm_insertionSort _ _).append_right _).trans (List.filter_append_perm _ _)

theorem jsIndexOf_eq_neg_one_iff (xs : List String) (x : String) :
    jsIndexOf xs x = -1 ↔ x ∉ xs := by
  unfold jsIndexOf
  by_cases h : x ∈ xs
  · rw [if_pos h]
    constructor
    · intro h1
      have : (0 : Int) ≤ (xs.indexOf x : Nat) := Int.ofNat_nonneg _
      omega
    · intro h1
      exact absurd h h1
  · simp [h]

theorem jsIndexOf_of_mem (xs : List String) (x : String) (h : x ∈ xs) :
    jsIndexOf xs x = (xs.indexOf x : Nat) := by
  unfold jsIndexOf
  rw [if_pos h]

/-- The comparison function puts `a` before or level with `b` in exactly three cases. -/
theorem compareRunTypes_le_iff (localeCompare : String → String → Int)
    (priorityOrder : List String) (a b : String) :
    compareRunTypes localeCompare priorityOrder a b ≤ 0 ↔
      (a ∈ priorityOrder ∧ b ∈ priorityOrder ∧
        priorityOrder.indexOf a ≤ priorityOrder.indexOf b) ∨
      (a ∈ priorityOrder ∧ b ∉ priorityOrder) ∨
      (a ∉ priorityOrder ∧ b ∉ priorityOrder ∧ localeCompare a b ≤ 0) := by
  unfold compareRunTypes
  simp only [ne_eq, jsIndexOf_eq_neg_one_iff, not_not]
  by_cases ha : a ∈ priorityOrder <;> by_cases hb : b ∈ priorityOrder
  · simp only [ha, hb, and_self, if_true, true_and, not_true, and_false, false_and, or_false]
    rw [jsIndexOf_of_mem _ _ ha, jsIndexOf_of_mem _ _ hb]
    omega
  · simp [ha, hb]
  · simp [ha, hb]
  · simp [ha, hb]

/-- For a consistent `localeCompare`, `sortedRunTypes` is a permutation of the keys in
which every key stands before or level with each later one. -/
theorem sortedRunTypes_sorted (localeCompare : String → String → Int) (raidType : String)
    (runsByType : JsObject (List Run))
    (htotal : ∀ a b, localeCompare a b ≤ 0 ∨ localeCompare b a ≤ 0)
    (htrans : ∀ a b c, localeCompare a b ≤ 0 → localeCompare b c ≤ 0 → localeCompare a c ≤ 0) :
    (sortedRunTypes localeCompare raidType runsByType).Perm (runsByType.map (fun e => e.1)) ∧
    (sortedRunTypes localeCompare raidType runsByType).Pairwise
      (fun a b => compareRunTypes localeCompare (getRunTypePriority raidType) a b ≤ 0) := by
  unfold sortedRunTypes arraySort
  refine ⟨(List.perm_insertionSort _ _).trans (objectKeys_perm runsByType), ?_⟩
  haveI : IsTotal String
      (fun a b => compareRunTypes localeCompare (getRunTypePriority raidType) a b ≤ 0) :=
    ⟨by
      intro a b
      simp only [compareRunTypes_le_iff]
      by_cases ha : a ∈ getRunTypePriority raidType <;>
        by_cases hb : b ∈ getRunTypePriority raidType
      · rcases Nat.le_total ((getRunTypePriority raidType).indexOf a)
          ((getRunTypePriority raidType).indexOf b) with h | h
        · exact Or.inl (Or.inl ⟨ha, hb, h⟩)
        · exact Or.inr (Or.inl ⟨hb, ha, h⟩)
      · exact Or.inl (Or.inr (Or.inl ⟨ha, hb⟩))
      · exact Or.inr (Or.inr (Or.inl ⟨hb, ha⟩))
      · rcases htotal a b with h | h
        · exact Or.inl (Or.inr (Or.inr ⟨ha, hb, h⟩))
        · exact Or.inr (Or.inr (Or.inr ⟨hb, ha, h⟩))⟩
  haveI : IsTrans String
      (fun a b => compareRunTypes localeCompare (getRunTypePriority raidType) a b ≤ 0) :=
    ⟨by
      intro a b c hab hbc
      simp only [compareRunTypes_le_iff] at hab hbc ⊢
      rcases hab with ⟨ha, hb, h1⟩ | ⟨ha, hb⟩ | ⟨ha, hb, h1⟩
      · rcases hbc with ⟨_, hc, h2⟩ | ⟨_, hc⟩ | ⟨hb2, _, _⟩
        · exact Or.inl ⟨ha, hc, le_trans h1 h2⟩
        · exact Or.inr (Or.inl ⟨ha, hc⟩)
        · exact absurd hb hb2
      · rcases hbc with ⟨hb2, _, _⟩ | ⟨hb2, _⟩ | ⟨_, hc, _⟩
        · exact absurd hb2 hb
        · exact absurd hb2 hb
        · exact Or.inr (Or.inl ⟨ha, hc⟩)
      · rcases hbc with ⟨hb2, _, _⟩ | ⟨hb2, _⟩ | ⟨_, hc, h2⟩
        · exact absurd hb2 hb
        · exact absurd hb2 hb
        · exact Or.inr (Or.inr ⟨ha, hc, htrans a b c h1 h2⟩)⟩
  exact List.sorted_insertionSort _ _

theorem formatRunGroup_startsWith (runType : String) (runs : List Run) (currentTime : Int) :
    startsWith (formatRunGroup runType runs currentTime) ("### " ++ runType ++ "\n") = true := by
  unfold startsWith formatRunGroup
  rw [foldl_append_data (fun run => formatRunText run currentTime) runs]
  simp

/-- Where no run type is the name of a property that `{}` inherits, and for a consistent
`localeCompare`, the sections of the container are one per run type present (a run with
an empty `Type` counting as `Unknown`), each with the heading of its type and its runs in
fetch order; the types of the priority list of the category come first, in the order of
that list, and the other types follow in `localeCompare` order. -/
theorem sections_follow_priority_order (localeCompare : String → String → Int)
    (serverName : String) (runs : List Run) (raidType : String) (currentTime : Int)
    (hsafe : ∀ run ∈ runs, runTypeKey run ∉ inheritedPropertyNames)
    (htotal : ∀ a b, localeCompare a b ≤ 0 ∨ localeCompare b a ≤ 0)
    (htrans : ∀ a b c, localeCompare a b ≤ 0 → localeCompare b c ≤ 0 → localeCompare a c ≤ 0) :
    ∃ (container : ServerContainer) (runTypes : List String),
      buildServerContainer localeCompare serverName runs raidType currentTime =
        Except.ok container ∧
      container.sections = runTypes.map (fun runType =>
        formatRunGroup runType (runs.filter (fun run => decide (runTypeKey run = runType)))
          currentTime) ∧
      (∀ text ∈ container.sections, ∃ runType ∈ runTypes,
        startsWith text ("### " ++ runType ++ "\n") = true) ∧
      runTypes.Nodup ∧
      (∀ runType, runType ∈ runTypes ↔ ∃ run ∈ runs, runTypeKey run = runType) ∧
      runTypes.Pairwise (fun a b =>
        (b ∈ getRunTypePriority raidType →
          a ∈ getRunTypePriority raidType ∧
          (getRunTypePriority raidType).indexOf a < (getRunTypePriority raidType).indexOf b) ∧
        (a ∉ getRunTypePriority raidType →
          b ∉ getRunTypePriority raidType ∧ localeCompare a b ≤ 0)) := by
  obtain ⟨g, hg, hgnd, hgmem, hgget⟩ := groupRunsByType_spec runs [] List.nodup_nil hsafe
  obtain ⟨hperm, hsorted⟩ := sortedRunTypes_sorted localeCompare raidType g htotal htrans
  have hnd : (sortedRunTypes localeCompare raidType g).Nodup := hperm.nodup_iff.mpr hgnd
  have hsec : (sortedRunTypes localeCompare raidType g).map
      (fun runType => formatRunGroup runType ((objGet g runType).getD []) currentTime) =
      (sortedRunTypes localeCompare raidType g).map (fun runType =>
        formatRunGroup runType (runs.filter (fun run => decide (runTypeKey run = runType)))
          currentTime) := by
    apply List.map_congr_left
    intro t _
    rw [hgget t]
    rfl
  refine ⟨{ heading := "## " ++ getChannelLink serverName raidType ++ "\n"
            sections := (sortedRunTypes localeCompare raidType g).map
              (fun runType =>
                formatRunGroup runType ((objGet g runType).getD []) currentTime)
            inviteLink :=
              if getInviteLink serverName ≠ "#" then some (getInviteLink serverName)
              else none },
    sortedRunTypes localeCompare raidType g, ?_, hsec, ?_, hnd, ?_, ?_⟩
  · unfold buildServerContainer
    rw [hg]
  · intro text htext
    simp only at htext
    rw [hsec] at htext
    obtain ⟨t, ht, rfl⟩ := List.mem_map.mp htext
    exact ⟨t, ht, formatRunGroup_startsWith _ _ _⟩
  · intro t
    rw [hperm.mem_iff, hgmem t]
    simp
  · have hboth := hsorted.and hnd
    refine hboth.imp ?_
    intro a b hab
    obtain ⟨hle, hne⟩ := hab
    rw [compareRunTypes_le_iff] at hle
    constructor
    · intro hb
      rcases hle with ⟨ha, _, h⟩ | ⟨_, hb2⟩ | ⟨_, hb2, _⟩
      · refine ⟨ha, lt_of_le_of_ne h ?_⟩
        intro heq
        exact hne (List.indexOf_inj ha hb |>.mp heq)
      · exact absurd hb hb2
      · exact absurd hb hb2
    · intro ha
      rcases hle with ⟨ha2, _, _⟩ | ⟨ha2, _⟩ | ⟨_, hb, h⟩
      · exact absurd ha2 ha
      · exact absurd ha2 ha
      · exact ⟨hb, h⟩

/-! ## A run type that names an inherited property -/

theorem keys_objSet_subset {β : Type} (o : JsObject β) (k : String) (v : β) :
    ∀ key ∈ (objSet o k v).map (fun e => e.1), key ∈ o.map (fun e => e.1) ∨ key = k := by
  intro key hkey
  unfold objSet at hkey
  split at hkey
  · rw [List.map_map] at hkey
    obtain ⟨e, he, hek⟩ := List.mem_map.mp hkey
    by_cases h : e.1 = k
    · right
      simp only [Function.comp_apply, h, if_true] at hek
      exact hek.symm
    · left
      simp only [Function.comp_apply, h, if_false] at hek
      exact List.mem_map.mpr ⟨e, he, hek⟩
  · simp only [List.map_append, List.map_cons, List.map_nil, List.mem_append,
      List.mem_singleton] at hkey
    exact hkey

/-- The grouping loop throws as soon as a run type names an inherited property. -/
theorem groupRunsByType_throws : ∀ (runs : List Run) (acc : JsObject (List Run)),
    (∀ key ∈ acc.map (fun e => e.1), key ∉ inheritedPropertyNames) →
    (∃ run ∈ runs, runTypeKey run ∈ inheritedPropertyNames) →
    groupRunsByType runs acc =
      Except.error { message := "runsByType[runType].push is not a function", code := none } := by
  intro runs
  induction runs with
  | nil => intro acc _ h; obtain ⟨_, hr, _⟩ := h; cases hr
  | cons run rest ih =>
    intro acc hacc h
    by_cases hrun : runTypeKey run ∈ inheritedPropertyNames
    · have hnone : objGet acc (runTypeKey run) = none :=
        (objGet_eq_none_iff acc _).mpr (fun hm => hacc _ hm hrun)
      simp only [groupRunsByType, hnone, if_pos hrun]
    · have hrest : ∃ r ∈ rest, runTypeKey r ∈ inheritedPropertyNames := by
        obtain ⟨r, hr, hk⟩ := h
        rcases List.mem_cons.mp hr with rfl | hr
        · exact absurd hk hrun
        · exact ⟨r, hr, hk⟩
      have hstep : ∀ v, ∀ key ∈ (objSet acc (runTypeKey run) v).map (fun e => e.1),
          key ∉ inheritedPropertyNames := by
        intro v key hkey
        rcases keys_objSet_subset acc _ v key hkey with hk | hk
        · exact hacc key hk
        · rw [hk]; exact hrun
      cases hget : objGet acc (runTypeKey run) with
      | some typeRuns =>
        simp only [groupRunsByType, hget]
        exact ih _ (hstep _) hrest
      | none =>
        simp only [groupRunsByType, hget, if_neg hrun]
        exact ih _ (hstep _) hrest

/-- C23, the divergence.  When the `Type` of some run is the name of a property that the
object literal `{}` inherits from `Object.prototype` (such as `constructor`), the test
`!runsByType[runType]` of the grouping loop finds the inherited value, no array is
created and `push` is not a function: `buildServerContainer` throws and renders no
section at all. -/
theorem inherited_run_type_throws (localeCompare : String → String → Int)
    (serverName : String) (runs : List Run) (raidType : String) (currentTime : Int)
    (hrun : ∃ run ∈ runs, runTypeKey run ∈ inheritedPropertyNames) :
    buildServerContainer localeCompare serverName runs raidType currentTime =
      Except.error { message := "runsByType[runType].push is not a function", code := none } := by
  unfold buildServerContainer
  rw [groupRunsByType_throws runs [] (by intro key hkey; cases hkey) hrun]

/-- C23, the divergence, for the runs `demoRuns` followed by a run of type
`constructor`. -/
theorem inherited_run_type_throws_witness :
    buildServerContainer demoLocaleCompare "CAFE" (demoRuns ++ [demoRunConstructor]) "BA"
        200000000 =
      Except.error { message := "runsByType[runType].push is not a function", code := none } :=
  inherited_run_type_throws demoLocaleCompare "CAFE" (demoRuns ++ [demoRunConstructor]) "BA"
    200000000 ⟨demoRunConstructor, by decide, by decide⟩

/-- The sections of `demoRuns` for BA: `Fresh` and `Reclear` in the order of the priority
list, then `Unknown` (the run without a type) and `Zeta`; the two `Fresh` runs in fetch
order. -/
theorem demoRuns_sections :
    (buildServerContainer demoLocaleCompare "CAFE" demoRuns "BA" 200000000).toOption.map
        (fun container => container.sections) =
      some [formatRunGroup "Fresh" [demoRunNew, demoRunFresh2] 200000000,
            formatRunGroup "Reclear" [demoRunReclear] 200000000,
            formatRunGroup "Unknown" [demoRunUntyped] 200000000,
            formatRunGroup "Zeta" [demoRunZeta] 200000000] := by
  decide

/-! ## The reported wait -/

theorem foldl_min_le (xs : List Int) : ∀ (x : Int),
    xs.foldl min x ≤ x ∧ (∀ y ∈ xs, xs.foldl min x ≤ y) ∧
    (xs.foldl min x = x ∨ xs.foldl min x ∈ xs) := by
  induction xs with
  | nil => intro x; simp
  | cons a rest ih =>
    intro x
    obtain ⟨h1, h2, h3⟩ := ih (min x a)
    simp only [List.foldl_cons]
    refine ⟨le_trans h1 (min_le_left _ _), ?_, ?_⟩
    · intro y hy
      rcases List.mem_cons.mp hy with rfl | hy
      · exact le_trans h1 (min_le_right _ _)
      · exact h2 y hy
    · rcases h3 with h | h
      · rcases min_choice x a with hm | hm
        · left; rw [h, hm]
        · right; rw [h, hm]; exact List.mem_cons_self _ _
      · right; exact List.mem_cons_of_mem _ h

/-- `Math.min` of a non-empty list is one of its elements. -/
theorem mathMin_mem (xs : List Int) (m : Int) (h : mathMin xs = some m) : m ∈ xs := by
  cases xs with
  | nil => cases h
  | cons x rest =>
    simp only [mathMin, Option.some.injEq] at h
    subst h
    rcases (foldl_min_le rest x).2.2 with h | h
    · rw [h]; exact List.mem_cons_self _ _
    · exact List.mem_cons_of_mem _ h

/-- No stored request instant is later than the latest call. -/
theorem storedRequests_run_bound (u : String) (t : Int) (ops : List Op) :
    ∀ (s : RateLimiter), (∀ x ∈ storedRequests s u, x ≤ t) → (∀ op ∈ ops, op.now ≤ t) →
    ∀ x ∈ storedRequests (run s ops) u, x ≤ t := by
  induction ops with
  | nil => intro s h _; exact h
  | cons op ops ih =>
    intro s h hle
    apply ih (step s op).2 _ (fun o ho => hle o (List.mem_cons_of_mem _ ho))
    intro x hx
    have hop := hle op (List.mem_cons_self _ _)
    have hrecent : ∀ y ∈ recent op.now (storedRequests s u), y ≤ t :=
      fun y hy => h y (List.mem_filter.mp hy).1
    rcases step_stored_cases s op u with ⟨_, _, _, he⟩ | ⟨_, he | he | ⟨_, he⟩⟩
    · rw [he] at hx
      rcases List.mem_append.mp hx with hx | hx
      · exact hrecent x hx
      · rw [List.mem_singleton.mp hx]; exact hop
    · rw [he] at hx; exact h x hx
    · rw [he] at hx; exact hrecent x hx
    · rw [he] at hx; cases hx

/-- No cooldown entry is later than the latest call. -/
theorem entryOf_run_bound (t : Int) (ops : List Op) :
    ∀ (s : RateLimiter), (∀ p ts, entryOf s p = some ts → ts ≤ t) →
    (∀ op ∈ ops, op.now ≤ t) →
    ∀ p ts, entryOf (run s ops) p = some ts → ts ≤ t := by
  induction ops with
  | nil => intro s h _; exact h
  | cons op ops ih =>
    intro s h hle
    apply ih (step s op).2 _ (fun o ho => hle o (List.mem_cons_of_mem _ ho))
    intro p ts hts
    have hop := hle op (List.mem_cons_self _ _)
    cases hc : op.isClear
    · rcases step_entry_cases s op p hc with ⟨_, _, _, he⟩ | ⟨_, he | ⟨he, _⟩⟩
      · rw [he] at hts; cases hts; exact hop
      · rw [he] at hts; exact h p ts hts
      · rw [he] at hts; cases hts
    · cases op with
      | clear u t0 =>
        simp only [step, entryOf_clearUserCooldowns] at hts
        split at hts
        · cases hts
        · exact h p ts hts
      | command _ _ _ => cases hc
      | interaction _ _ _ => cases hc
      | sweep _ => cases hc

/-- After a denial by the window gate with `timeLeft = k`, in a state reached by calls made
no later than `t`: `1 ≤ k ≤ 60`, and the gate is open at every `t' ≥ t + 1000·k`. -/
theorem window_denial_wait (ops : List Op) (userId : String) (t k t' : Int)
    (hclock : ∀ op ∈ ops, op.now ≤ t)
    (hres : checkRequestLimit (run RateLimiter.new ops) userId t =
      { allowed := false, timeLeft := some k })
    (hwait : t + 1000 * k ≤ t') :
    1 ≤ k ∧ k ≤ 60 ∧ (checkRequestLimit (run RateLimiter.new ops) userId t').allowed = true := by
  rw [checkRequestLimit_eq] at hres
  split at hres
  · simp only [CheckResult.mk.injEq, true_and] at hres
    cases hmin : mathMin (recent t (storedRequests (run RateLimiter.new ops) userId)) with
    | none => rw [hmin] at hres; cases hres
    | some m =>
      rw [hmin] at hres
      simp only [Option.map_some', Option.some.injEq] at hres
      have hm := mathMin_mem _ _ hmin
      have hmrecent : t - m < REQUEST_WINDOW := by
        have := (List.mem_filter.mp hm).2
        simpa using this
      have hmstored : m ∈ storedRequests (run RateLimiter.new ops) userId :=
        (List.mem_filter.mp hm).1
      have hmle : m ≤ t := storedRequests_run_bound userId t ops RateLimiter.new
        (by rw [storedRequests_new]; intro x hx; cases hx) hclock m hmstored
      unfold mathCeilDiv REQUEST_WINDOW at hres
      unfold REQUEST_WINDOW at hmrecent
      refine ⟨by omega, by omega, ?_⟩
      rw [checkRequestLimit_allowed_iff]
      have hlen := storedRequests_run_length userId ops RateLimiter.new
        (by rw [storedRequests_new]; exact Nat.zero_le _)
      have hlt : (recent t' (storedRequests (run RateLimiter.new ops) userId)).length <
          (storedRequests (run RateLimiter.new ops) userId).length := by
        unfold recent
        rw [List.length_filter_lt_length_iff_exists]
        refine ⟨m, hmstored, ?_⟩
        have : ¬ (t' - m < REQUEST_WINDOW) := by unfold REQUEST_WINDOW; omega
        simpa using this
      omega
  · cases hres

/-- C24 (the reported wait is sufficient).  In a state reached from the freshly
constructed limiter by calls made no later than the instant `t` (the clock does not run
backwards), let a check of an actor be denied at `t` with `timeLeft = k`; the denied
check leaves the state as it is.  If the denial comes from the window gate (of a command
check or of an interaction check), then `1 ≤ k ≤ 60` and at every instant
`t' ≥ t + 1000·k` `checkRequestLimit` returns `allowed: true`.  If it comes from the
command cooldown, then `1 ≤ k ≤ 3` and at every such instant at least `COMMAND_COOLDOWN`
has elapsed since the last use, so that the cooldown test passes. -/
theorem reported_wait_is_sufficient (ops : List Op) (userId action : String) (t k t' : Int)
    (hclock : ∀ op ∈ ops, op.now ≤ t)
    (hwait : t + 1000 * k ≤ t') :
    ((checkCommandCooldown (run RateLimiter.new ops) userId action t).1 =
        { allowed := false, timeLeft := some k } →
      (checkRequestLimit (run RateLimiter.new ops) userId t).allowed = false →
      1 ≤ k ∧ k ≤ 60 ∧
      (checkRequestLimit (checkCommandCooldown (run RateLimiter.new ops) userId action t).2
        userId t').allowed = true) ∧
    ((checkInteractionCooldown (run RateLimiter.new ops) userId action t).1 =
        { allowed := false, timeLeft := some k } →
      (checkRequestLimit (run RateLimiter.new ops) userId t).allowed = false →
      1 ≤ k ∧ k ≤ 60 ∧
      (checkRequestLimit (checkInteractionCooldown (run RateLimiter.new ops) userId action
        t).2 userId t').allowed = true) ∧
    ((checkCommandCooldown (run RateLimiter.new ops) userId action t).1 =
        { allowed := false, timeLeft := some k } →
      (checkRequestLimit (run RateLimiter.new ops) userId t).allowed = true →
      1 ≤ k ∧ k ≤ 3 ∧
      ∃ lastUsed, (checkCommandCooldown (run RateLimiter.new ops) userId action
          t).2.userCommandCooldowns (cooldownKey userId action) = some lastUsed ∧
        COMMAND_COOLDOWN ≤ t' - lastUsed ∧
        gatePasses (some lastUsed) t' COMMAND_COOLDOWN = true) := by
  refine ⟨?_, ?_, ?_⟩
  · intro hdenied hwin
    have hstate := checkCommandCooldown_denied_state (run RateLimiter.new ops) userId action t
      (by rw [hdenied])
    have hres : checkRequestLimit (run RateLimiter.new ops) userId t =
        { allowed := false, timeLeft := some k } := by
      have : (checkCommandCooldown (run RateLimiter.new ops) userId action t).1 =
          checkRequestLimit (run RateLimiter.new ops) userId t := by
        unfold checkCommandCooldown
        simp only [hwin, if_true]
      rw [← this, hdenied]
    rw [hstate]
    exact window_denial_wait ops userId t k t' hclock hres hwait
  · intro hdenied hwin
    have hstate := checkInteractionCooldown_denied_state (run RateLimiter.new ops) userId
      action t (by rw [hdenied])
    have hres : checkRequestLimit (run RateLimiter.new ops) userId t =
        { allowed := false, timeLeft := some k } := by
      have : (checkInteractionCooldown (run RateLimiter.new ops) userId action t).1 =
          checkRequestLimit (run RateLimiter.new ops) userId t := by
        unfold checkInteractionCooldown
        simp only [hwin, if_true]
      rw [← this, hdenied]
    rw [hstate]
    exact window_denial_wait ops userId t k t' hclock hres hwait
  · intro hdenied hreq
    have hstate := checkCommandCooldown_denied_state (run RateLimiter.new ops) userId action t
      (by rw [hdenied])
    rw [hstate]
    unfold checkCommandCooldown at hdenied
    simp only [hreq, Bool.true_eq_false, if_false] at hdenied
    cases hentry : (run RateLimiter.new ops).userCommandCooldowns (cooldownKey userId action) with
    | none => rw [hentry] at hdenied; cases hdenied
    | some lastUsed =>
      rw [hentry] at hdenied
      simp only at hdenied
      split at hdenied
      · rename_i hcond
        simp only [CheckResult.mk.injEq, true_and, Option.some.injEq] at hdenied
        have hle : lastUsed ≤ t :=
          entryOf_run_bound t ops RateLimiter.new
            (by intro p ts h; simp [entryOf, RateLimiter.new] at h) hclock
            (true, cooldownKey userId action) lastUsed (by simpa [entryOf] using hentry)
        unfold mathCeilDiv COMMAND_COOLDOWN at hdenied
        unfold COMMAND_COOLDOWN at hcond
        have hk1 : 1 ≤ k := by omega
        have hk3 : k ≤ 3 := by omega
        have helapsed : COMMAND_COOLDOWN ≤ t' - lastUsed := by
          unfold COMMAND_COOLDOWN; omega
        refine ⟨hk1, hk3, lastUsed, rfl, helapsed, ?_⟩
        rw [gatePasses_some _ _ _ hcond.1]
        exact helapsed
      · cases hdenied

/-- C24 after the burst `demoBurst`: a command at 4000 is denied by the window gate with
`timeLeft = 57`, and at 61000 the window gate is open. -/
theorem reported_wait_is_sufficient_witness :
    (1 : Int) ≤ 57 ∧ (57 : Int) ≤ 60 ∧
    (checkRequestLimit (checkCommandCooldown (run RateLimiter.new demoBurst) "u" "other"
      4000).2 "u" 61000).allowed = true :=
  (reported_wait_is_sufficient demoBurst "u" "other" 4000 57 61000 (by decide)
    (by decide)).1 (by decide) (by decide)

/-! ## The frame of a clear -/

theorem cooldownKey_data (u a : String) : (cooldownKey u a).data = u.data ++ ':' :: a.data := by
  simp [cooldownKey, String.data_append]

/-- Keys of different actors without `:` in their identifiers are different. -/
theorem cooldownKey_ne (u w a b : String) (hu : ':' ∉ u.data) (hw : ':' ∉ w.data)
    (hne : u ≠ w) : cooldownKey u a ≠ cooldownKey w b := by
  intro h
  have hd := congrArg String.data h
  rw [cooldownKey_data, cooldownKey_data] at hd
  exact hne (String.ext (split_at_separator ':' _ _ _ _ hu hw hd).1)

/-- A key of `w` does not start with `u:` for another actor `u`, when neither identifier
contains `:`. -/
theorem startsWith_other_actor (u w a : String) (hu : ':' ∉ u.data) (hw : ':' ∉ w.data)
    (hne : u ≠ w) : startsWith (cooldownKey w a) (u ++ ":") = false := by
  cases h : startsWith (cooldownKey w a) (u ++ ":") with
  | false => rfl
  | true =>
    exfalso
    unfold startsWith at h
    rw [List.isPrefixOf_iff_prefix] at h
    obtain ⟨rest, hrest⟩ := h
    rw [cooldownKey_data] at hrest
    have hd : u.data ++ ':' :: rest = w.data ++ ':' :: a.data := by
      rw [← hrest]
      simp [String.data_append]
    exact hne (String.ext (split_at_separator ':' _ _ _ _ hu hw hd).1)

theorem sameStateOf_refl (w : String) (s : RateLimiter) : sameStateOf w s s :=
  ⟨rfl, fun _ => ⟨rfl, rfl⟩⟩

theorem sameStateOf_symm {w : String} {s1 s2 : RateLimiter} (h : sameStateOf w s1 s2) :
    sameStateOf w s2 s1 :=
  ⟨h.1.symm, fun a => ⟨(h.2 a).1.symm, (h.2 a).2.symm⟩⟩

theorem sameStateOf_trans {w : String} {s1 s2 s3 : RateLimiter} (h1 : sameStateOf w s1 s2)
    (h2 : sameStateOf w s2 s3) : sameStateOf w s1 s3 :=
  ⟨h1.1.trans h2.1, fun a => ⟨(h1.2 a).1.trans (h2.2 a).1, (h1.2 a).2.trans (h2.2 a).2⟩⟩

/-- The clear of `u` leaves the state of every other actor as it is. -/
theorem clearUserCooldowns_frame (s : RateLimiter) (u w : String) (hu : ':' ∉ u.data)
    (hw : ':' ∉ w.data) (hne : u ≠ w) : sameStateOf w (clearUserCooldowns s u) s := by
  refine ⟨?_, fun a => ⟨?_, ?_⟩⟩
  · simp only [clearUserCooldowns, mapDelete]
    rw [if_neg (fun h => hne h.symm)]
  · simp only [clearUserCooldowns, startsWith_other_actor u w a hu hw hne]
    rfl
  · simp only [clearUserCooldowns, startsWith_other_actor u w a hu hw hne]
    rfl

/-- A clear keeps two states the same for an actor. -/
theorem clearUserCooldowns_congr (s1 s2 : RateLimiter) (x w : String)
    (h : sameStateOf w s1 s2) :
    sameStateOf w (clearUserCooldowns s1 x) (clearUserCooldowns s2 x) := by
  refine ⟨?_, fun a => ⟨?_, ?_⟩⟩
  · simp only [clearUserCooldowns, mapDelete, h.1]
  · simp only [clearUserCooldowns, (h.2 a).1]
  · simp only [clearUserCooldowns, (h.2 a).2]

/-- The sweep keeps two states the same for an actor. -/
theorem cleanup_congr (s1 s2 : RateLimiter) (t : Int) (w : String)
    (h : sameStateOf w s1 s2) : sameStateOf w (cleanup s1 t) (cleanup s2 t) := by
  refine ⟨?_, fun a => ⟨?_, ?_⟩⟩
  · simp only [cleanup, h.1]
  · simp only [cleanup, (h.2 a).1]
  · simp only [cleanup, (h.2 a).2]

/-- A command check of `x` leaves the state of every other actor as it is. -/
theorem checkCommandCooldown_frame (s : RateLimiter) (x w c : String) (t : Int)
    (hx : ':' ∉ x.data) (hw : ':' ∉ w.data) (hne : x ≠ w) :
    sameStateOf w (checkCommandCooldown s x c t).2 s := by
  cases hal : (checkCommandCooldown s x c t).1.allowed with
  | false =>
    rw [checkCommandCooldown_denied_state s x c t hal]
    exact sameStateOf_refl w s
  | true =>
    rw [checkCommandCooldown_allowed_state s x c t hal]
    refine ⟨?_, fun a => ⟨?_, ?_⟩⟩
    · simp only [incrementRequestCount, mapSet]
      rw [if_neg (fun h => hne h.symm)]
    · simp only [incrementRequestCount, mapSet]
      rw [if_neg (fun h => cooldownKey_ne x w c a hx hw hne h.symm)]
    · rfl

/-- An interaction check of `x` leaves the state of every other actor as it is. -/
theorem checkInteractionCooldown_frame (s : RateLimiter) (x w c : String) (t : Int)
    (hx : ':' ∉ x.data) (hw : ':' ∉ w.data) (hne : x ≠ w) :
    sameStateOf w (checkInteractionCooldown s x c t).2 s := by
  cases hal : (checkInteractionCooldown s x c t).1.allowed with
  | false =>
    rw [checkInteractionCooldown_denied_state s x c t hal]
    exact sameStateOf_refl w s
  | true =>
    rw [checkInteractionCooldown_allowed_state s x c t hal]
    refine ⟨?_, fun a => ⟨?_, ?_⟩⟩
    · simp only [incrementRequestCount, mapSet]
      rw [if_neg (fun h => hne h.symm)]
    · rfl
    · simp only [incrementRequestCount, mapSet]
      rw [if_neg (fun h => cooldownKey_ne x w c a hx hw hne h.symm)]

theorem checkRequestLimit_congr (s1 s2 : RateLimiter) (x : String) (t : Int)
    (h : sameStateOf x s1 s2) : checkRequestLimit s1 x t = checkRequestLimit s2 x t := by
  unfold checkRequestLimit
  rw [h.1]

/-- A command check of `x` in two states that are the same for `x` returns the same
result and leaves states that are the same for `x`. -/
theorem checkCommandCooldown_congr (s1 s2 : RateLimiter) (x c : String) (t : Int)
    (h : sameStateOf x s1 s2) :
    (checkCommandCooldown s1 x c t).1 = (checkCommandCooldown s2 x c t).1 ∧
    sameStateOf x (checkCommandCooldown s1 x c t).2 (checkCommandCooldown s2 x c t).2 := by
  have hres : (checkCommandCooldown s1 x c t).1 = (checkCommandCooldown s2 x c t).1 := by
    unfold checkCommandCooldown
    simp only [checkRequestLimit_congr s1 s2 x t h, (h.2 c).1]
    split
    · rfl
    · split
      · rfl
      · split <;> rfl
  refine ⟨hres, ?_⟩
  cases hal : (checkCommandCooldown s1 x c t).1.allowed with
  | false =>
    rw [checkCommandCooldown_denied_state s1 x c t hal,
      checkCommandCooldown_denied_state s2 x c t (by rw [← hres]; exact hal)]
    exact h
  | true =>
    rw [checkCommandCooldown_allowed_state s1 x c t hal,
      checkCommandCooldown_allowed_state s2 x c t (by rw [← hres]; exact hal)]
    refine ⟨?_, fun a => ⟨?_, ?_⟩⟩
    · simp only [incrementRequestCount, mapSet, if_true, h.1]
    · simp only [incrementRequestCount, mapSet, (h.2 a).1]
    · exact (h.2 a).2

/-- An interaction check of `x` in two states that are the same for `x` returns the same
result and leaves states that are the same for `x`. -/
theorem checkInteractionCooldown_congr (s1 s2 : RateLimiter) (x c : String) (t : Int)
    (h : sameStateOf x s1 s2) :
    (checkInteractionCooldown s1 x c t).1 = (checkInteractionCooldown s2 x c t).1 ∧
    sameStateOf x (checkInteractionCooldown s1 x c t).2
      (checkInteractionCooldown s2 x c t).2 := by
  have hres : (checkInteractionCooldown s1 x c t).1 =
      (checkInteractionCooldown s2 x c t).1 := by
    unfold checkInteractionCooldown
    simp only [checkRequestLimit_congr s1 s2 x t h, (h.2 c).2]
    split
    · rfl
    · split
      · rfl
      · split <;> rfl
  refine ⟨hres, ?_⟩
  cases hal : (checkInteractionCooldown s1 x c t).1.allowed with
  | false =>
    rw [checkInteractionCooldown_denied_state s1 x c t hal,
      checkInteractionCooldown_denied_state s2 x c t (by rw [← hres]; exact hal)]
    exact h
  | true =>
    rw [checkInteractionCooldown_allowed_state s1 x c t hal,
      checkInteractionCooldown_allowed_state s2 x c t (by rw [← hres]; exact hal)]
    refine ⟨?_, fun a => ⟨?_, ?_⟩⟩
    · simp only [incrementRequestCount, mapSet, if_true, h.1]
    · exact (h.2 a).1
    · simp only [incrementRequestCount, mapSet, (h.2 a).2]

/-- One call keeps two states the same for an actor `v` without `:` in its identifier,
when the checks are made by actors without `:` in their identifiers; a check of `v`
returns the same result in both. -/
theorem step_sameStateOf (s1 s2 : RateLimiter) (op : Op) (v : String) (hv : ':' ∉ v.data)
    (hop : ∀ x, op.checker = some x → ':' ∉ x.data) (h : sameStateOf v s1 s2) :
    sameStateOf v (step s1 op).2 (step s2 op).2 ∧
    (op.isCheckBy v = true → (step s1 op).1 = (step s2 op).1) := by
  cases op with
  | command x c t =>
    have hx := hop x rfl
    by_cases hxv : x = v
    · subst hxv
      obtain ⟨hres, hst⟩ := checkCommandCooldown_congr s1 s2 x c t h
      exact ⟨hst, fun _ => by simp only [step, hres]⟩
    · refine ⟨?_, fun hc => ?_⟩
      · exact sameStateOf_trans (checkCommandCooldown_frame s1 x v c t hx hv hxv)
          (sameStateOf_trans h
            (sameStateOf_symm (checkCommandCooldown_frame s2 x v c t hx hv hxv)))
      · simp only [Op.isCheckBy, decide_eq_true_eq] at hc
        exact absurd hc hxv
  | interaction x c t =>
    have hx := hop x rfl
    by_cases hxv : x = v
    · subst hxv
      obtain ⟨hres, hst⟩ := checkInteractionCooldown_congr s1 s2 x c t h
      exact ⟨hst, fun _ => by simp only [step, hres]⟩
    · refine ⟨?_, fun hc => ?_⟩
      · exact sameStateOf_trans (checkInteractionCooldown_frame s1 x v c t hx hv hxv)
          (sameStateOf_trans h
            (sameStateOf_symm (checkInteractionCooldown_frame s2 x v c t hx hv hxv)))
      · simp only [Op.isCheckBy, decide_eq_true_eq] at hc
        exact absurd hc hxv
  | clear x t =>
    exact ⟨clearUserCooldowns_congr s1 s2 x v h, fun hc => by cases hc⟩
  | sweep t =>
    exact ⟨cleanup_congr s1 s2 t v h, fun hc => by cases hc⟩

/-- Two states that are the same for `v` give the same outcomes of the checks of `v` in
every later sequence of calls. -/
theorem outcomes_sameStateOf (v : String) (hv : ':' ∉ v.data) (ops : List Op) :
    ∀ (s1 s2 : RateLimiter), sameStateOf v s1 s2 →
    (∀ op ∈ ops, ∀ x, op.checker = some x → ':' ∉ x.data) →
    (outcomes s1 ops).filter (fun r => r.1.isCheckBy v) =
      (outcomes s2 ops).filter (fun r => r.1.isCheckBy v) := by
  induction ops with
  | nil => intro _ _ _ _; rfl
  | cons op ops ih =>
    intro s1 s2 h hops
    obtain ⟨hst, hres⟩ := step_sameStateOf s1 s2 op v hv (hops op (List.mem_cons_self _ _)) h
    have hrest := ih (step s1 op).2 (step s2 op).2 hst
      (fun o ho => hops o (List.mem_cons_of_mem _ ho))
    simp only [outcomes, List.filter_cons]
    cases hc : op.isCheckBy v with
    | false => simpa using hrest
    | true =>
      simp only [if_true]
      rw [hres hc, hrest]

/-- C25 (the clear affects only the named actor).  For every limiter state and distinct
actors `u` and `v` whose identifiers contain no `:`, `clearUserCooldowns(u)` leaves every
command-cooldown entry, every interaction-cooldown entry and the request list of `v` as
they are; and in every later sequence of calls (checks by actors whose identifiers
contain no `:`, clears and sweeps) every check of `v` returns the same result as without
the clear. -/
theorem clear_affects_only_the_named_actor (s : RateLimiter) (u v : String)
    (hu : ':' ∉ u.data) (hv : ':' ∉ v.data) (hne : u ≠ v) :
    (∀ action, (clearUserCooldowns s u).userCommandCooldowns (cooldownKey v action) =
      s.userCommandCooldowns (cooldownKey v action)) ∧
    (∀ action, (clearUserCooldowns s u).userInteractionCooldowns (cooldownKey v action) =
      s.userInteractionCooldowns (cooldownKey v action)) ∧
    (clearUserCooldowns s u).userRequestCounts v = s.userRequestCounts v ∧
    (∀ action now,
      (checkCommandCooldown (clearUserCooldowns s u) v action now).1 =
        (checkCommandCooldown s v action now).1 ∧
      (checkInteractionCooldown (clearUserCooldowns s u) v action now).1 =
        (checkInteractionCooldown s v action now).1) ∧
    (∀ ops : List Op, (∀ op ∈ ops, ∀ x, op.checker = some x → ':' ∉ x.data) →
      (outcomes (clearUserCooldowns s u) ops).filter (fun r => r.1.isCheckBy v) =
        (outcomes s ops).filter (fun r => r.1.isCheckBy v)) := by
  have hframe := clearUserCooldowns_frame s u v hu hv hne
  refine ⟨fun a => (hframe.2 a).1, fun a => (hframe.2 a).2, hframe.1, ?_, ?_⟩
  · intro action now
    exact ⟨(checkCommandCooldown_congr _ _ v action now hframe).1,
      (checkInteractionCooldown_congr _ _ v action now hframe).1⟩
  · intro ops hops
    exact outcomes_sameStateOf v hv ops _ _ hframe hops

/-- C25 in the state `demoState`: the clear of `w` leaves the command `c` of `u` denied at
1500. -/
theorem clear_affects_only_the_named_actor_witness :
    (checkCommandCooldown (clearUserCooldowns demoState "w") "u" "c" 1500).1 =
      (checkCommandCooldown demoState "u" "c" 1500).1 ∧
    (checkCommandCooldown demoState "u" "c" 1500).1.allowed = false :=
  ⟨((clear_affects_only_the_named_actor demoState "w" "u" (by decide) (by decide)
    (by decide)).2.2.2.1 "c" 1500).1, by decide⟩

/-! ## Custom ids and configuration keys -/

/-- The last segment of a custom id of a setup family, upper-cased, is the category. -/
theorem raidTypeOf_customIdOf (family c : String) (hf : family ∈ setupFamilies)
    (hc : c ∈ ALL_RAID_TYPES) : raidTypeOf (customIdOf family c) = c := by
  simp only [ALL_RAID_TYPES, setupFamilies, List.mem_cons, List.mem_singleton,
    List.not_mem_nil, or_false] at hc hf
  rcases hc with rfl | rfl | rfl <;> rcases hf with rfl | rfl | rfl | rfl | rfl <;> decide

/-- C26 (the category survives the custom-id encoding).  For every category of BA, FT and
DRS and every setup family named by the claim, the custom id `family + lowercase(c)`
is routed to the setup handler by the button and the select-menu dispatch, its last
segment upper-cased is `c`, and `handleSetupInteraction` passes it to the handler of its
family with the raid type `c`; and for `schedule_info_`, `schedule_servers_` and
`timezone_select_` the third segment upper-cased is `c` and the dispatch reaches the
handler of that family. -/
theorem category_survives_custom_id (c : String) (hc : c ∈ ALL_RAID_TYPES) :
    (∀ family ∈ setupFamilies,
      raidTypeOf (customIdOf family c) = c ∧
      buttonRoute (customIdOf family c) = Route.setup ∧
      selectMenuRoute (customIdOf family c) = Route.setup) ∧
    (∀ (setupState : SetupState) (interaction : Interaction),
      (interaction.customId = customIdOf "setup_create_channel_" c →
        handleSetupInteraction setupState interaction =
          handleChannelCreation setupState interaction c) ∧
      (interaction.customId = customIdOf "setup_select_channel_" c →
        handleSetupInteraction setupState interaction =
          handleChannelSelection setupState interaction c interaction.values) ∧
      (interaction.customId = customIdOf "setup_retry_channel_" c →
        handleSetupInteraction setupState interaction =
          thenChannelSelection setupState interaction (some c)) ∧
      (interaction.customId = customIdOf "setup_retry_perms_" c →
        ∀ state channels channelId, setupState interaction.userId = some state →
          state.channels = some channels → objGet channels c = some channelId →
          channelId ≠ "" →
          handleSetupInteraction setupState interaction =
            handleChannelSelection setupState interaction c [channelId]) ∧
      (interaction.customId = customIdOf "setup_select_hosts_" c →
        handleSetupInteraction setupState interaction =
          handleHostSelection setupState interaction c)) ∧
    thirdSegmentUpperCase (customIdOf "schedule_info_" c) = Except.ok c ∧
    thirdSegmentUpperCase (customIdOf "schedule_servers_" c) = Except.ok c ∧
    thirdSegmentUpperCase (customIdOf "timezone_select_" c) = Except.ok c ∧
    buttonRoute (customIdOf "schedule_info_" c) = Route.scheduleInfo ∧
    buttonRoute (customIdOf "schedule_servers_" c) = Route.scheduleServers ∧
    selectMenuRoute (customIdOf "timezone_select_" c) = Route.timezoneSelect := by
  simp only [ALL_RAID_TYPES, List.mem_cons, List.mem_singleton, List.not_mem_nil,
    or_false] at hc
  refine ⟨?_, ?_, ?_⟩
  · rcases hc with rfl | rfl | rfl <;> decide
  · intro setupState interaction
    rcases hc with rfl | rfl | rfl
    all_goals
      refine ⟨?_, ?_, ?_, ?_, ?_⟩
      · intro hid
        unfold handleSetupInteraction
        simp only [hid]
        rw [if_neg (by decide), if_neg (by decide), if_neg (by decide), if_pos (by decide)]
        rw [raidTypeOf_customIdOf "setup_create_channel_" _ (by decide) (by decide)]
      · intro hid
        unfold handleSetupInteraction
        simp only [hid]
        rw [if_neg (by decide), if_neg (by decide), if_neg (by decide), if_neg (by decide),
          if_pos (by decide)]
        rw [raidTypeOf_customIdOf "setup_select_channel_" _ (by decide) (by decide)]
      · intro hid
        unfold handleSetupInteraction
        simp only [hid]
        rw [if_neg (by decide), if_pos (by decide)]
        rw [raidTypeOf_customIdOf "setup_retry_channel_" _ (by decide) (by decide)]
      · intro hid state channels channelId hstate hch hget hne
        unfold handleSetupInteraction
        simp only [hid]
        rw [if_neg (by decide), if_neg (by decide), if_pos (by decide)]
        rw [raidTypeOf_customIdOf "setup_retry_perms_" _ (by decide) (by decide)]
        simp only [hstate, hch, hget, truthyString, ne_eq, hne, not_false_eq_true,
          decide_True, if_true, Option.getD_some]
      · intro hid
        unfold handleSetupInteraction
        simp only [hid]
        rw [if_neg (by decide), if_neg (by decide), if_neg (by decide), if_neg (by decide),
          if_neg (by decide), if_neg (by decide), if_neg (by decide), if_pos (by decide)]
        rw [raidTypeOf_customIdOf "setup_select_hosts_" _ (by decide) (by decide)]
  · rcases hc with rfl | rfl | rfl <;> exact ⟨rfl, rfl, rfl, by decide, by decide, by decide⟩

/-- C26 at the category DRS for the select menu of the hosts. -/
theorem category_survives_custom_id_witness :
    raidTypeOf (customIdOf "setup_select_hosts_" "DRS") = "DRS" ∧
    buttonRoute (customIdOf "setup_select_hosts_" "DRS") = Route.setup ∧
    selectMenuRoute (customIdOf "setup_select_hosts_" "DRS") = Route.setup :=
  (category_survives_custom_id "DRS" (by decide)).1 "setup_select_hosts_" (by decide)

/-- C27 (the per-category configuration keys are distinct and match the stored field
names).  For every category of BA, FT and DRS, `getScheduleChannelKey` and
`getEnabledHostsKey` return `schedule_channel_` and `enabled_hosts_` followed by the
category in lower case; the five keys of the category are field names of the object
literal of the amend merge; the 15 keys of `ConfigKeys` are pairwise distinct; and the
keys that the commit loop writes for a raid type are none of the five keys of another
category, so that the loop leaves the fields of every category it does not visit as they
were. -/
theorem config_keys_are_distinct :
    (∀ c ∈ ALL_RAID_TYPES,
      getScheduleChannelKey c = some ("schedule_channel_" ++ toLowerCase c) ∧
      getEnabledHostsKey c = some ("enabled_hosts_" ++ toLowerCase c)) ∧
    (∀ guildName existingConfig, ∀ c ∈ ALL_RAID_TYPES, ∀ k ∈ categoryKeys c,
      k ∈ (amendBase guildName existingConfig).map (fun e => e.1)) ∧
    allConfigKeys.length = 15 ∧
    allConfigKeys.Nodup ∧
    (∀ c ∈ ALL_RAID_TYPES, ∀ k ∈ categoryKeys c, k ∈ allConfigKeys) ∧
    (∀ c d, d ∈ ALL_RAID_TYPES → c ≠ d → ∀ k ∈ categoryKeys d, k ∉ writtenKeys c) ∧
    (∀ channels hosts (selected : List String) configData record d,
      d ∈ ALL_RAID_TYPES → d ∉ selected →
      writeSelections channels hosts selected configData = Except.ok record →
      ∀ k ∈ categoryKeys d, fieldOf record k = fieldOf configData k) := by
  refine ⟨by decide, ?_, by decide, by decide, by decide, ?_, ?_⟩
  · intro guildName existingConfig c hc k hk
    have hkeys : (amendBase guildName existingConfig).map (fun e => e.1) =
        ["guild_name", "setup_complete", "auto_update", "schedule_color_ba",
         "schedule_color_ft", "schedule_color_drs", "schedule_channel_ba",
         "schedule_channel_ft", "schedule_channel_drs", "enabled_hosts_ba",
         "enabled_hosts_ft", "enabled_hosts_drs", "schedule_overview_ba",
         "schedule_overview_ft", "schedule_overview_drs", "schedule_message_ba",
         "schedule_message_ft", "schedule_message_drs"] := rfl
    rw [hkeys]
    revert k
    simp only [ALL_RAID_TYPES, List.mem_cons, List.mem_singleton, List.not_mem_nil,
      or_false] at hc
    rcases hc with rfl | rfl | rfl <;> decide
  · intro c d hd hne
    exact categoryKeys_not_written d c hd hne
  · intro channels hosts selected configData record d hd hnot hw k hk
    exact writeSelections_untouched channels hosts k selected configData record
      (fun raidType hr => categoryKeys_not_written d raidType hd
        (fun h => hnot (h ▸ hr)) k hk) hw

/-- C27 at the category FT. -/
theorem config_keys_are_distinct_witness :
    getScheduleChannelKey "FT" = some ("schedule_channel_" ++ toLowerCase "FT") ∧
    getEnabledHostsKey "FT" = some ("enabled_hosts_" ++ toLowerCase "FT") :=
  config_keys_are_distinct.1 "FT" (by decide)

/-! ## The host registry -/

/-- C28, the divergence.  The registry entry of Dynamis Field Operations has the BA
channel `1351065536041324637`, and its BA link leads to the channel
`1208220062326984755` (the FT and DRS channel of that server), not to the BA channel. -/
theorem dfo_ba_link_differs_from_channel :
    ∃ server, objGet HOST_SERVERS "Dynamis Field Operations" = some server ∧
      objGet server.channels "BA" = some "1351065536041324637" ∧
      objGet server.channelLinks "BA" =
        some "https://discord.com/channels/1208039470486519818/1208220062326984755" ∧
      objGet server.channelLinks "BA" ≠
        some ("https://discord.com/channels/" ++ server.guildId ++ "/" ++
          "1351065536041324637") ∧
      getChannelLink "Dynamis Field Operations" "BA" =
        "[Dynamis Field Operations](https://discord.com/channels/1208039470486519818/1208220062326984755)" :=
  ⟨_, rfl, by decide, by decide, by decide, by decide⟩

theorem HOST_SERVERS_links_checked :
    ∀ e ∈ HOST_SERVERS,
      e.2.channelLinks.map (fun p => p.1) = e.2.channels.map (fun p => p.1) ∧
      ∀ p ∈ e.2.channels, (e.1, p.1) ≠ ("Dynamis Field Operations", "BA") →
        objGet e.2.channelLinks p.1 =
          some ("https://discord.com/channels/" ++ e.2.guildId ++ "/" ++ p.2) := by
  decide

/-- Every entry of the registry other than the BA entry of Dynamis Field Operations is
consistent: a server has a link for a category exactly when it has a channel for it, and
the link is `https://discord.com/channels/<guildId>/<channel id>`. -/
theorem host_links_consistent_elsewhere (serverName : String) (server : HostServer)
    (category : String) (hs : (serverName, server) ∈ HOST_SERVERS) :
    ((objGet server.channelLinks category).isSome = (objGet server.channels category).isSome) ∧
    ((serverName, category) ≠ ("Dynamis Field Operations", "BA") →
      ∀ channelId, objGet server.channels category = some channelId →
        objGet server.channelLinks category =
          some ("https://discord.com/channels/" ++ server.guildId ++ "/" ++ channelId)) := by
  obtain ⟨hkeys, hlinks⟩ := HOST_SERVERS_links_checked (serverName, server) hs
  constructor
  · have h1 := objGet_eq_none_iff server.channelLinks category
    have h2 := objGet_eq_none_iff server.channels category
    rw [hkeys] at h1
    cases hl : objGet server.channelLinks category with
    | none =>
      rw [(h2.mpr (h1.mp hl))]
    | some l =>
      cases hc : objGet server.channels category with
      | none => rw [h1.mpr (h2.mp hc)] at hl; cases hl
      | some c => rfl
  · intro hne channelId hget
    have hmem := mem_of_lookup server.channels category channelId hget
    exact hlinks (category, channelId) hmem hne

/-! ## Rendered fields outside the hash -/

/-- C29 (rendered fields outside the hash go undetected).  The run `demoRunNew` and the
same run with another data-center label, for one source at one instant, give the
identical content string in `generateServerHash` (hence the identical hash, whatever the
hash function) while `formatRunGroup` renders different text; the same holds for a
changed reference link.  In general two run lists that differ only in data-center labels
and reference links have the same hash. -/
theorem rendered_fields_outside_the_hash :
    (serverContentString "Host A" [demoRunNew] 200000000 =
        serverContentString "Host A" [{ demoRunNew with RunDC := some "Primal" }] 200000000 ∧
      formatRunGroup "Fresh" [demoRunNew] 200000000 ≠
        formatRunGroup "Fresh" [{ demoRunNew with RunDC := some "Primal" }] 200000000) ∧
    (serverContentString "Host A" [demoRunNew] 200000000 =
        serverContentString "Host A"
          [{ demoRunNew with referenceLink := some "https://example.org/run/17" }]
          200000000 ∧
      formatRunGroup "Fresh" [demoRunNew] 200000000 ≠
        formatRunGroup "Fresh"
          [{ demoRunNew with referenceLink := some "https://example.org/run/17" }]
          200000000) ∧
    (∀ (hashCodeSchedules : String → String) (serverName : String) (runs1 runs2 : List Run)
        (currentTime : Int),
      runs1.map (fun run => { run with RunDC := none, referenceLink := none }) =
        runs2.map (fun run => { run with RunDC := none, referenceLink := none }) →
      serverContentString serverName runs1 currentTime =
        serverContentString serverName runs2 currentTime ∧
      generateServerHash hashCodeSchedules serverName runs1 currentTime =
        generateServerHash hashCodeSchedules serverName runs2 currentTime) := by
  refine ⟨by decide, by decide, ?_⟩
  intro hashCodeSchedules serverName runs1 runs2 currentTime h
  have htuples : runs1.map (canonicalTuple currentTime) =
      runs2.map (canonicalTuple currentTime) := by
    have := congrArg (List.map (canonicalTuple currentTime)) h
    simp only [List.map_map] at this
    exact this
  have hstr := serverContentString_congr serverName currentTime runs1 runs2 htuples
  exact ⟨hstr, by unfold generateServerHash; rw [hstr]⟩

/-- C29 for the runs `demoRunNew` and `demoRunRelabelled` stripped of its new creation
instant: the hash of the polynomial hash function is the same. -/
theorem rendered_fields_outside_the_hash_witness :
    serverContentString "Host A" [demoRunNew] 200000000 =
      serverContentString "Host A"
        [{ demoRunNew with RunDC := some "Primal",
                           referenceLink := some "https://example.org/run/17" }] 200000000 ∧
    generateServerHash hashCode32 "Host A" [demoRunNew] 200000000 =
      generateServerHash hashCode32 "Host A"
        [{ demoRunNew with RunDC := some "Primal",
                           referenceLink := some "https://example.org/run/17" }] 200000000 :=
  rendered_fields_outside_the_hash.2.2 hashCode32 "Host A" [demoRunNew]
    [{ demoRunNew with RunDC := some "Primal",
                       referenceLink := some "https://example.org/run/17" }] 200000000
    (by decide)

/-! ## Host selection for a category outside the selected list -/

theorem jsIndexOf_not_mem (xs : List String) (x : String) (h : x ∉ xs) :
    jsIndexOf xs x = -1 := by
  unfold jsIndexOf
  rw [if_neg h]

/-- The step of `handleHostSelection` for a raid type outside the selected list: the
hosts are stored under it and the handler goes on with `showChannelSelection` for the
first selected raid type. -/
theorem handleHostSelection_outside_list (setupState : SetupState) (interaction : Interaction)
    (state : SetupSession) (first : String) (rest : List String) (r : String)
    (hstate : setupState interaction.userId = some state)
    (hsel : state.selectedRaidTypes = some (first :: rest))
    (hr : r ∉ first :: rest) (hfirst : first ≠ "") :
    handleHostSelection setupState interaction r =
      thenChannelSelection
        (mapSet setupState interaction.userId
          { state with hosts := some (objSet (state.hosts.getD []) r interaction.values) })
        interaction (some first) := by
  have hso : sessionOrEmpty setupState interaction.userId = state := by
    unfold sessionOrEmpty
    rw [hstate]
    rfl
  have hnext : elementAt (first :: rest) (jsIndexOf (first :: rest) r + 1) = some first := by
    rw [jsIndexOf_not_mem _ _ hr]
    simp [elementAt]
  have htruthy : truthyString (some first) = true := by
    simp only [truthyString]
    simpa using hfirst
  unfold handleHostSelection
  simp only [hso, hsel, hnext, htruthy, if_true]

/-- Where the bot cannot create channels, a host selection for a category outside the
selected list is not rejected: the hosts are stored under that category and the channel
selection of the first selected category is shown. -/
theorem host_selection_outside_list_restarts_without_create (setupState : SetupState)
    (interaction : Interaction) (state : SetupSession) (first : String) (rest : List String)
    (r : String) (botMember : BotMember)
    (hstate : setupState interaction.userId = some state)
    (hsel : state.selectedRaidTypes = some (first :: rest))
    (hr : r ∉ first :: rest) (hfirst : first ≠ "")
    (hfetch : interaction.guild.fetchMe = Except.ok botMember)
    (hcannot : (canCreateChannels (some interaction.guild) (some botMember)).canCreate = false) :
    (∃ retry, (handleHostSelection setupState interaction r).shown =
      [Screen.channelSelection first none retry]) ∧
    (handleHostSelection setupState interaction r).thrown = none ∧
    (handleHostSelection setupState interaction r).setupState interaction.userId =
      some { state with hosts := some (objSet (state.hosts.getD []) r interaction.values) } := by
  rw [handleHostSelection_outside_list setupState interaction state first rest r hstate hsel hr
    hfirst]
  have hshow : ∃ retry, showChannelSelection interaction (some first) =
      Except.ok (Screen.channelSelection first none retry) := by
    unfold showChannelSelection
    simp only [hfetch, hcannot]
    exact ⟨_, rfl⟩
  obtain ⟨retry, hshow⟩ := hshow
  unfold thenChannelSelection
  simp only [hshow]
  refine ⟨⟨retry, rfl⟩, rfl, ?_⟩
  simp [Handled.showing, mapSet]

/-- C30, the divergence.  In a guild where the bot has Manage Channels and a role above
position 1, a host selection for a category outside the non-empty selected list stores
the chosen hosts under that category and then shows no screen: `showChannelSelection`
for the first selected category throws the TypeError of the read of
`DEFAULT_SCHEDULE_CHANNEL_NAMES`, which `constants.js` does not export. -/
theorem host_selection_outside_list_throws_where_bot_can_create (setupState : SetupState)
    (interaction : Interaction) (state : SetupSession) (first : String) (rest : List String)
    (r : String) (botMember : BotMember) (flags : List PermissionFlag)
    (hstate : setupState interaction.userId = some state)
    (hsel : state.selectedRaidTypes = some (first :: rest))
    (hr : r ∉ first :: rest) (hfirst : first ≠ "")
    (hfetch : interaction.guild.fetchMe = Except.ok botMember)
    (hperm : botMember.permissions = some flags)
    (hmanage : PermissionFlag.ManageChannels ∈ flags)
    (hrank : 1 < botMember.highestRolePosition) :
    (handleHostSelection setupState interaction r).shown = [] ∧
    (handleHostSelection setupState interaction r).thrown =
      some (typeErrorReadingUndefined (toUpperCase first)) ∧
    (handleHostSelection setupState interaction r).setupState interaction.userId =
      some { state with hosts := some (objSet (state.hosts.getD []) r interaction.values) } := by
  rw [handleHostSelection_outside_list setupState interaction state first rest r hstate hsel hr
    hfirst]
  have hcan : (canCreateChannels (some interaction.guild) (some botMember)).canCreate = true := by
    unfold canCreateChannels
    simp only [hfetch, hperm]
    rw [if_neg (by simpa using hmanage), if_neg (by omega)]
  have hshow : showChannelSelection interaction (some first) =
      Except.error (typeErrorReadingUndefined (toUpperCase first)) := by
    unfold showChannelSelection
    simp only [hfetch, hcan, if_true]
    rfl
  unfold thenChannelSelection
  simp only [hshow]
  refine ⟨rfl, rfl, ?_⟩
  simp [Handled.throwing, mapSet]

/-- C30, the divergence, for the session `[BA, FT]` in the guild `demoGuildCanCreate` and a
host selection for DRS. -/
theorem host_selection_outside_list_throws_where_bot_can_create_witness :
    (handleHostSelection
        (fun u => if u = "u" then some { SetupSession.empty with
          selectedRaidTypes := some ["BA", "FT"], channels := some [], hosts := some [] }
          else none)
        (demoInteraction demoGuildCanCreate "setup_select_hosts_drs" ["CAFE"]) "DRS").shown = [] ∧
    (handleHostSelection
        (fun u => if u = "u" then some { SetupSession.empty with
          selectedRaidTypes := some ["BA", "FT"], channels := some [], hosts := some [] }
          else none)
        (demoInteraction demoGuildCanCreate "setup_select_hosts_drs" ["CAFE"]) "DRS").thrown =
      some (typeErrorReadingUndefined (toUpperCase "BA")) ∧
    (handleHostSelection
        (fun u => if u = "u" then some { SetupSession.empty with
          selectedRaidTypes := some ["BA", "FT"], channels := some [], hosts := some [] }
          else none)
        (demoInteraction demoGuildCanCreate "setup_select_hosts_drs" ["CAFE"])
        "DRS").setupState
        (demoInteraction demoGuildCanCreate "setup_select_hosts_drs" ["CAFE"]).userId =
      some { selectedRaidTypes := some ["BA", "FT"], channels := some [],
             hosts := some (objSet (Option.getD (some []) []) "DRS"
               (demoInteraction demoGuildCanCreate "setup_select_hosts_drs" ["CAFE"]).values),
             returnToConfig := false } :=
  host_selection_outside_list_throws_where_bot_can_create
    (fun u => if u = "u" then some { SetupSession.empty with
      selectedRaidTypes := some ["BA", "FT"], channels := some [], hosts := some [] }
      else none)
    (demoInteraction demoGuildCanCreate "setup_select_hosts_drs" ["CAFE"])
    { SetupSession.empty with
      selectedRaidTypes := some ["BA", "FT"], channels := some [], hosts := some [] }
    "BA" ["FT"] "DRS"
    (demoBot [PermissionFlag.ViewChannel, PermissionFlag.ManageChannels,
      PermissionFlag.SendMessages])
    [PermissionFlag.ViewChannel, PermissionFlag.ManageChannels, PermissionFlag.SendMessages]
    rfl rfl (by decide) (by decide) rfl rfl (by decide) (by decide)

end NAForays
